import Mathlib

/-!
# Chat client: message view, reply normalisation and the submit handler

A shallow embedding of four pieces of the front end:

* `ChatWindow.normalizeBotMarkdown` (ChatWindow.jsx, lines 59-76),
* the `messages` view of `ChatWindow`, the props it hands to the form and the
  renders in which it shows the form (ChatWindow.jsx, lines 49-57, 100-120 and
  220-225),
* `MessageInput.handleSubmit` (MessageInput.jsx, lines 68-234), as a whole and
  turn by turn, from one `await` to the next,
* the log of `DebugPanel` (DebugPanel.jsx, lines 5-11, 61 and 71).

A JavaScript string is kept as the list of its characters.  Every character the
code inspects (`<`, `|`, `-`, `#`, the bullets, white space, hexadecimal digits)
lies in the Basic Multilingual Plane, where one character is one UTF-16 code
unit, so the regular expressions (none carries the `u` flag) read the text one
list element at a time.  Where the code counts or cuts a string (`length` and
`substring` in the derived title) it does so in UTF-16 code units, and the text
is turned into its code units first.
-/

/-- A JavaScript string, as the list of its characters. -/
abbrev Text := List Char

/-- The class `\s` of a JavaScript regular expression, which is also the set of
characters `String.prototype.trim` strips: TAB, LF, VT, FF, CR, space, NBSP,
U+1680, U+2000..U+200A, LS, PS, U+202F, U+205F, U+3000 and U+FEFF. -/
def isWhiteSpace (c : Char) : Bool :=
  let n := c.toNat
  n == 9 || n == 10 || n == 11 || n == 12 || n == 13 || n == 32 || n == 160
    || n == 0x1680 || (0x2000 ≤ n && n ≤ 0x200A) || n == 0x2028 || n == 0x2029
    || n == 0x202F || n == 0x205F || n == 0x3000 || n == 0xFEFF

/-- The method `String.prototype.trim`: white space is removed from both ends. -/
def trim (s : Text) : Text :=
  ((s.dropWhile isWhiteSpace).reverse.dropWhile isWhiteSpace).reverse

/-- A UTF-16 code unit: the element of a JavaScript string that `length` counts
and `substring` cuts at. -/
abbrev CodeUnit := Nat

/-- The code units of a character: the character itself in the Basic
Multilingual Plane, a pair of surrogates above it. -/
def codeUnits (c : Char) : List CodeUnit :=
  if c.toNat < 0x10000 then [c.toNat]
  else [0xD800 + (c.toNat - 0x10000) / 0x400, 0xDC00 + (c.toNat - 0x10000) % 0x400]

/-- A text as the sequence of UTF-16 code units a JavaScript string holds. -/
def utf16 (s : Text) : List CodeUnit :=
  s.flatMap codeUnits

/-- One attempt to match a regular expression at the head of the remaining
text.  On success it gives the text the match is replaced by and the text that
follows the match. -/
abbrev Matcher := Text → Option (Text × Text)

/-- The loop of `String.prototype.replace` with a `g` pattern that cannot match
the empty string: the match is tried at each position from left to right; a
match is replaced and the scan goes on after it, otherwise the character is
kept.  Every round consumes a character, so `fuel` rounds suffice for a text of
`fuel` characters. -/
def replaceAllFuel (m : Matcher) : Nat → Text → Text
  | 0, l => l
  | _ + 1, [] => []
  | fuel + 1, c :: cs =>
    match m (c :: cs) with
    | some (out, rest) => out ++ replaceAllFuel m fuel rest
    | none => c :: replaceAllFuel m fuel cs

/-- The call `text.replace(pattern, replacement)` for a `g` pattern. -/
def replaceAll (m : Matcher) (l : Text) : Text :=
  replaceAllFuel m l.length l

namespace ChatWindow

/-- The pattern `/<br\s*\/?>(\s*)/gi`, replaced by two spaces and a newline.
After `<br` (either letter case) the greedy `\s*` takes the whole run of white
space: a shorter run leaves a white-space character where `/` or `>` is needed. -/
def matchBr : Matcher
  | c :: b :: r :: rest =>
    if c = '<' ∧ (b = 'b' ∨ b = 'B') ∧ (r = 'r' ∨ r = 'R') then
      match rest.dropWhile isWhiteSpace with
      | d :: t =>
        if d = '/' then
          match t with
          | e :: u => if e = '>' then some ("  \n".toList, u.dropWhile isWhiteSpace) else none
          | [] => none
        else if d = '>' then some ("  \n".toList, t.dropWhile isWhiteSpace)
        else none
      | [] => none
    else none
  | _ => none

/-- The pattern `/\s*\|\|\s*/g`, replaced by two newlines. -/
def matchDoublePipe : Matcher := fun l =>
  match l.dropWhile isWhiteSpace with
  | p :: q :: rest =>
    if p = '|' ∧ q = '|' then some ("\n\n".toList, rest.dropWhile isWhiteSpace) else none
  | _ => none

/-- The pattern `/\s*\|\s*\|\s*/g`, replaced by two newlines. -/
def matchPipePair : Matcher := fun l =>
  match l.dropWhile isWhiteSpace with
  | p :: t =>
    if p = '|' then
      match t.dropWhile isWhiteSpace with
      | q :: rest =>
        if q = '|' then some ("\n\n".toList, rest.dropWhile isWhiteSpace) else none
      | [] => none
    else none
  | [] => none

/-- The pattern `/[•·]\s?/g`, replaced by a dash and a space. -/
def matchBullet : Matcher
  | c :: rest =>
    if c = '•' ∨ c = '·' then
      match rest with
      | s :: t => if isWhiteSpace s then some ("- ".toList, t) else some ("- ".toList, rest)
      | [] => some ("- ".toList, [])
    else none
  | [] => none

/-- The pattern `/\n\s*---+\s*(#+)/g`, replaced by two newlines and the group of
hashes.  Each greedy loop takes its whole run: the character after the run of
white space must be a dash or a hash, and the one after the dashes is no dash. -/
def matchRuleHeading : Matcher
  | c :: rest =>
    if c = '\n' then
      let a := rest.dropWhile isWhiteSpace
      if 3 ≤ (a.takeWhile (· = '-')).length then
        let b := (a.dropWhile (· = '-')).dropWhile isWhiteSpace
        let hashes := b.takeWhile (· = '#')
        if 1 ≤ hashes.length then some ("\n\n".toList ++ hashes, b.dropWhile (· = '#'))
        else none
      else none
    else none
  | [] => none

/-- The pattern `/\n{3,}/g`, replaced by two newlines. -/
def matchNewlines : Matcher := fun l =>
  if 3 ≤ (l.takeWhile (· = '\n')).length then
    some ("\n\n".toList, l.dropWhile (· = '\n'))
  else none

/-- The six replacements and the final `trim` of `normalizeBotMarkdown`, in the
order of the source (lines 62-75). -/
def normalizeSteps (text : Text) : Text :=
  let output := text
  let output := replaceAll matchBr output
  let output := replaceAll matchDoublePipe output
  let output := replaceAll matchPipePair output
  let output := replaceAll matchBullet output
  let output := replaceAll matchRuleHeading output
  let output := replaceAll matchNewlines output
  trim output

/-- The values `normalizeBotMarkdown` can be handed. -/
inductive JsValue where
  | undefined
  | null
  | boolean (b : Bool)
  | number (n : Int)
  | object
  | string (s : Text)
  deriving DecidableEq, Repr

/-- The function `normalizeBotMarkdown` of ChatWindow.jsx: a falsy or non-string
argument is returned as it is, a non-empty string goes through the steps. -/
def normalizeBotMarkdown (text : JsValue) : JsValue :=
  match text with
  | .string s => if s = [] then text else .string (normalizeSteps s)
  | _ => text

/-- The function `normalizeBotMarkdown` on strings. -/
def normalize (s : Text) : Text :=
  if s = [] then s else normalizeSteps s

end ChatWindow

namespace ChatWindow

/-- A row of the `messages` table as the query and the subscription select it
(graphql.js, lines 18-30 and 137-149); `created_at` is kept as the instant the
timestamp denotes. -/
structure Message where
  id : Text
  content : Text
  role : Text
  created_at : Nat
  deriving DecidableEq, Repr

/-- The `data` object of the query or of the subscription: its `messages`
field, when present, is an array. -/
structure MessagesData where
  messages : Option (List Message)
  deriving DecidableEq, Repr

/-- The message view of line 50,
`subscriptionData?.messages || queryData?.messages || []`.
An array is truthy in JavaScript even when it is empty, so `||` moves on to the
next operand only when the field is absent. -/
def messages (subscriptionData queryData : Option MessagesData) : List Message :=
  match subscriptionData.bind (·.messages) with
  | some live => live
  | none =>
    match queryData.bind (·.messages) with
    | some snapshot => snapshot
    | none => []

/-- The ordering key of the specification: `(created_at, id)`, compared
lexicographically. -/
def keyLe (a b : Message) : Prop :=
  a.created_at < b.created_at ∨ (a.created_at = b.created_at ∧ a.id ≤ b.id)

instance : DecidableRel keyLe := fun a b =>
  inferInstanceAs (Decidable (a.created_at < b.created_at ∨ (a.created_at = b.created_at ∧ a.id ≤ b.id)))

/-- The `sortByKey` of the specification: the sequence in ascending key order. -/
def sortByKey (l : List Message) : List Message :=
  l.insertionSort keyLe

end ChatWindow

namespace MessageInput

/-- The `chatId` prop: a string, another non-null value (kept as the text
`String(chatId)` gives), or `null`/`undefined`. -/
inductive ChatId where
  | string (s : Text)
  | other (str : Text)
  | missing
  deriving DecidableEq, Repr

/-- A thrown error, as far as the handler reads it: its `message`. -/
structure JsError where
  message : Text
  deriving DecidableEq, Repr

/-- The object `actionResult.data.sendMessage` (graphql.js, lines 127-135). -/
structure BotReply where
  success : Bool
  response : Option Text
  message : Option Text
  deriving DecidableEq, Repr

/-- An entry of `actionResult.errors`. -/
structure GraphQLError where
  message : Option Text
  deriving DecidableEq, Repr

/-- The result of `sendMessageAction`: `sendMessage` is the value of
`actionResult.data?.sendMessage`, `errors` that of `actionResult.errors`. -/
structure ActionResult where
  sendMessage : Option BotReply
  errors : Option (List GraphQLError)
  deriving DecidableEq, Repr

/-- The result of `saveBotResponse`: `id` is the value of
`saveResult.data?.insert_messages_one?.id`. -/
structure SaveResult where
  id : Option Text
  deriving DecidableEq, Repr

/-- What each remote call of one run of the handler does: it returns or it
throws.  `saveBotResponse` is called at two places (lines 153 and 175). -/
structure Outcomes where
  sendMessage : Except JsError Unit
  updateChatTitle : Except JsError Unit
  sendMessageAction : Except JsError ActionResult
  saveBotResponse : Except JsError SaveResult
  refetchMessages : Except JsError Unit
  saveBotResponseFallback : Except JsError SaveResult

/-- The props of `MessageInput` (line 8); `onMessageSent` tells whether the
callback was supplied. -/
structure Props where
  chatId : ChatId
  onMessageSent : Bool
  chatTitle : Text
  isFirstMessage : Bool

/-- The four `useState` cells of `MessageInput` (lines 9-12). -/
structure State where
  message : Text
  isLoading : Bool
  error : Text
  botResponse : Text
  deriving DecidableEq, Repr

/-- The calls `handleSubmit` makes, in the order it makes them. -/
inductive Effect where
  | preventDefault
  | sendMessage (chatId content : Text)
  | updateChatTitle (chatId : Text) (title : List CodeUnit)
  | sendMessageAction (chatId message : Text)
  | saveBotResponse (chatId content : Text)
  | refetchMessages
  | onMessageSent
  | setTimeout (delay : Nat)
  deriving DecidableEq, Repr

/-- The calls that go to the server. -/
def Effect.isRemoteCall : Effect → Bool
  | .sendMessage _ _ => true
  | .updateChatTitle _ _ => true
  | .sendMessageAction _ _ => true
  | .saveBotResponse _ _ => true
  | .refetchMessages => true
  | _ => false

/-- The expression `a || b` for a string or absent `a` and a string `b`: the
empty string and `undefined` are falsy. -/
def orText (a : Option Text) (b : Text) : Text :=
  match a with
  | some (c :: cs) => c :: cs
  | _ => b

/-- Truthiness of a string or absent value. -/
def truthy (a : Option Text) : Bool :=
  match a with
  | some (_ :: _) => true
  | _ => false

/-- String concatenation turns `undefined` into the text `undefined`. -/
def toText (a : Option Text) : Text :=
  match a with
  | some s => s
  | none => "undefined".toList

/-- The class `[0-9a-f]` under the `i` flag: the ranges `0`-`9`, `a`-`f` and
`A`-`F` of code units. -/
def isHexDigit (c : Char) : Bool :=
  let n := c.toNat
  (48 ≤ n && n ≤ 57) || (97 ≤ n && n ≤ 102) || (65 ≤ n && n ≤ 70)

/-- The class `[1-5]`: the range `1`-`5` of code units. -/
def isVersionDigit (c : Char) : Bool :=
  let n := c.toNat
  49 ≤ n && n ≤ 53

/-- The class `[89ab]` under the `i` flag. -/
def isVariantDigit (c : Char) : Bool :=
  c = '8' || c = '9' || c = 'a' || c = 'b' || c = 'A' || c = 'B'

/-- A class repeated exactly `n` times, `[...]{n}`: the text left after it. -/
def matchClass (p : Char → Bool) : Nat → Text → Option Text
  | 0, s => some s
  | _ + 1, [] => none
  | n + 1, c :: s => if p c then matchClass p n s else none

/-- A literal character: the text left after it. -/
def matchChar (c : Char) : Text → Option Text
  | [] => none
  | d :: s => if d = c then some s else none

/-- The test `uuidRegex.test(chatIdUuid)` of lines 91-92, for
`/^[0-9a-f]{8}-[0-9a-f]{4}-[1-5][0-9a-f]{3}-[89ab][0-9a-f]{3}-[0-9a-f]{12}$/i`. -/
def uuidRegexTest (s : Text) : Bool :=
  match (some s >>= matchClass isHexDigit 8 >>= matchChar '-'
      >>= matchClass isHexDigit 4 >>= matchChar '-'
      >>= matchClass isVersionDigit 1 >>= matchClass isHexDigit 3 >>= matchChar '-'
      >>= matchClass isVariantDigit 1 >>= matchClass isHexDigit 3 >>= matchChar '-'
      >>= matchClass isHexDigit 12) with
  | some [] => true
  | _ => false

/-- Lines 80-94: the chat id as text, trimmed, or the error thrown. -/
def validateChatId (chatId : ChatId) : Except JsError Text :=
  match chatId with
  | .missing => .error ⟨"Chat ID is required".toList⟩
  | .string s =>
    if uuidRegexTest (trim s) then .ok (trim s)
    else .error ⟨"Invalid UUID format: ".toList ++ trim s⟩
  | .other str =>
    if uuidRegexTest (trim str) then .ok (trim str)
    else .error ⟨"Invalid UUID format: ".toList ++ trim str⟩

/-- Line 113: the title derived from the first message,
`messageContent.length > 50 ? messageContent.substring(0, 50) + '...' : messageContent`.
`length` counts UTF-16 code units and `substring` cuts between code units, so
the title is kept as code units: a cut may fall inside a surrogate pair. -/
def deriveTitle (messageContent : Text) : List CodeUnit :=
  if (utf16 messageContent).length > 50 then
    (utf16 messageContent).take 50 ++ utf16 "...".toList
  else utf16 messageContent

/-- Lines 173-199, the body of `catch (saveError)`: the second
`saveBotResponse` call, then either the timer for the delayed refetch or the
error.  `before` is what the handler has called so far. -/
def saveFallback (o : Outcomes) (chatIdUuid responseContent : Text) (st : State)
    (before : List Effect) : State × List Effect :=
  match o.saveBotResponseFallback with
  | .ok _ =>
    (st, before ++ [.saveBotResponse chatIdUuid responseContent, .setTimeout 1000])
  | .error _ =>
    ({ st with error := "Bot response received but failed to save to database".toList },
      before ++ [.saveBotResponse chatIdUuid responseContent])

/-- Lines 150-200: the first `saveBotResponse` call, the refetch when it gives
an id, and the `catch (saveError)` around both. -/
def saveReply (p : Props) (o : Outcomes) (chatIdUuid responseContent : Text) (st : State) :
    State × List Effect :=
  match o.saveBotResponse with
  | .error _ =>
    saveFallback o chatIdUuid responseContent st [.saveBotResponse chatIdUuid responseContent]
  | .ok saveResult =>
    if truthy saveResult.id then
      match o.refetchMessages with
      | .error _ =>
        saveFallback o chatIdUuid responseContent st
          [.saveBotResponse chatIdUuid responseContent, .refetchMessages]
      | .ok _ =>
        (st, [.saveBotResponse chatIdUuid responseContent, .refetchMessages]
          ++ (if p.onMessageSent then [.onMessageSent] else []))
    else (st, [.saveBotResponse chatIdUuid responseContent])

/-- Line 146: `response.response || response.message || 'Bot responded successfully'`. -/
def responseContent (response : BotReply) : Text :=
  orText response.response (orText response.message "Bot responded successfully".toList)

/-- Lines 122-217: the `sendMessageAction` call and what follows it. -/
def requestReply (p : Props) (o : Outcomes) (chatIdUuid messageContent : Text) (st : State) :
    State × List Effect :=
  match o.sendMessageAction with
  | .error _ =>
    ({ st with error := "Failed to get bot response. Please try again.".toList },
      [.sendMessageAction chatIdUuid messageContent])
  | .ok actionResult =>
    match actionResult.sendMessage with
    | some response =>
      if response.success then
        let responseContent := responseContent response
        let (st, effects) :=
          saveReply p o chatIdUuid responseContent { st with botResponse := responseContent }
        (st, .sendMessageAction chatIdUuid messageContent :: effects)
      else
        ({ st with error :=
            "Bot response failed: ".toList ++ orText response.message "Unknown error".toList },
          [.sendMessageAction chatIdUuid messageContent])
    | none =>
      match actionResult.errors with
      | some errors =>
        ({ st with error :=
            "Failed to get bot response: ".toList ++ toText (errors.head?.bind (·.message)) },
          [.sendMessageAction chatIdUuid messageContent])
      | none => (st, [.sendMessageAction chatIdUuid messageContent])

/-- Lines 110-120: the title update for a first message.  The call sits in a
`try` of its own whose `catch` only logs, so the handler goes on in the same way
whether `updateChatTitle` returns or throws. -/
def updateTitle (p : Props) (o : Outcomes) (chatIdUuid messageContent : Text) : List Effect :=
  if p.isFirstMessage ∧ p.chatTitle = "New Chat".toList then
    match o.updateChatTitle with
    | .ok _ => [.updateChatTitle chatIdUuid (deriveTitle messageContent)]
    | .error _ => [.updateChatTitle chatIdUuid (deriveTitle messageContent)]
  else []

/-- Lines 78-230, the outer `try` with its `catch`: validation, the
`sendMessage` call, the title update and the reply. -/
def attempt (p : Props) (o : Outcomes) (messageContent : Text) (st : State) :
    State × List Effect :=
  match validateChatId p.chatId with
  | .error err =>
    ({ st with error := "Failed to send message: ".toList ++ err.message }, [])
  | .ok chatIdUuid =>
    match o.sendMessage with
    | .error err =>
      ({ st with error := "Failed to send message: ".toList ++ err.message },
        [.sendMessage chatIdUuid messageContent])
    | .ok _ =>
      let titleUpdate := updateTitle p o chatIdUuid messageContent
      let (st, effects) := requestReply p o chatIdUuid messageContent st
      (st, .sendMessage chatIdUuid messageContent :: titleUpdate ++ effects)

/-- The handler `handleSubmit` (lines 68-234): the state it leaves and the calls
it made.  The callback `onMessageSent` is an `async` function, which does not
throw to its caller. -/
def handleSubmit (p : Props) (o : Outcomes) (st : State) : State × List Effect :=
  if trim st.message = [] ∨ st.isLoading = true then (st, [.preventDefault])
  else
    let messageContent := trim st.message
    let (st, effects) :=
      attempt p o messageContent
        { message := [], isLoading := true, error := [], botResponse := [] }
    ({ st with isLoading := false }, .preventDefault :: effects)

/-- Lines 184-195: the callback handed to `setTimeout`; a throwing refetch is
caught and logged. -/
def delayedRefetch (p : Props) (refetchMessages : Except JsError Unit) : List Effect :=
  match refetchMessages with
  | .error _ => [.refetchMessages]
  | .ok _ => .refetchMessages :: (if p.onMessageSent then [.onMessageSent] else [])

end MessageInput

/-! ## What the mutations insert, and what `ChatWindow` hands to the form -/

namespace MessageInput

/-- The object an insert mutation writes into `messages`. -/
structure InsertedRow where
  chat_id : Text
  content : Text
  role : Text
  deriving DecidableEq, Repr

/-- The row a call inserts: `SEND_MESSAGE` writes the role `user` (graphql.js,
lines 64-79), `SAVE_BOT_RESPONSE` the role `assistant` (lines 110-125); the
other calls insert nothing. -/
def Effect.insertedRow : Effect → Option InsertedRow
  | .sendMessage chatId content => some ⟨chatId, content, "user".toList⟩
  | .saveBotResponse chatId content => some ⟨chatId, content, "assistant".toList⟩
  | _ => none

/-- The calls of `saveBotResponse`. -/
def Effect.isPersist : Effect → Bool
  | .saveBotResponse _ _ => true
  | _ => false

/-- The calls of `saveBotResponse` among the calls made, in order. -/
def persistCalls (effects : List Effect) : List Effect :=
  effects.filter Effect.isPersist

end MessageInput

namespace ChatWindow

/-- An entry of the chat list (graphql.js, lines 3-16), as far as `ChatWindow`
reads it. -/
structure Chat where
  id : Text
  title : Text
  deriving DecidableEq, Repr

/-- The `data` object of the `GET_CHATS` query. -/
structure ChatsData where
  chats : Option (List Chat)
  deriving DecidableEq, Repr

/-- Line 55: `chatData?.chats?.find(chat => chat.id === chatIdString)`. -/
def currentChat (chatData : Option ChatsData) (chatIdString : Text) : Option Chat :=
  (chatData.bind (·.chats)).bind fun chats => chats.find? fun chat => chat.id = chatIdString

/-- Line 56: `currentChat?.title || 'New Chat'`. -/
def chatTitle (chatData : Option ChatsData) (chatIdString : Text) : Text :=
  MessageInput.orText ((currentChat chatData chatIdString).map (·.title)) "New Chat".toList

/-- Line 57: `messages.length === 0`. -/
def isFirstMessage (messages : List Message) : Bool :=
  messages.length == 0

/-- Lines 220-225: the props `ChatWindow` hands to `MessageInput`. -/
def messageInputProps (chatData : Option ChatsData)
    (subscriptionData queryData : Option MessagesData) (chatIdString : Text) :
    MessageInput.Props :=
  { chatId := .string chatIdString, onMessageSent := true,
    chatTitle := chatTitle chatData chatIdString,
    isFirstMessage := isFirstMessage (messages subscriptionData queryData) }

/-- Lines 149-206: a message of the user is shown as it is stored, any other
message goes through `normalizeBotMarkdown` when it is rendered. -/
def displayedContent (message : Message) : JsValue :=
  if message.role = "user".toList then .string message.content
  else normalizeBotMarkdown (.string message.content)

end ChatWindow

/-! ## The debug log and the timers of the form -/

namespace DebugPanel

/-- An entry of `debugLog` (DebugPanel.jsx, line 9). -/
structure LogEntry where
  timestamp : Text
  action : Text
  deriving DecidableEq, Repr

/-- Lines 7-11: the effect that runs for a value of `lastAction`; `now` is what
`new Date().toISOString()` gives.  An empty `lastAction` is falsy. -/
def logAction (prev : List LogEntry) (now lastAction : Text) : List LogEntry :=
  if lastAction ≠ [] then prev ++ [⟨now, lastAction⟩] else prev

/-- Line 61: `debugLog.slice(-5)`, the entries the panel shows. -/
def recentActions (debugLog : List LogEntry) : List LogEntry :=
  debugLog.drop (debugLog.length - 5)

/-- Line 71: `setDebugLog([])`. -/
def clearLog (_ : List LogEntry) : List LogEntry := []

/-- A mounted `DebugPanel`, as far as the log goes: the prop `lastAction` of its
last render, which the dependency array `[lastAction]` of line 11 compares the
next one with, and the state cell `debugLog` (line 5). -/
structure Panel where
  lastAction : Text
  debugLog : List LogEntry
  deriving DecidableEq, Repr

/-- The first render of a panel: the log starts empty (line 5) and the effect of
lines 7-11 runs once. -/
def mount (now lastAction : Text) : Panel :=
  { lastAction := lastAction, debugLog := logAction [] now lastAction }

/-- A later render with the prop `lastAction`: the effect runs only when the
value differs from the one of the previous render. -/
def Panel.render (panel : Panel) (now lastAction : Text) : Panel :=
  if lastAction = panel.lastAction then panel
  else { lastAction := lastAction, debugLog := logAction panel.debugLog now lastAction }

/-- What happens to a mounted panel: `ChatWindow` renders it with a value of
`lastAction` (`now` is the time an entry would carry), or `Clear Log` is
clicked. -/
inductive Event where
  | render (now lastAction : Text)
  | clearLog
  deriving DecidableEq, Repr

/-- One event on a mounted panel. -/
def Panel.step (panel : Panel) : Event → Panel
  | .render now lastAction => panel.render now lastAction
  | .clearLog => { panel with debugLog := clearLog panel.debugLog }

/-- A sequence of events on a mounted panel. -/
def Panel.run (panel : Panel) (events : List Event) : Panel :=
  events.foldl Panel.step panel

/-- The two values `handleMessageSent` gives `lastAction` when a refetch goes
well (ChatWindow.jsx, lines 84 and 87), rendered one after the other. -/
def sentAndRefetched : List Event :=
  [.render "t1".toList "Message sent, refetching messages".toList,
   .render "t2".toList "Messages refetched successfully".toList]

end DebugPanel

namespace MessageInput

/-- The calls of `setTimeout`. -/
def Effect.isTimer : Effect → Bool
  | .setTimeout _ => true
  | _ => false

/-- A mounted `MessageInput`: its props, its state cells and the timers it has
set and that have not fired yet.  A timer is the closure of lines 184-195, which
holds the `refetchMessages` and `onMessageSent` of the render that set it, kept
here as the props of that render. -/
structure Form where
  props : Props
  state : State
  timers : List Props

/-- A submit event: `handleSubmit` runs, and every `setTimeout` call leaves a
pending timer.  The value `setTimeout` returns is not kept (line 184). -/
def Form.submit (f : Form) (o : Outcomes) : Form × List Effect :=
  ({ f with
      state := (handleSubmit f.props o f.state).1,
      timers := f.timers ++ ((handleSubmit f.props o f.state).2.filter Effect.isTimer).map
        fun _ => f.props },
    (handleSubmit f.props o f.state).2)

/-- `ChatWindow` renders the form for another conversation.  `MessageInput` has
no effect hook and never calls `clearTimeout`, so nothing but the prop changes. -/
def Form.changeChat (f : Form) (chatId : ChatId) : Form :=
  { f with props := { f.props with chatId := chatId } }

/-- The oldest pending timer fires and its callback runs. -/
def Form.fireTimer (f : Form) (refetchMessages : Except JsError Unit) : Form × List Effect :=
  match f.timers with
  | [] => (f, [])
  | timer :: rest => ({ f with timers := rest }, delayedRefetch timer refetchMessages)

end MessageInput

/-! ## The handler turn by turn, and the forms of a window -/

namespace MessageInput

/-- The `await` at which a call of `handleSubmit` is suspended, with the locals
the rest of the call reads. -/
inductive Await where
  | sendMessage (chatIdUuid messageContent : Text)
  | updateChatTitle (chatIdUuid messageContent : Text)
  | sendMessageAction (chatIdUuid messageContent : Text)
  | saveBotResponse (chatIdUuid responseContent : Text)
  | refetchMessages (chatIdUuid responseContent : Text)
  | saveBotResponseFallback
  deriving DecidableEq, Repr

/-- One turn of the handler, from the event or from a settled promise up to the
next `await` or to the end: the state cells after its setter calls, the calls it
made, and the `await` it is suspended at when it has not returned. -/
abbrev Turn := State × List Effect × Option Await

/-- Lines 231-233: the `finally` block, after which the call has returned. -/
def finish (st : State) (effects : List Effect) : Turn :=
  ({ st with isLoading := false }, effects, none)

/-- Lines 122-135: the call of `sendMessageAction` and its `await`. -/
def callAction (chatIdUuid messageContent : Text) (st : State) : Turn :=
  (st, [.sendMessageAction chatIdUuid messageContent],
    some (.sendMessageAction chatIdUuid messageContent))

/-- Lines 173-180: the second call of `saveBotResponse`, in `catch (saveError)`,
and its `await`. -/
def callFallback (chatIdUuid responseContent : Text) (st : State) : Turn :=
  (st, [.saveBotResponse chatIdUuid responseContent], some .saveBotResponseFallback)

/-- Lines 68-106: the handler from the submit event to its first `await`. -/
def start (p : Props) (st : State) : Turn :=
  if trim st.message = [] ∨ st.isLoading = true then (st, [.preventDefault], none)
  else
    let messageContent := trim st.message
    let st : State := { message := [], isLoading := true, error := [], botResponse := [] }
    match validateChatId p.chatId with
    | .error err =>
      finish { st with error := "Failed to send message: ".toList ++ err.message }
        [.preventDefault]
    | .ok chatIdUuid =>
      (st, [.preventDefault, .sendMessage chatIdUuid messageContent],
        some (.sendMessage chatIdUuid messageContent))

/-- The handler from a settled promise to its next `await` or to its end
(lines 101-233).  `o` tells how the awaited call settles; `p` holds the props of
the render whose handler was called. -/
def resume (p : Props) (o : Outcomes) (st : State) : Await → Turn
  | .sendMessage chatIdUuid messageContent =>
    match o.sendMessage with
    | .error err =>
      finish { st with error := "Failed to send message: ".toList ++ err.message } []
    | .ok _ =>
      if p.isFirstMessage ∧ p.chatTitle = "New Chat".toList then
        (st, [.updateChatTitle chatIdUuid (deriveTitle messageContent)],
          some (.updateChatTitle chatIdUuid messageContent))
      else callAction chatIdUuid messageContent st
  | .updateChatTitle chatIdUuid messageContent =>
    match o.updateChatTitle with
    | .ok _ => callAction chatIdUuid messageContent st
    | .error _ => callAction chatIdUuid messageContent st
  | .sendMessageAction chatIdUuid _ =>
    match o.sendMessageAction with
    | .error _ =>
      finish { st with error := "Failed to get bot response. Please try again.".toList } []
    | .ok actionResult =>
      match actionResult.sendMessage with
      | some response =>
        if response.success then
          ({ st with botResponse := responseContent response },
            [.saveBotResponse chatIdUuid (responseContent response)],
            some (.saveBotResponse chatIdUuid (responseContent response)))
        else
          finish { st with error :=
            "Bot response failed: ".toList ++ orText response.message "Unknown error".toList } []
      | none =>
        match actionResult.errors with
        | some errors =>
          finish { st with error :=
            "Failed to get bot response: ".toList ++ toText (errors.head?.bind (·.message)) } []
        | none => finish st []
  | .saveBotResponse chatIdUuid responseContent =>
    match o.saveBotResponse with
    | .error _ => callFallback chatIdUuid responseContent st
    | .ok saveResult =>
      if truthy saveResult.id then
        (st, [.refetchMessages], some (.refetchMessages chatIdUuid responseContent))
      else finish st []
  | .refetchMessages chatIdUuid responseContent =>
    match o.refetchMessages with
    | .error _ => callFallback chatIdUuid responseContent st
    | .ok _ => finish st (if p.onMessageSent then [.onMessageSent] else [])
  | .saveBotResponseFallback =>
    match o.saveBotResponseFallback with
    | .ok _ => finish st [.setTimeout 1000]
    | .error _ =>
      finish { st with error := "Bot response received but failed to save to database".toList }
        []

/-- The handler run from a turn to its end with nothing in between, every
awaited call settling as `o` tells. -/
def runTurns (p : Props) (o : Outcomes) : Nat → Turn → State × List Effect
  | 0, (st, effects, _) => (st, effects)
  | _ + 1, (st, effects, none) => (st, effects)
  | fuel + 1, (st, effects, some a) =>
    runTurns p o fuel
      ((resume p o st a).1, effects ++ (resume p o st a).2.1, (resume p o st a).2.2)

end MessageInput

namespace MessageInput

/-- A call of `handleSubmit` that has not returned: the props of the render whose
handler was called, which the rest of the call reads, and the `await` it is
suspended at. -/
structure Attempt where
  props : Props
  awaiting : Await

/-- A mounted `MessageInput` whose handler is taken turn by turn: the props of
its last render, its state cells, the timers it has set and that have not
fired, and the calls of its handler that have not returned.  (`Form` is the
same form with the handler taken as a whole.) -/
structure Mounted where
  props : Props
  state : State
  timers : List Props
  inFlight : List Attempt

/-- The first render of a form: the initial values of the state cells
(lines 9-12), no timer, no call made. -/
def mount (props : Props) : Mounted :=
  { props := props,
    state := { message := [], isLoading := false, error := [], botResponse := [] },
    timers := [], inFlight := [] }

/-- What happens to a mounted form: the input changes (line 547), the form is
submitted (line 543), the promise that the `i`-th call in flight awaits settles
as `o` tells, the oldest pending timer fires, or `ChatWindow` renders the form
with other props. -/
inductive FormEvent where
  | change (value : Text)
  | submit
  | settle (i : Nat) (o : Outcomes)
  | fireTimer (refetchMessages : Except JsError Unit)
  | render (props : Props)

/-- The timers a turn sets, each holding the props of the render whose handler
set it. -/
def newTimers (props : Props) (effects : List Effect) : List Props :=
  (effects.filter Effect.isTimer).map fun _ => props

/-- One event on a mounted form: the form after it and the calls made.  The
state cells are up to date whenever an event is handled, React having rendered
the form again after the setter calls of the event before. -/
def Mounted.step (f : Mounted) : FormEvent → Mounted × List Effect
  | .change value => ({ f with state := { f.state with message := value } }, [])
  | .submit =>
    ({ f with
        state := (start f.props f.state).1,
        timers := f.timers ++ newTimers f.props (start f.props f.state).2.1,
        inFlight := f.inFlight ++
          ((start f.props f.state).2.2.map fun a => (⟨f.props, a⟩ : Attempt)).toList },
      (start f.props f.state).2.1)
  | .settle i o =>
    match f.inFlight.get? i with
    | none => (f, [])
    | some attempt =>
      ({ f with
          state := (resume attempt.props o f.state attempt.awaiting).1,
          timers := f.timers ++
            newTimers attempt.props (resume attempt.props o f.state attempt.awaiting).2.1,
          inFlight :=
            match (resume attempt.props o f.state attempt.awaiting).2.2 with
            | some a => f.inFlight.set i ⟨attempt.props, a⟩
            | none => f.inFlight.eraseIdx i },
        (resume attempt.props o f.state attempt.awaiting).2.1)
  | .fireTimer refetchMessages =>
    match f.timers with
    | [] => (f, [])
    | timer :: rest => ({ f with timers := rest }, delayedRefetch timer refetchMessages)
  | .render props => ({ f with props := props }, [])

/-- A sequence of events on a mounted form. -/
def Mounted.run (f : Mounted) (events : List FormEvent) : Mounted :=
  events.foldl (fun f e => (f.step e).1) f

end MessageInput

namespace ChatWindow

/-- Lines 100-120 and 220: `ChatWindow` returns the tree that holds
`MessageInput` only when the chat id is truthy (line 100), nothing is loading
(line 108) and no error came (line 114). -/
def rendersForm (chatIdString : Option Text) (loading error : Bool) : Bool :=
  MessageInput.truthy chatIdString && !loading && !error

/-- The forms of a `ChatWindow`: the one it renders now, if any, and the earlier
ones, which React has unmounted and whose calls in flight and timers go on. -/
structure Window where
  form : Option MessageInput.Mounted
  unmounted : List MessageInput.Mounted

/-- What happens to the window: `ChatWindow` renders (with the values of lines
15, 51 and 52 and the props of lines 220-225), something happens to the form it
shows, or a promise settles or a timer fires for the `j`-th unmounted form. -/
inductive WindowEvent where
  | render (chatIdString : Option Text) (loading error : Bool) (props : MessageInput.Props)
  | form (e : MessageInput.FormEvent)
  | unmounted (j : Nat) (e : MessageInput.FormEvent)

/-- One event on the window.  A form that is no longer part of the returned tree
is unmounted, a form that becomes part of it is mounted anew with its initial
state; an unmounted form takes no user event and its setter calls change
nothing. -/
def Window.step (w : Window) : WindowEvent → Window × List MessageInput.Effect
  | .render chatIdString loading error props =>
    if rendersForm chatIdString loading error then
      match w.form with
      | some f => ({ w with form := some (f.step (.render props)).1 }, [])
      | none => ({ w with form := some (MessageInput.mount props) }, [])
    else
      match w.form with
      | some f => ({ form := none, unmounted := w.unmounted ++ [f] }, [])
      | none => (w, [])
  | .form e =>
    match w.form with
    | some f => ({ w with form := some (f.step e).1 }, (f.step e).2)
    | none => (w, [])
  | .unmounted j e =>
    match w.unmounted.get? j, e with
    | some f, .settle i o =>
      ({ w with unmounted :=
          w.unmounted.set j { (f.step (.settle i o)).1 with state := f.state } },
        (f.step (.settle i o)).2)
    | some f, .fireTimer refetchMessages =>
      ({ w with unmounted := w.unmounted.set j (f.step (.fireTimer refetchMessages)).1 },
        (f.step (.fireTimer refetchMessages)).2)
    | _, _ => (w, [])

/-- A sequence of events on the window: the window after them and the calls
made, in order. -/
def Window.run (w : Window) : List WindowEvent → Window × List MessageInput.Effect
  | [] => (w, [])
  | e :: rest =>
    ((Window.run (w.step e).1 rest).1, (w.step e).2 ++ (Window.run (w.step e).1 rest).2)

/-- The calls of `handleSubmit` in flight, of the form shown and of the
unmounted ones. -/
def Window.inFlight (w : Window) : List MessageInput.Attempt :=
  (w.form.toList ++ w.unmounted).flatMap (·.inFlight)

end ChatWindow

namespace MessageInput

/-- Either no call of the handler is in flight and `isLoading` is false, or
exactly one is and `isLoading` is true. -/
def Mounted.OneAttempt (f : Mounted) : Prop :=
  (f.inFlight = [] ∧ f.state.isLoading = false) ∨
    (∃ a, f.inFlight = [a] ∧ f.state.isLoading = true)

end MessageInput

/-! ## Properties of texts and matchers -/

/-- Every match of the matcher consumes at least one character. -/
def Shrinks (m : Matcher) : Prop :=
  ∀ l out rest, m l = some (out, rest) → rest.length < l.length

/-- The pattern matches somewhere in the text: at the head of one of its
suffixes. -/
def occurs (m : Matcher) (l : Text) : Bool :=
  l.tails.any fun t => (m t).isSome

namespace ChatWindow

/-- No two pipe characters of the text are adjacent or separated by white space
only.  `afterPipe` tells that the last character before the text that is not
white space is a pipe. -/
def pipesApart : Bool → Text → Bool
  | _, [] => true
  | afterPipe, c :: cs =>
    if c = '|' then !afterPipe && pipesApart true cs
    else if isWhiteSpace c then pipesApart afterPipe cs
    else pipesApart false cs

/-- The text has no three newline characters in a row, `k` newlines standing
immediately before it. -/
def newlinesBelow3 : Nat → Text → Bool
  | _, [] => true
  | k, c :: cs =>
    if c = '\n' then decide (k + 1 < 3) && newlinesBelow3 (k + 1) cs
    else newlinesBelow3 0 cs

end ChatWindow

/-- A character other than white space, `|`, `<`, `-`, `#` and the two
bullets: none of the patterns of `normalizeBotMarkdown` looks for it. -/
def isPlain (c : Char) : Bool :=
  !isWhiteSpace c && c != '|' && c != '<' && c != '-' && c != '#' && c != '•' && c != '·'

/-! ## The specification's side -/

namespace MessageInput

/-- What the specification asks of the character at position `i` (counted from
0) of a conversation id: a hyphen at 8, 13, 18 and 23, a version digit `1..5`
at 14, a variant digit `8`, `9`, `a` or `b` (in either letter case, as every
hexadecimal digit) at 19, a hexadecimal digit elsewhere. -/
def uuidPositionOk (i : Nat) (c : Char) : Bool :=
  if i = 8 ∨ i = 13 ∨ i = 18 ∨ i = 23 then c = '-'
  else if i = 14 then c ∈ "12345".toList
  else if i = 19 then c ∈ "89abAB".toList
  else c ∈ "0123456789abcdefABCDEF".toList

/-- The canonical textual form of a UUID in the words of the specification: 36
characters in the 8-4-4-4-12 layout. -/
def WellFormedUuid (s : Text) : Prop :=
  s.length = 36 ∧ ∀ i (h : i < s.length), uuidPositionOk i (s.get ⟨i, h⟩) = true

/-- A text matched against one character class per position: the text left
after the classes. -/
def matchSeq : List (Char → Bool) → Text → Option Text
  | [], s => some s
  | _ :: _, [] => none
  | p :: ps, c :: s => if p c then matchSeq ps s else none

/-- The classes of the UUID pattern, one per position. -/
def uuidLayout : List (Char → Bool) :=
  List.replicate 8 isHexDigit ++ (fun c => decide (c = '-')) ::
    (List.replicate 4 isHexDigit ++ (fun c => decide (c = '-')) ::
      (List.replicate 1 isVersionDigit ++ (List.replicate 3 isHexDigit ++
        (fun c => decide (c = '-')) ::
          (List.replicate 1 isVariantDigit ++ (List.replicate 3 isHexDigit ++
            (fun c => decide (c = '-')) :: (List.replicate 12 isHexDigit ++ []))))))

end MessageInput

namespace ChatWindow

/-- A message sent first. -/
def msgEarly : Message := ⟨"m1".toList, "first".toList, "user".toList, 1⟩

/-- A message sent later. -/
def msgLate : Message := ⟨"m2".toList, "second".toList, "assistant".toList, 2⟩

/-- Another row with the id of `msgEarly` and another content. -/
def msgEarlyAgain : Message := ⟨"m1".toList, "changed".toList, "user".toList, 1⟩

end ChatWindow

namespace ChatWindow

/-- The text holds an HTML line-break marker: `<br` in either letter case, white
space or none, a `/` or none, and `>`. -/
def HasBreakMarker (l : Text) : Prop :=
  ∃ pre b r w slash post,
    l = pre ++ '<' :: b :: r :: (w ++ slash ++ '>' :: post) ∧
      (b = 'b' ∨ b = 'B') ∧ (r = 'r' ∨ r = 'R') ∧
      (∀ c ∈ w, isWhiteSpace c = true) ∧ (slash = [] ∨ slash = ['/'])

/-- Every `<` of the text starts a match of the line-break pattern. -/
def everyAngleStartsBreak (l : Text) : Bool :=
  l.tails.all fun t =>
    match t with
    | c :: _ => c != '<' || (matchBr t).isSome
    | [] => true

end ChatWindow

/-! ## A `<br` that the replacements close -/

namespace ChatWindow

/-- Where a scan for a closed `<br` stands: nowhere, after `<`, after `<b`, after
`<br` and a run of white space and pipes (`even` tells that the pipes of the run
are even in number), or after such a run with an even number of pipes and `/`. -/
inductive Scan where
  | idle
  | lt
  | b
  | gap (even : Bool)
  | slash
  deriving DecidableEq, Repr

/-- The scan after a white-space character. -/
def Scan.space : Scan → Scan
  | .gap even => .gap even
  | _ => .idle

/-- The scan after a pipe. -/
def Scan.pipe : Scan → Scan
  | .gap even => .gap (!even)
  | _ => .idle

/-- The scan after one more character; `none` when the character closes a `<br`
behind white space and an even number of pipes. -/
def Scan.next (s : Scan) (c : Char) : Option Scan :=
  if c = '<' then some .lt
  else if isWhiteSpace c then some s.space
  else if c = '|' then some s.pipe
  else
    match s with
    | .idle => some .idle
    | .lt => if c = 'b' ∨ c = 'B' then some .b else some .idle
    | .b => if c = 'r' ∨ c = 'R' then some (.gap true) else some .idle
    | .gap even =>
      if c = '>' then (if even then none else some .idle)
      else if c = '/' then (if even then some .slash else some .idle)
      else some .idle
    | .slash => if c = '>' then none else some .idle

/-- No `<br` of the text is closed by `>` or `/>` behind a run of white space and
an even number of pipes, the scan standing at `s` before the text. -/
def noClose : Scan → Text → Bool
  | _, [] => true
  | s, c :: cs =>
    match s.next c with
    | none => false
    | some t => noClose t cs

/-- Where the reading of the text behind a `<br` stands: in the run of white
space, pipes and complete line-break markers (`even` tells that the pipes read
so far are even in number), behind the run and a `/`, or inside a marker of the
run: after its `<`, after `<b`, after `<br` and white space, after `<br`, white
space and `/`. -/
inductive Gap where
  | run (even : Bool)
  | slash
  | lt (even : Bool)
  | b (even : Bool)
  | br (even : Bool)
  | brSlash (even : Bool)
  deriving DecidableEq, Repr

/-- The text goes on with a run of white space, `|` characters and complete
line-break markers and then with `>` or `/>`, and the pipes of the run are even
in number. -/
def closes : Gap → Text → Bool
  | _, [] => false
  | .run even, c :: cs =>
    if c = '<' then closes (.lt even) cs
    else if isWhiteSpace c then closes (.run even) cs
    else if c = '|' then closes (.run (!even)) cs
    else if c = '>' then even
    else if c = '/' then even && closes .slash cs
    else false
  | .slash, c :: _ => c = '>'
  | .lt even, c :: cs => if c = 'b' ∨ c = 'B' then closes (.b even) cs else false
  | .b even, c :: cs => if c = 'r' ∨ c = 'R' then closes (.br even) cs else false
  | .br even, c :: cs =>
    if isWhiteSpace c then closes (.br even) cs
    else if c = '/' then closes (.brSlash even) cs
    else if c = '>' then closes (.run even) cs
    else false
  | .brSlash even, c :: cs => if c = '>' then closes (.run even) cs else false

/-- The text starts with a `<br` (either letter case) that is no line-break
marker but is closed all the same once the replacements have run: behind it come
a run of white space, complete markers and an even number of pipes, and then `>`
or `/>`. -/
def opensBreak (t : Text) : Bool :=
  match t with
  | c :: b :: r :: rest =>
    decide (c = '<' ∧ (b = 'b' ∨ b = 'B') ∧ (r = 'r' ∨ r = 'R')) && (matchBr t).isNone &&
      closes (.run true) rest
  | _ => false

/-- Somewhere in the text stands a `<br` that is no line-break marker and is
closed behind a run of white space, complete markers and an even number of
pipes. -/
def leavesBreak (l : Text) : Bool :=
  l.tails.any opensBreak

/-- The `<br` the scan at `s` has read is closed by the text that follows, the
markers of the text being still in place. -/
def Scan.closedBy : Scan → Text → Bool
  | .idle, _ => false
  | .lt, c :: d :: rest =>
    decide ((c = 'b' ∨ c = 'B') ∧ (d = 'r' ∨ d = 'R')) && closes (.run true) rest
  | .lt, _ => false
  | .b, d :: rest => decide (d = 'r' ∨ d = 'R') && closes (.run true) rest
  | .b, _ => false
  | .gap even, l => closes (.run even) l
  | .slash, l => closes .slash l

/-- What the scan at `s` knows of the text `pre` it has read. -/
def Scan.Read : Scan → Text → Prop
  | .idle, _ => True
  | .lt, pre => ∃ p, pre = p ++ ['<']
  | .b, pre => ∃ p c, (c = 'b' ∨ c = 'B') ∧ pre = p ++ ['<', c]
  | .gap true, pre => ∃ p c d w, (c = 'b' ∨ c = 'B') ∧ (d = 'r' ∨ d = 'R') ∧
      (∀ e ∈ w, isWhiteSpace e = true) ∧ pre = p ++ '<' :: c :: d :: w
  | .gap false, _ => True
  | .slash, pre => ∃ p c d w, (c = 'b' ∨ c = 'B') ∧ (d = 'r' ∨ d = 'R') ∧
      (∀ e ∈ w, isWhiteSpace e = true) ∧ pre = p ++ '<' :: c :: d :: (w ++ ['/'])

end ChatWindow

/-! ## Sample inputs -/

namespace MessageInput

/-- The identifier printed by `runTests` (testChatbot.js, line 156). -/
def exampleChatId : Text := "123e4567-e89b-12d3-a456-426614174000".toList

/-- Props of a fresh conversation with a well-formed id. -/
def sampleProps : Props :=
  { chatId := .string exampleChatId, onMessageSent := true,
    chatTitle := "New Chat".toList, isFirstMessage := true }

/-- Props whose chat id is not a UUID. -/
def badIdProps : Props :=
  { chatId := .string " chat-42 ".toList, onMessageSent := true,
    chatTitle := "New Chat".toList, isFirstMessage := true }

/-- Every remote call returns; the reply is `Hi` and the insert gives an id. -/
def allSucceed : Outcomes :=
  { sendMessage := .ok (), updateChatTitle := .ok (),
    sendMessageAction := .ok { sendMessage := some ⟨true, some "Hi".toList, none⟩, errors := none },
    saveBotResponse := .ok ⟨some "m1".toList⟩, refetchMessages := .ok (),
    saveBotResponseFallback := .ok ⟨some "m2".toList⟩ }

/-- The `sendMessage` mutation throws. -/
def sendThrows : Outcomes :=
  { allSucceed with sendMessage := .error ⟨"Network error".toList⟩ }

/-- The `sendMessageAction` mutation throws. -/
def actionThrows : Outcomes :=
  { allSucceed with sendMessageAction := .error ⟨"Network error".toList⟩ }

/-- The `sendMessageAction` mutation returns a reply whose `success` is false. -/
def actionRefuses : Outcomes :=
  { allSucceed with
    sendMessageAction :=
      .ok { sendMessage := some ⟨false, none, some "quota exceeded".toList⟩, errors := none } }

/-- The reply is `A || B`, the first insert throws and the second returns. -/
def primarySaveThrows : Outcomes :=
  { allSucceed with
    sendMessageAction :=
      .ok { sendMessage := some ⟨true, some "A || B".toList, none⟩, errors := none },
    saveBotResponse := .error ⟨"Network error".toList⟩ }

/-- Both inserts of the reply throw. -/
def bothSavesThrow : Outcomes :=
  { allSucceed with
    saveBotResponse := .error ⟨"Network error".toList⟩,
    saveBotResponseFallback := .error ⟨"Network error".toList⟩ }

/-- The first insert returns an id and the refetch after it throws. -/
def refetchThrows : Outcomes :=
  { allSucceed with refetchMessages := .error ⟨"Network error".toList⟩ }

/-- The title update throws, every other call returns. -/
def titleThrows : Outcomes :=
  { allSucceed with updateChatTitle := .error ⟨"Network error".toList⟩ }

/-- An idle state holding the text `hello`. -/
def helloState : State :=
  { message := "hello".toList, isLoading := false, error := [], botResponse := [] }

/-- An idle form holding only white space. -/
def blankState : State :=
  { message := "  \n".toList, isLoading := false, error := [], botResponse := [] }

/-- A form whose previous attempt is still in flight. -/
def busyState : State :=
  { message := "hello".toList, isLoading := true, error := [], botResponse := [] }

/-- The `sendMessageAction` mutation returns a result without a reply and
without errors. -/
def actionEmpty : Outcomes :=
  { allSucceed with sendMessageAction := .ok { sendMessage := none, errors := none } }

/-- A form for the example conversation holding the text `hello`. -/
def sampleForm : Form :=
  { props := sampleProps, state := helloState, timers := [] }

/-- The id of another conversation. -/
def otherChatId : Text := "9f1c2d3e-4b5a-4c6d-8e7f-0a1b2c3d4e5f".toList

end MessageInput

namespace ChatWindow

/-- The user sends `hello` in the example conversation, looks at another
conversation while the first call is in flight, comes back and sends `again`. -/
def backAndForth : List WindowEvent :=
  [.render (some MessageInput.exampleChatId) false false MessageInput.sampleProps,
   .form (.change "hello".toList),
   .form .submit,
   .render (some MessageInput.otherChatId) true false MessageInput.sampleProps,
   .render (some MessageInput.exampleChatId) true false MessageInput.sampleProps,
   .render (some MessageInput.exampleChatId) false false MessageInput.sampleProps,
   .form (.change "again".toList),
   .form .submit]

end ChatWindow

/-! ## Lemmas on texts -/

theorem trim_eq_nil_of_whiteSpace (s : Text) (h : ∀ c ∈ s, isWhiteSpace c = true) :
    trim s = [] := by
  have hd : s.dropWhile isWhiteSpace = [] := List.dropWhile_eq_nil_iff.mpr h
  simp [trim, hd]

/-! ## The submit handler -/

theorem MessageInput.mem_updateTitle (p : MessageInput.Props) (o : MessageInput.Outcomes)
    (chatIdUuid messageContent : Text) (e : MessageInput.Effect)
    (h : e ∈ MessageInput.updateTitle p o chatIdUuid messageContent) :
    e = MessageInput.Effect.updateChatTitle chatIdUuid
      (MessageInput.deriveTitle messageContent) := by
  unfold MessageInput.updateTitle at h
  split at h
  · split at h <;> simpa using h
  · simp at h

/-- C5: a submission whose text is empty or made of white space only makes no
remote call, and `message`, `isLoading`, `error` and `botResponse` keep their
values; the handler only calls `preventDefault`. -/
theorem MessageInput.handleSubmit_blank (p : MessageInput.Props) (o : MessageInput.Outcomes)
    (st : MessageInput.State) (h : ∀ c ∈ st.message, isWhiteSpace c = true) :
    MessageInput.handleSubmit p o st = (st, [MessageInput.Effect.preventDefault]) ∧
      ∀ e ∈ (MessageInput.handleSubmit p o st).2, e.isRemoteCall = false := by
  have h1 : MessageInput.handleSubmit p o st = (st, [MessageInput.Effect.preventDefault]) := by
    simp [MessageInput.handleSubmit, trim_eq_nil_of_whiteSpace st.message h]
  refine ⟨h1, ?_⟩
  rw [h1]
  intro e he
  simp at he
  subst he
  rfl

theorem MessageInput.handleSubmit_blank_witness :
    MessageInput.handleSubmit MessageInput.sampleProps MessageInput.allSucceed
        MessageInput.blankState
      = (MessageInput.blankState, [MessageInput.Effect.preventDefault]) :=
  (MessageInput.handleSubmit_blank MessageInput.sampleProps MessageInput.allSucceed
    MessageInput.blankState (by decide)).1

/-- C7: an accepted submission (text not blank, nothing in flight) whose chat id
is missing or, once trimmed, fails the UUID test calls none of `sendMessage`,
`updateChatTitle`, `sendMessageAction` and `saveBotResponse` (the handler only
calls `preventDefault`), and ends with a non-empty error; for a malformed id the
error is `Failed to send message: Invalid UUID format: ` followed by the id in
its trimmed form, which it therefore contains. -/
theorem MessageInput.handleSubmit_invalid_chat_id (p : MessageInput.Props)
    (o : MessageInput.Outcomes) (st : MessageInput.State)
    (hmsg : trim st.message ≠ []) (hload : st.isLoading = false)
    (hid : p.chatId = MessageInput.ChatId.missing ∨
      ∃ s, (p.chatId = MessageInput.ChatId.string s ∨ p.chatId = MessageInput.ChatId.other s) ∧
        MessageInput.uuidRegexTest (trim s) = false) :
    (MessageInput.handleSubmit p o st).2 = [MessageInput.Effect.preventDefault] ∧
      (MessageInput.handleSubmit p o st).1.error ≠ [] ∧
      (p.chatId = MessageInput.ChatId.missing →
        (MessageInput.handleSubmit p o st).1.error
          = "Failed to send message: Chat ID is required".toList) ∧
      ∀ s, p.chatId = MessageInput.ChatId.string s ∨ p.chatId = MessageInput.ChatId.other s →
        (MessageInput.handleSubmit p o st).1.error
            = "Failed to send message: Invalid UUID format: ".toList ++ trim s ∧
          trim s <:+: (MessageInput.handleSubmit p o st).1.error := by
  rcases hid with hmiss | ⟨s, hs, hbad⟩
  · have hv : MessageInput.validateChatId p.chatId
        = .error ⟨"Chat ID is required".toList⟩ := by
      rw [hmiss]; rfl
    have hres : MessageInput.handleSubmit p o st
        = ({ message := [], isLoading := false,
             error := "Failed to send message: Chat ID is required".toList,
             botResponse := [] }, [MessageInput.Effect.preventDefault]) := by
      simp [MessageInput.handleSubmit, MessageInput.attempt, hmsg, hload, hv]
    rw [hres]
    refine ⟨rfl, by decide, fun _ => rfl, ?_⟩
    intro s hs
    rcases hs with hs | hs <;> rw [hmiss] at hs <;> cases hs
  · have hv : MessageInput.validateChatId p.chatId
        = .error ⟨"Invalid UUID format: ".toList ++ trim s⟩ := by
      rcases hs with hs | hs <;> rw [hs] <;> simp [MessageInput.validateChatId, hbad]
    have hres : MessageInput.handleSubmit p o st
        = ({ message := [], isLoading := false,
             error := "Failed to send message: Invalid UUID format: ".toList ++ trim s,
             botResponse := [] }, [MessageInput.Effect.preventDefault]) := by
      simp [MessageInput.handleSubmit, MessageInput.attempt, hmsg, hload, hv]
    rw [hres]
    refine ⟨rfl, by simp, ?_, ?_⟩
    · intro hmiss
      rcases hs with hs | hs <;> rw [hmiss] at hs <;> cases hs
    · intro s2 hs2
      have hss : s2 = s := by
        rcases hs with hs | hs <;> rcases hs2 with hs2 | hs2 <;> rw [hs] at hs2 <;>
          cases hs2 <;> rfl
      subst hss
      exact ⟨rfl, (List.suffix_append _ _).isInfix⟩

theorem MessageInput.handleSubmit_invalid_chat_id_witness :
    (MessageInput.handleSubmit MessageInput.badIdProps MessageInput.allSucceed
        MessageInput.helloState).2 = [MessageInput.Effect.preventDefault] ∧
      (MessageInput.handleSubmit MessageInput.badIdProps MessageInput.allSucceed
        MessageInput.helloState).1.error
        = "Failed to send message: Invalid UUID format: chat-42".toList :=
  ⟨(MessageInput.handleSubmit_invalid_chat_id MessageInput.badIdProps MessageInput.allSucceed
      MessageInput.helloState (by decide) rfl
      (Or.inr ⟨" chat-42 ".toList, Or.inl rfl, by decide⟩)).1,
    ((MessageInput.handleSubmit_invalid_chat_id MessageInput.badIdProps MessageInput.allSucceed
      MessageInput.helloState (by decide) rfl
      (Or.inr ⟨" chat-42 ".toList, Or.inl rfl, by decide⟩)).2.2.2 _ (Or.inl rfl)).1.trans
      (by decide)⟩

/-- C9: for an accepted submission with a valid chat id, when `sendMessage`
throws the handler has called nothing but `preventDefault` and `sendMessage`
(no title update, no `sendMessageAction`, no `saveBotResponse`), the error is
`Failed to send message: ` followed by the message of the thrown error,
`message` stays cleared and `isLoading` is reset. -/
theorem MessageInput.handleSubmit_send_throws (p : MessageInput.Props)
    (o : MessageInput.Outcomes) (st : MessageInput.State) (chatIdUuid : Text)
    (err : MessageInput.JsError)
    (hmsg : trim st.message ≠ []) (hload : st.isLoading = false)
    (hid : MessageInput.validateChatId p.chatId = .ok chatIdUuid)
    (hsend : o.sendMessage = .error err) :
    MessageInput.handleSubmit p o st
      = ({ message := [], isLoading := false,
           error := "Failed to send message: ".toList ++ err.message, botResponse := [] },
         [MessageInput.Effect.preventDefault,
          MessageInput.Effect.sendMessage chatIdUuid (trim st.message)]) := by
  simp [MessageInput.handleSubmit, MessageInput.attempt, hmsg, hload, hid, hsend]

theorem MessageInput.handleSubmit_send_throws_witness :
    MessageInput.handleSubmit MessageInput.sampleProps MessageInput.sendThrows
        MessageInput.helloState
      = ({ message := [], isLoading := false,
           error := "Failed to send message: Network error".toList, botResponse := [] },
         [MessageInput.Effect.preventDefault,
          MessageInput.Effect.sendMessage MessageInput.exampleChatId "hello".toList]) :=
  (MessageInput.handleSubmit_send_throws MessageInput.sampleProps MessageInput.sendThrows
    MessageInput.helloState MessageInput.exampleChatId ⟨"Network error".toList⟩
    (by decide) rfl (by rfl) rfl).trans (by decide)

/-- C10: when `sendMessage` has returned and `sendMessageAction` throws or
returns a reply whose `success` is false, the handler calls no
`saveBotResponse`; every call it makes is `preventDefault`, the `sendMessage`
insert, the title update or `sendMessageAction` (none removes the user's
message), and it ends with a non-empty error. -/
theorem MessageInput.handleSubmit_reply_fails (p : MessageInput.Props)
    (o : MessageInput.Outcomes) (st : MessageInput.State) (chatIdUuid : Text)
    (hmsg : trim st.message ≠ []) (hload : st.isLoading = false)
    (hid : MessageInput.validateChatId p.chatId = .ok chatIdUuid)
    (hsend : o.sendMessage = .ok ())
    (hgen : (∃ e, o.sendMessageAction = .error e) ∨
      ∃ r reply, o.sendMessageAction = .ok r ∧ r.sendMessage = some reply ∧
        reply.success = false) :
    (∀ e ∈ (MessageInput.handleSubmit p o st).2,
        ∀ c t, e ≠ MessageInput.Effect.saveBotResponse c t) ∧
      (∀ e ∈ (MessageInput.handleSubmit p o st).2,
        e = MessageInput.Effect.preventDefault ∨
        e = MessageInput.Effect.sendMessage chatIdUuid (trim st.message) ∨
        e = MessageInput.Effect.updateChatTitle chatIdUuid
              (MessageInput.deriveTitle (trim st.message)) ∨
        e = MessageInput.Effect.sendMessageAction chatIdUuid (trim st.message)) ∧
      (MessageInput.handleSubmit p o st).1.error ≠ [] := by
  have key : (∀ e ∈ (MessageInput.handleSubmit p o st).2,
        e = MessageInput.Effect.preventDefault ∨
        e = MessageInput.Effect.sendMessage chatIdUuid (trim st.message) ∨
        e = MessageInput.Effect.updateChatTitle chatIdUuid
              (MessageInput.deriveTitle (trim st.message)) ∨
        e = MessageInput.Effect.sendMessageAction chatIdUuid (trim st.message)) ∧
      (MessageInput.handleSubmit p o st).1.error ≠ [] := by
    rcases hgen with ⟨e, he⟩ | ⟨r, reply, hr, hreply, hfail⟩
    · simp [MessageInput.handleSubmit, MessageInput.attempt, MessageInput.requestReply,
        hmsg, hload, hid, hsend, he]
      intro a ha
      rcases ha with ha | ha
      · exact Or.inr (Or.inr (Or.inl (MessageInput.mem_updateTitle _ _ _ _ _ ha)))
      · exact Or.inr (Or.inr (Or.inr ha))
    · simp [MessageInput.handleSubmit, MessageInput.attempt, MessageInput.requestReply,
        hmsg, hload, hid, hsend, hr, hreply, hfail]
      intro a ha
      rcases ha with ha | ha
      · exact Or.inr (Or.inr (Or.inl (MessageInput.mem_updateTitle _ _ _ _ _ ha)))
      · exact Or.inr (Or.inr (Or.inr ha))
  refine ⟨?_, key.1, key.2⟩
  intro e he c t hsave
  rcases key.1 e he with h | h | h | h <;> rw [h] at hsave <;> cases hsave

theorem MessageInput.handleSubmit_reply_fails_witness :
    (∀ e ∈ (MessageInput.handleSubmit MessageInput.sampleProps MessageInput.actionThrows
        MessageInput.helloState).2, ∀ c t, e ≠ MessageInput.Effect.saveBotResponse c t) ∧
      (MessageInput.handleSubmit MessageInput.sampleProps MessageInput.actionThrows
        MessageInput.helloState).1.error ≠ [] :=
  ⟨(MessageInput.handleSubmit_reply_fails MessageInput.sampleProps MessageInput.actionThrows
      MessageInput.helloState MessageInput.exampleChatId (by decide) rfl (by rfl) rfl
      (Or.inl ⟨_, rfl⟩)).1,
    (MessageInput.handleSubmit_reply_fails MessageInput.sampleProps MessageInput.actionThrows
      MessageInput.helloState MessageInput.exampleChatId (by decide) rfl (by rfl) rfl
      (Or.inl ⟨_, rfl⟩)).2.2⟩


/-! ## The message view -/

/-- C2 fails as stated: a live sequence that arrives out of key order is shown
in the order it arrived. -/
theorem ChatWindow.messages_live_not_sorted :
    [ChatWindow.msgLate, ChatWindow.msgEarly] ≠ [] ∧
      ChatWindow.messages (some ⟨some [ChatWindow.msgLate, ChatWindow.msgEarly]⟩)
          (some ⟨some [ChatWindow.msgEarly]⟩)
        ≠ ChatWindow.sortByKey [ChatWindow.msgLate, ChatWindow.msgEarly] := by
  decide

/-- C2, amended: for every snapshot and every non-empty live sequence `B` the
view is `B` as it arrived, without any re-ordering by the client; it is `B`
sorted by `(created_at, id)` whenever `B` arrives in that order. -/
theorem ChatWindow.messages_live_verbatim (queryData : Option ChatWindow.MessagesData)
    (B : List ChatWindow.Message) (hB : B ≠ []) :
    ChatWindow.messages (some ⟨some B⟩) queryData = B ∧
      (B.Sorted ChatWindow.keyLe →
        ChatWindow.messages (some ⟨some B⟩) queryData = ChatWindow.sortByKey B) := by
  have _ := hB
  refine ⟨rfl, fun h => ?_⟩
  show B = List.insertionSort ChatWindow.keyLe B
  exact (List.Sorted.insertionSort_eq h).symm

theorem ChatWindow.messages_live_verbatim_witness :
    ChatWindow.messages (some ⟨some [ChatWindow.msgLate, ChatWindow.msgEarly]⟩)
        (some ⟨some [ChatWindow.msgEarly]⟩)
      = [ChatWindow.msgLate, ChatWindow.msgEarly] :=
  (ChatWindow.messages_live_verbatim (some ⟨some [ChatWindow.msgEarly]⟩)
    [ChatWindow.msgLate, ChatWindow.msgEarly] (by decide)).1

/-- C3 fails as stated: once the channel has delivered an empty list the view
is empty although the snapshot holds a message, and a snapshot that arrives out
of key order is shown in the order it arrived. -/
theorem ChatWindow.messages_empty_live_not_snapshot :
    ChatWindow.messages (some ⟨some []⟩) (some ⟨some [ChatWindow.msgEarly]⟩)
        ≠ ChatWindow.sortByKey [ChatWindow.msgEarly] ∧
      ChatWindow.messages none (some ⟨some [ChatWindow.msgLate, ChatWindow.msgEarly]⟩)
        ≠ ChatWindow.sortByKey [ChatWindow.msgLate, ChatWindow.msgEarly] := by
  decide

/-- C3, amended: while the channel has delivered nothing (no data, or data
without a message list) the view is the snapshot `A` as it was fetched, which is
`A` sorted by `(created_at, id)` whenever `A` arrives in that order; once the
channel has delivered an empty list the view is empty. -/
theorem ChatWindow.messages_snapshot_verbatim (A : List ChatWindow.Message) :
    ChatWindow.messages none (some ⟨some A⟩) = A ∧
      ChatWindow.messages (some ⟨none⟩) (some ⟨some A⟩) = A ∧
      (A.Sorted ChatWindow.keyLe →
        ChatWindow.messages none (some ⟨some A⟩) = ChatWindow.sortByKey A) ∧
      ChatWindow.messages (some ⟨some []⟩) (some ⟨some A⟩) = [] := by
  refine ⟨rfl, rfl, fun h => ?_, rfl⟩
  show A = List.insertionSort ChatWindow.keyLe A
  exact (List.Sorted.insertionSort_eq h).symm

/-- C4 fails as stated: a live sequence that repeats an id with another content
is shown with both rows. -/
theorem ChatWindow.messages_duplicate_ids :
    ¬ ((ChatWindow.messages (some ⟨some [ChatWindow.msgEarly, ChatWindow.msgEarlyAgain]⟩)
        (some ⟨some [ChatWindow.msgEarly]⟩)).map (·.id)).Nodup := by
  decide

/-- C4, amended: when neither the live sequence nor the snapshot repeats an id
in itself, the view contains no two messages with the same id, whatever ids the
two sources share; the client removes no duplicate of its own. -/
theorem ChatWindow.messages_ids_nodup (subscriptionData queryData : Option ChatWindow.MessagesData)
    (hlive : ∀ live, subscriptionData.bind (·.messages) = some live →
      (live.map (·.id)).Nodup)
    (hsnap : ∀ snapshot, queryData.bind (·.messages) = some snapshot →
      (snapshot.map (·.id)).Nodup) :
    ((ChatWindow.messages subscriptionData queryData).map (·.id)).Nodup := by
  unfold ChatWindow.messages
  cases h1 : subscriptionData.bind (·.messages) with
  | some live => exact hlive live h1
  | none =>
    cases h2 : queryData.bind (·.messages) with
    | some snapshot => exact hsnap snapshot h2
    | none => exact List.nodup_nil

theorem ChatWindow.messages_ids_nodup_witness :
    ((ChatWindow.messages (some ⟨some [ChatWindow.msgEarly, ChatWindow.msgLate]⟩)
      (some ⟨some [ChatWindow.msgEarlyAgain]⟩)).map (·.id)).Nodup :=
  ChatWindow.messages_ids_nodup (some ⟨some [ChatWindow.msgEarly, ChatWindow.msgLate]⟩)
    (some ⟨some [ChatWindow.msgEarlyAgain]⟩)
    (fun live h => by
      have h2 : [ChatWindow.msgEarly, ChatWindow.msgLate] = live := Option.some.inj h
      subst h2
      decide)
    (fun snapshot h => by
      have h2 : [ChatWindow.msgEarlyAgain] = snapshot := Option.some.inj h
      subst h2
      decide)

/-! ## The identifier check -/

theorem MessageInput.isHexDigit_iff (c : Char) :
    MessageInput.isHexDigit c = true ↔ c ∈ "0123456789abcdefABCDEF".toList := by
  constructor
  · intro h
    have hc := Char.ofNat_toNat c
    simp only [MessageInput.isHexDigit] at h
    generalize c.toNat = n at h hc
    subst hc
    have h2 : (48 ≤ n ∧ n ≤ 57) ∨ (97 ≤ n ∧ n ≤ 102) ∨ (65 ≤ n ∧ n ≤ 70) := by
      simpa [or_assoc] using h
    rcases h2 with ⟨h1, h2⟩ | ⟨h1, h2⟩ | ⟨h1, h2⟩ <;> interval_cases n <;> decide
  · intro h
    exact (by decide : ∀ d ∈ "0123456789abcdefABCDEF".toList, MessageInput.isHexDigit d = true) c h

theorem MessageInput.isVersionDigit_iff (c : Char) :
    MessageInput.isVersionDigit c = true ↔ c ∈ "12345".toList := by
  constructor
  · intro h
    have hc := Char.ofNat_toNat c
    simp only [MessageInput.isVersionDigit] at h
    generalize c.toNat = n at h hc
    subst hc
    have h2 : 49 ≤ n ∧ n ≤ 53 := by simpa using h
    obtain ⟨h1, h2⟩ := h2
    interval_cases n <;> decide
  · intro h
    exact (by decide : ∀ d ∈ "12345".toList, MessageInput.isVersionDigit d = true) c h

theorem MessageInput.isVariantDigit_iff (c : Char) :
    MessageInput.isVariantDigit c = true ↔ c ∈ "89abAB".toList := by
  simp [MessageInput.isVariantDigit, or_assoc]

theorem MessageInput.matchClass_eq_matchSeq (p : Char → Bool) (n : Nat) (s : Text) :
    MessageInput.matchClass p n s = MessageInput.matchSeq (List.replicate n p) s := by
  induction n generalizing s with
  | zero => rfl
  | succ n ih =>
    cases s with
    | nil => rfl
    | cons c s =>
      simp only [MessageInput.matchClass, List.replicate_succ, MessageInput.matchSeq, ih]

theorem MessageInput.matchChar_eq_matchSeq (c : Char) (s : Text) :
    MessageInput.matchChar c s = MessageInput.matchSeq [fun d => decide (d = c)] s := by
  cases s with
  | nil => rfl
  | cons d s => simp [MessageInput.matchChar, MessageInput.matchSeq]

theorem MessageInput.matchSeq_append (L1 L2 : List (Char → Bool)) (s : Text) :
    MessageInput.matchSeq (L1 ++ L2) s
      = (MessageInput.matchSeq L1 s).bind (MessageInput.matchSeq L2) := by
  induction L1 generalizing s with
  | nil => rfl
  | cons p ps ih =>
    cases s with
    | nil => cases L2 <;> rfl
    | cons c s =>
      by_cases h : p c = true
      · simp [MessageInput.matchSeq, h, ih]
      · simp [MessageInput.matchSeq, h]

theorem MessageInput.matchSeq_nil : MessageInput.matchSeq [] = some := by
  funext s
  rfl

theorem MessageInput.matchSeq_cons (p : Char → Bool) (L : List (Char → Bool)) (s : Text) :
    MessageInput.matchSeq (p :: L) s
      = (MessageInput.matchSeq [p] s).bind (MessageInput.matchSeq L) :=
  MessageInput.matchSeq_append [p] L s

theorem MessageInput.uuidRegexTest_eq_matchSeq (s : Text) :
    MessageInput.uuidRegexTest s
      = (match MessageInput.matchSeq MessageInput.uuidLayout s with
        | some [] => true
        | _ => false) := by
  have h : (some s >>= MessageInput.matchClass MessageInput.isHexDigit 8
      >>= MessageInput.matchChar '-'
      >>= MessageInput.matchClass MessageInput.isHexDigit 4 >>= MessageInput.matchChar '-'
      >>= MessageInput.matchClass MessageInput.isVersionDigit 1
      >>= MessageInput.matchClass MessageInput.isHexDigit 3 >>= MessageInput.matchChar '-'
      >>= MessageInput.matchClass MessageInput.isVariantDigit 1
      >>= MessageInput.matchClass MessageInput.isHexDigit 3 >>= MessageInput.matchChar '-'
      >>= MessageInput.matchClass MessageInput.isHexDigit 12)
      = MessageInput.matchSeq MessageInput.uuidLayout s := by
    unfold MessageInput.uuidLayout
    simp only [MessageInput.matchSeq_append, MessageInput.matchSeq_cons _ (_ ++ _),
      Option.bind_eq_bind, Option.bind_assoc, Option.some_bind,
      MessageInput.matchClass_eq_matchSeq, MessageInput.matchChar_eq_matchSeq,
      MessageInput.matchSeq_nil, Option.bind_some]
  unfold MessageInput.uuidRegexTest
  rw [h]

theorem MessageInput.matchSeq_eq_some_nil (L : List (Char → Bool)) (s : Text) :
    MessageInput.matchSeq L s = some [] ↔
      s.length = L.length ∧
        ∀ i (h1 : i < s.length) (h2 : i < L.length), L.get ⟨i, h2⟩ (s.get ⟨i, h1⟩) = true := by
  induction L generalizing s with
  | nil =>
    cases s with
    | nil => simp [MessageInput.matchSeq]
    | cons c s => simp [MessageInput.matchSeq]
  | cons p ps ih =>
    cases s with
    | nil => simp [MessageInput.matchSeq]
    | cons c s =>
      by_cases h : p c = true
      · simp only [MessageInput.matchSeq, h, if_true, ih, List.length_cons, Nat.add_right_cancel_iff]
        constructor
        · rintro ⟨hl, hi⟩
          refine ⟨hl, fun i h1 h2 => ?_⟩
          cases i with
          | zero => exact h
          | succ i => exact hi i (Nat.lt_of_succ_lt_succ h1) (Nat.lt_of_succ_lt_succ h2)
        · rintro ⟨hl, hi⟩
          exact ⟨hl, fun i h1 h2 => hi (i + 1) (Nat.succ_lt_succ h1) (Nat.succ_lt_succ h2)⟩
      · simp only [MessageInput.matchSeq, h]
        constructor
        · intro h0
          cases h0
        · rintro ⟨_, hi⟩
          exact absurd (hi 0 (Nat.succ_pos _) (Nat.succ_pos _)) h

theorem MessageInput.uuidLayout_get (i : Nat) (h : i < MessageInput.uuidLayout.length)
    (c : Char) :
    MessageInput.uuidLayout.get ⟨i, h⟩ c = MessageInput.uuidPositionOk i c := by
  have h36 : i < 36 := h
  have hx := MessageInput.isHexDigit_iff c
  have hv := MessageInput.isVersionDigit_iff c
  have hr := MessageInput.isVariantDigit_iff c
  have e1 : MessageInput.isHexDigit c = decide (c ∈ "0123456789abcdefABCDEF".toList) := by
    rw [Bool.eq_iff_iff]; simpa using hx
  have e2 : MessageInput.isVersionDigit c = decide (c ∈ "12345".toList) := by
    rw [Bool.eq_iff_iff]; simpa using hv
  have e3 : MessageInput.isVariantDigit c = decide (c ∈ "89abAB".toList) := by
    rw [Bool.eq_iff_iff]; simpa using hr
  interval_cases i <;>
    simp only [MessageInput.uuidLayout, MessageInput.uuidPositionOk] <;>
    first
      | exact e1
      | exact e2
      | exact e3
      | rfl

theorem MessageInput.uuidRegexTest_iff (s : Text) :
    MessageInput.uuidRegexTest s = true ↔ MessageInput.WellFormedUuid s := by
  have hlen : MessageInput.uuidLayout.length = 36 := rfl
  have hm : MessageInput.uuidRegexTest s = true ↔
      MessageInput.matchSeq MessageInput.uuidLayout s = some [] := by
    rw [MessageInput.uuidRegexTest_eq_matchSeq]
    cases hms : MessageInput.matchSeq MessageInput.uuidLayout s with
    | none => simp
    | some t => cases t <;> simp
  rw [hm, MessageInput.matchSeq_eq_some_nil]
  unfold MessageInput.WellFormedUuid
  constructor
  · rintro ⟨hl, hi⟩
    refine ⟨hl.trans hlen, fun i h => ?_⟩
    have h2 : i < MessageInput.uuidLayout.length := by rw [← hl]; exact h
    rw [← MessageInput.uuidLayout_get i h2]
    exact hi i h h2
  · rintro ⟨hl, hi⟩
    refine ⟨hl.trans hlen.symm, fun i h1 h2 => ?_⟩
    rw [MessageInput.uuidLayout_get i h2]
    exact hi i h1

/-- C8: the chat-id check of `handleSubmit` accepts an id exactly when, after
trimming, it is 36 characters long with a hyphen at positions 8, 13, 18 and 23,
a version digit `1..5` at position 14, a variant digit `8`, `9`, `a` or `b`
(upper-case `A` and `B` included) at position 19 and a hexadecimal digit of
either letter case elsewhere; the accepted value is the trimmed id, and the
example id `123e4567-e89b-12d3-a456-426614174000` is accepted. -/
theorem MessageInput.validateChatId_accepts_iff :
    (∀ s : Text, MessageInput.uuidRegexTest (trim s) = true ↔
        MessageInput.WellFormedUuid (trim s)) ∧
      (∀ (chatId : MessageInput.ChatId) (u : Text),
        MessageInput.validateChatId chatId = .ok u ↔
          ∃ s, (chatId = MessageInput.ChatId.string s ∨ chatId = MessageInput.ChatId.other s) ∧
            u = trim s ∧ MessageInput.WellFormedUuid (trim s)) ∧
      MessageInput.validateChatId (MessageInput.ChatId.string MessageInput.exampleChatId)
        = .ok MessageInput.exampleChatId := by
  refine ⟨fun s => MessageInput.uuidRegexTest_iff (trim s), ?_, by rfl⟩
  intro chatId u
  constructor
  · intro h
    cases chatId with
    | missing => simp [MessageInput.validateChatId] at h
    | string s =>
      by_cases ht : MessageInput.uuidRegexTest (trim s) = true
      · simp [MessageInput.validateChatId, ht] at h
        exact ⟨s, Or.inl rfl, h.symm, (MessageInput.uuidRegexTest_iff _).mp ht⟩
      · simp [MessageInput.validateChatId, ht] at h
    | other s =>
      by_cases ht : MessageInput.uuidRegexTest (trim s) = true
      · simp [MessageInput.validateChatId, ht] at h
        exact ⟨s, Or.inr rfl, h.symm, (MessageInput.uuidRegexTest_iff _).mp ht⟩
      · simp [MessageInput.validateChatId, ht] at h
  · rintro ⟨s, hs, hu, hw⟩
    have ht := (MessageInput.uuidRegexTest_iff _).mpr hw
    rcases hs with hs | hs <;> subst hs <;> simp [MessageInput.validateChatId, ht, hu]

/-! ## Replacement of all matches -/

theorem replaceAllFuel_congr (m : Matcher) (hm : Shrinks m) :
    ∀ (n k : Nat) (l : Text), l.length ≤ n → l.length ≤ k →
      replaceAllFuel m n l = replaceAllFuel m k l := by
  intro n
  induction n with
  | zero =>
    intro k l hn _
    have hl : l = [] := List.length_eq_zero.mp (Nat.le_zero.mp hn)
    subst hl
    cases k <;> rfl
  | succ n ih =>
    intro k l hn hk
    cases l with
    | nil => cases k <;> rfl
    | cons c cs =>
      cases k with
      | zero => simp at hk
      | succ k =>
        simp only [replaceAllFuel]
        cases hmc : m (c :: cs) with
        | none =>
          simp only
          rw [ih k cs (Nat.le_of_succ_le_succ hn) (Nat.le_of_succ_le_succ hk)]
        | some r =>
          obtain ⟨out, rest⟩ := r
          have hlt := hm _ _ _ hmc
          simp only
          rw [ih k rest (by omega) (by omega)]

theorem replaceAll_nil (m : Matcher) : replaceAll m [] = [] := rfl

theorem replaceAll_of_none (m : Matcher) (c : Char) (cs : Text)
    (h : m (c :: cs) = none) : replaceAll m (c :: cs) = c :: replaceAll m cs := by
  unfold replaceAll
  simp only [List.length_cons, replaceAllFuel, h]

theorem replaceAll_of_some (m : Matcher) (hm : Shrinks m) (l out rest : Text)
    (h : m l = some (out, rest)) : replaceAll m l = out ++ replaceAll m rest := by
  have hlt := hm _ _ _ h
  cases l with
  | nil => simp at hlt
  | cons c cs =>
    unfold replaceAll
    simp only [List.length_cons, replaceAllFuel, h]
    rw [replaceAllFuel_congr m hm cs.length rest.length rest
      (by simp only [List.length_cons] at hlt; omega) (Nat.le_refl _)]

/-- Induction along the scan of `replaceAll`. -/
theorem replaceAll_induction (m : Matcher) (hm : Shrinks m) (P : Text → Text → Prop)
    (hnil : P [] [])
    (hhit : ∀ l out rest, m l = some (out, rest) →
      P rest (replaceAll m rest) → P l (out ++ replaceAll m rest))
    (hmiss : ∀ c cs, m (c :: cs) = none →
      P cs (replaceAll m cs) → P (c :: cs) (c :: replaceAll m cs)) :
    ∀ l, P l (replaceAll m l) := by
  suffices key : ∀ (n : Nat) (l : Text), l.length = n → P l (replaceAll m l) from
    fun l => key _ l rfl
  intro n
  induction n using Nat.strong_induction_on with
  | _ n ih =>
    intro l hn
    cases l with
    | nil => exact hnil
    | cons c cs =>
      cases hmc : m (c :: cs) with
      | none =>
        rw [replaceAll_of_none m c cs hmc]
        exact hmiss c cs hmc (ih cs.length (by simp at hn; omega) cs rfl)
      | some r =>
        obtain ⟨out, rest⟩ := r
        rw [replaceAll_of_some m hm _ out rest hmc]
        have hlt := hm _ _ _ hmc
        exact hhit _ out rest hmc (ih rest.length (by omega) rest rfl)

/-- A text in which the pattern matches nowhere is left as it is. -/
theorem replaceAll_of_not_occurs (m : Matcher) (l : Text) (h : occurs m l = false) :
    replaceAll m l = l := by
  have key : ∀ (n : Nat) (l : Text), occurs m l = false → replaceAllFuel m n l = l := by
    intro n
    induction n with
    | zero => intro l _; rfl
    | succ n ih =>
      intro l hl
      cases l with
      | nil => rfl
      | cons c cs =>
        simp only [occurs, List.tails, List.any_cons, Bool.or_eq_false_iff] at hl
        have h1 : m (c :: cs) = none := by
          cases hmc : m (c :: cs) with
          | none => rfl
          | some r => rw [hmc] at hl; simp at hl
        simp only [replaceAllFuel, h1]
        rw [ih cs hl.2]
  exact key _ l h

/-! ## The reply and its persistence -/

/-- An accepted submission with a valid chat id whose `sendMessage` returned:
what `handleSubmit` gives in terms of `requestReply`. -/
theorem MessageInput.handleSubmit_after_send (p : MessageInput.Props)
    (o : MessageInput.Outcomes) (st : MessageInput.State) (chatIdUuid : Text)
    (hmsg : trim st.message ≠ []) (hload : st.isLoading = false)
    (hid : MessageInput.validateChatId p.chatId = .ok chatIdUuid)
    (hsend : o.sendMessage = .ok ()) :
    MessageInput.handleSubmit p o st
      = ({ (MessageInput.requestReply p o chatIdUuid (trim st.message)
              ⟨[], true, [], []⟩).1 with isLoading := false },
         MessageInput.Effect.preventDefault ::
           MessageInput.Effect.sendMessage chatIdUuid (trim st.message) ::
             (MessageInput.updateTitle p o chatIdUuid (trim st.message) ++
               (MessageInput.requestReply p o chatIdUuid (trim st.message)
                 ⟨[], true, [], []⟩).2)) := by
  simp [MessageInput.handleSubmit, MessageInput.attempt, hmsg, hload, hid, hsend]

/-- A reply whose `success` is true: what `requestReply` gives in terms of
`saveReply`. -/
theorem MessageInput.requestReply_success (p : MessageInput.Props)
    (o : MessageInput.Outcomes) (chatIdUuid messageContent : Text) (st : MessageInput.State)
    (r : MessageInput.ActionResult) (reply : MessageInput.BotReply)
    (hact : o.sendMessageAction = .ok r) (hr : r.sendMessage = some reply)
    (hok : reply.success = true) :
    MessageInput.requestReply p o chatIdUuid messageContent st
      = ((MessageInput.saveReply p o chatIdUuid (MessageInput.responseContent reply)
            { st with botResponse := (MessageInput.responseContent reply) }).1,
         MessageInput.Effect.sendMessageAction chatIdUuid messageContent ::
          (MessageInput.saveReply p o chatIdUuid (MessageInput.responseContent reply)
            { st with botResponse := (MessageInput.responseContent reply) }).2) := by
  simp [MessageInput.requestReply, hact, hr, hok]

theorem MessageInput.persistCalls_updateTitle (p : MessageInput.Props)
    (o : MessageInput.Outcomes) (chatIdUuid messageContent : Text) :
    MessageInput.persistCalls (MessageInput.updateTitle p o chatIdUuid messageContent) = [] := by
  unfold MessageInput.persistCalls
  rw [List.filter_eq_nil_iff]
  intro e he
  rw [MessageInput.mem_updateTitle p o chatIdUuid messageContent e he]
  simp [MessageInput.Effect.isPersist]

/-- C11 fails as stated: when `sendMessageAction` throws `Network error`, the
error the handler shows is a fixed text that does not contain that message. -/
theorem MessageInput.handleSubmit_action_throws_hides_reason :
    MessageInput.actionThrows.sendMessageAction = .error ⟨"Network error".toList⟩ ∧
      (MessageInput.handleSubmit MessageInput.sampleProps MessageInput.actionThrows
          MessageInput.helloState).1.error
        = "Failed to get bot response. Please try again.".toList ∧
      ¬ ("Network error".toList <:+:
        (MessageInput.handleSubmit MessageInput.sampleProps MessageInput.actionThrows
          MessageInput.helloState).1.error) := by
  refine ⟨rfl, by decide, by decide⟩

/-- C11, amended: when `sendMessageAction` returns a reply whose `success` is
false, the error is `Bot response failed: ` followed by the `message` field of
the reply (by `Unknown error` when the field is absent or empty), so it contains
the reason whenever the reply gives one; when the result carries only GraphQL
errors, the error is `Failed to get bot response: ` followed by the message of
the first one; when the call throws, the error is the fixed text
`Failed to get bot response. Please try again.`, whatever was thrown. -/
theorem MessageInput.handleSubmit_reply_failure_text (p : MessageInput.Props)
    (o : MessageInput.Outcomes) (st : MessageInput.State) (chatIdUuid : Text)
    (hmsg : trim st.message ≠ []) (hload : st.isLoading = false)
    (hid : MessageInput.validateChatId p.chatId = .ok chatIdUuid)
    (hsend : o.sendMessage = .ok ()) :
    (∀ r reply, o.sendMessageAction = .ok r → r.sendMessage = some reply →
        reply.success = false →
        (MessageInput.handleSubmit p o st).1.error
            = "Bot response failed: ".toList
              ++ MessageInput.orText reply.message "Unknown error".toList ∧
          ∀ reason, reply.message = some reason → reason ≠ [] →
            reason <:+: (MessageInput.handleSubmit p o st).1.error) ∧
      (∀ r errors, o.sendMessageAction = .ok r → r.sendMessage = none →
        r.errors = some errors →
        (MessageInput.handleSubmit p o st).1.error
          = "Failed to get bot response: ".toList
            ++ MessageInput.toText (errors.head?.bind (·.message))) ∧
      (∀ e, o.sendMessageAction = .error e →
        (MessageInput.handleSubmit p o st).1.error
          = "Failed to get bot response. Please try again.".toList) := by
  rw [MessageInput.handleSubmit_after_send p o st chatIdUuid hmsg hload hid hsend]
  refine ⟨?_, ?_, ?_⟩
  · intro r reply hact hr hfail
    have herr : (MessageInput.requestReply p o chatIdUuid (trim st.message)
        ⟨[], true, [], []⟩).1.error
        = "Bot response failed: ".toList
          ++ MessageInput.orText reply.message "Unknown error".toList := by
      simp [MessageInput.requestReply, hact, hr, hfail]
    refine ⟨herr, ?_⟩
    intro reason hreason hne
    show reason <:+: (MessageInput.requestReply p o chatIdUuid (trim st.message)
        ⟨[], true, [], []⟩).1.error
    rw [herr, hreason]
    cases reason with
    | nil => exact absurd rfl hne
    | cons c cs => exact (List.suffix_append _ _).isInfix
  · intro r errors hact hr herrs
    simp [MessageInput.requestReply, hact, hr, herrs]
  · intro e hact
    simp [MessageInput.requestReply, hact]

theorem MessageInput.handleSubmit_reply_failure_text_witness :
    (MessageInput.handleSubmit MessageInput.sampleProps MessageInput.actionRefuses
        MessageInput.helloState).1.error = "Bot response failed: quota exceeded".toList :=
  ((MessageInput.handleSubmit_reply_failure_text MessageInput.sampleProps
      MessageInput.actionRefuses MessageInput.helloState MessageInput.exampleChatId
      (by decide) rfl (by rfl) rfl).1 _ _ rfl rfl rfl).1.trans (by decide)

/-- An accepted submission that got a reply whose `success` is true: what
`handleSubmit` gives in terms of `saveReply`. -/
theorem MessageInput.handleSubmit_after_reply (p : MessageInput.Props)
    (o : MessageInput.Outcomes) (st : MessageInput.State) (chatIdUuid : Text)
    (r : MessageInput.ActionResult) (reply : MessageInput.BotReply)
    (hmsg : trim st.message ≠ []) (hload : st.isLoading = false)
    (hid : MessageInput.validateChatId p.chatId = .ok chatIdUuid)
    (hsend : o.sendMessage = .ok ())
    (hact : o.sendMessageAction = .ok r) (hr : r.sendMessage = some reply)
    (hok : reply.success = true) :
    MessageInput.handleSubmit p o st
      = ({ (MessageInput.saveReply p o chatIdUuid (MessageInput.responseContent reply)
              ⟨[], true, [], MessageInput.responseContent reply⟩).1 with isLoading := false },
         MessageInput.Effect.preventDefault ::
           MessageInput.Effect.sendMessage chatIdUuid (trim st.message) ::
             (MessageInput.updateTitle p o chatIdUuid (trim st.message) ++
               MessageInput.Effect.sendMessageAction chatIdUuid (trim st.message) ::
                 (MessageInput.saveReply p o chatIdUuid (MessageInput.responseContent reply)
                   ⟨[], true, [], MessageInput.responseContent reply⟩).2)) := by
  rw [MessageInput.handleSubmit_after_send p o st chatIdUuid hmsg hload hid hsend,
    MessageInput.requestReply_success p o chatIdUuid (trim st.message) _ r reply hact hr hok]

theorem MessageInput.persistCalls_after_reply (p : MessageInput.Props)
    (o : MessageInput.Outcomes) (chatIdUuid messageContent : Text)
    (rest : List MessageInput.Effect) :
    MessageInput.persistCalls
        (MessageInput.Effect.preventDefault ::
          MessageInput.Effect.sendMessage chatIdUuid messageContent ::
            (MessageInput.updateTitle p o chatIdUuid messageContent ++
              MessageInput.Effect.sendMessageAction chatIdUuid messageContent :: rest))
      = MessageInput.persistCalls rest := by
  have h := MessageInput.persistCalls_updateTitle p o chatIdUuid messageContent
  unfold MessageInput.persistCalls at h ⊢
  simp [List.filter_cons, List.filter_append, MessageInput.Effect.isPersist, h]

/-- C12: for every reply text `r`, when `sendMessage` returns,
`sendMessageAction` returns a successful reply with `response` `r`, the first
`saveBotResponse` returns an id and the refetch returns, the handler makes
exactly one `saveBotResponse` call, which inserts a row of role `assistant` for
the validated chat id (with content `r` when `r` is not empty); it calls
`refetchMessages` right after it and sets no timer, calls `onMessageSent` when
the callback was supplied, and ends with an empty error. -/
theorem MessageInput.handleSubmit_settles (p : MessageInput.Props)
    (o : MessageInput.Outcomes) (st : MessageInput.State) (chatIdUuid r : Text)
    (result : MessageInput.ActionResult) (reply : MessageInput.BotReply)
    (saved : MessageInput.SaveResult)
    (hmsg : trim st.message ≠ []) (hload : st.isLoading = false)
    (hid : MessageInput.validateChatId p.chatId = .ok chatIdUuid)
    (hsend : o.sendMessage = .ok ())
    (hact : o.sendMessageAction = .ok result) (hr : result.sendMessage = some reply)
    (hok : reply.success = true) (hresp : reply.response = some r)
    (hsave : o.saveBotResponse = .ok saved) (hsaved : MessageInput.truthy saved.id = true)
    (hrefetch : o.refetchMessages = .ok ()) :
    (MessageInput.handleSubmit p o st).2
        = MessageInput.Effect.preventDefault ::
            MessageInput.Effect.sendMessage chatIdUuid (trim st.message) ::
              (MessageInput.updateTitle p o chatIdUuid (trim st.message) ++
                [MessageInput.Effect.sendMessageAction chatIdUuid (trim st.message),
                 MessageInput.Effect.saveBotResponse chatIdUuid
                   (MessageInput.responseContent reply),
                 MessageInput.Effect.refetchMessages] ++
                (if p.onMessageSent then [MessageInput.Effect.onMessageSent] else [])) ∧
      MessageInput.persistCalls (MessageInput.handleSubmit p o st).2
        = [MessageInput.Effect.saveBotResponse chatIdUuid
            (MessageInput.responseContent reply)] ∧
      (MessageInput.Effect.saveBotResponse chatIdUuid
          (MessageInput.responseContent reply)).insertedRow
        = some ⟨chatIdUuid, MessageInput.responseContent reply, "assistant".toList⟩ ∧
      (r ≠ [] → MessageInput.responseContent reply = r) ∧
      (∀ delay, MessageInput.Effect.setTimeout delay ∉ (MessageInput.handleSubmit p o st).2) ∧
      (p.onMessageSent = true →
        MessageInput.Effect.onMessageSent ∈ (MessageInput.handleSubmit p o st).2) ∧
      (MessageInput.handleSubmit p o st).1.error = [] := by
  have hsr : MessageInput.saveReply p o chatIdUuid (MessageInput.responseContent reply)
      ⟨[], true, [], MessageInput.responseContent reply⟩
      = (⟨[], true, [], MessageInput.responseContent reply⟩,
         [MessageInput.Effect.saveBotResponse chatIdUuid (MessageInput.responseContent reply),
          MessageInput.Effect.refetchMessages]
          ++ (if p.onMessageSent then [MessageInput.Effect.onMessageSent] else [])) := by
    simp [MessageInput.saveReply, hsave, hsaved, hrefetch]
  have hres := MessageInput.handleSubmit_after_reply p o st chatIdUuid result reply
    hmsg hload hid hsend hact hr hok
  rw [hsr] at hres
  rw [hres]
  refine ⟨by simp, ?_, rfl, ?_, ?_, ?_, rfl⟩
  · rw [MessageInput.persistCalls_after_reply]
    cases p.onMessageSent <;> rfl
  · intro hne
    cases r with
    | nil => exact absurd rfl hne
    | cons c cs => simp [MessageInput.responseContent, MessageInput.orText, hresp]
  · intro delay hmem
    simp only [List.mem_cons, List.mem_append] at hmem
    rcases hmem with h | h | h | h | h | h
    · cases h
    · cases h
    · have := MessageInput.mem_updateTitle _ _ _ _ _ h
      cases this
    · cases h
    · simp at h
    · cases hcb : p.onMessageSent <;> simp [hcb] at h
  · intro hcb
    simp [hcb]

theorem MessageInput.handleSubmit_settles_witness :
    MessageInput.persistCalls
        (MessageInput.handleSubmit MessageInput.sampleProps MessageInput.allSucceed
          MessageInput.helloState).2
      = [MessageInput.Effect.saveBotResponse MessageInput.exampleChatId "Hi".toList] ∧
      (MessageInput.handleSubmit MessageInput.sampleProps MessageInput.allSucceed
        MessageInput.helloState).1.error = [] :=
  ⟨(MessageInput.handleSubmit_settles MessageInput.sampleProps MessageInput.allSucceed
      MessageInput.helloState MessageInput.exampleChatId "Hi".toList
      { sendMessage := some ⟨true, some "Hi".toList, none⟩, errors := none }
      ⟨true, some "Hi".toList, none⟩ ⟨some "m1".toList⟩
      (by decide) rfl (by rfl) rfl rfl rfl rfl rfl rfl rfl rfl).2.1,
    (MessageInput.handleSubmit_settles MessageInput.sampleProps MessageInput.allSucceed
      MessageInput.helloState MessageInput.exampleChatId "Hi".toList
      { sendMessage := some ⟨true, some "Hi".toList, none⟩, errors := none }
      ⟨true, some "Hi".toList, none⟩ ⟨some "m1".toList⟩
      (by decide) rfl (by rfl) rfl rfl rfl rfl rfl rfl rfl rfl).2.2.2.2.2.2⟩

/-- C13: when the first `saveBotResponse` call throws and the second one
returns, the handler has made exactly two `saveBotResponse` calls, both with the
validated chat id and the same content; it does not call `refetchMessages`
itself but sets one timer, of 1000 ms, and ends with an empty error.  The timer
is the delayed refetch: the submission leaves exactly one more pending timer on
the form, and when that timer fires its callback calls `refetchMessages` first
and then, when the refetch returned and the callback was supplied,
`onMessageSent`. -/
theorem MessageInput.handleSubmit_fallback_saves (p : MessageInput.Props)
    (o : MessageInput.Outcomes) (st : MessageInput.State) (chatIdUuid : Text)
    (result : MessageInput.ActionResult) (reply : MessageInput.BotReply)
    (thrown : MessageInput.JsError) (saved : MessageInput.SaveResult)
    (hmsg : trim st.message ≠ []) (hload : st.isLoading = false)
    (hid : MessageInput.validateChatId p.chatId = .ok chatIdUuid)
    (hsend : o.sendMessage = .ok ())
    (hact : o.sendMessageAction = .ok result) (hr : result.sendMessage = some reply)
    (hok : reply.success = true)
    (hsave : o.saveBotResponse = .error thrown)
    (hfallback : o.saveBotResponseFallback = .ok saved) :
    (MessageInput.handleSubmit p o st).2
        = MessageInput.Effect.preventDefault ::
            MessageInput.Effect.sendMessage chatIdUuid (trim st.message) ::
              (MessageInput.updateTitle p o chatIdUuid (trim st.message) ++
                [MessageInput.Effect.sendMessageAction chatIdUuid (trim st.message),
                 MessageInput.Effect.saveBotResponse chatIdUuid
                   (MessageInput.responseContent reply),
                 MessageInput.Effect.saveBotResponse chatIdUuid
                   (MessageInput.responseContent reply),
                 MessageInput.Effect.setTimeout 1000]) ∧
      MessageInput.persistCalls (MessageInput.handleSubmit p o st).2
        = [MessageInput.Effect.saveBotResponse chatIdUuid (MessageInput.responseContent reply),
           MessageInput.Effect.saveBotResponse chatIdUuid
             (MessageInput.responseContent reply)] ∧
      MessageInput.Effect.refetchMessages ∉ (MessageInput.handleSubmit p o st).2 ∧
      MessageInput.Effect.setTimeout 1000 ∈ (MessageInput.handleSubmit p o st).2 ∧
      (MessageInput.handleSubmit p o st).1.error = [] ∧
      (∀ timers, (MessageInput.Form.submit ⟨p, st, timers⟩ o).1.timers = timers ++ [p]) ∧
      (∀ refetchMessages,
        (MessageInput.Form.fireTimer (MessageInput.Form.submit ⟨p, st, []⟩ o).1
            refetchMessages).2 = MessageInput.delayedRefetch p refetchMessages ∧
          (MessageInput.Form.fireTimer (MessageInput.Form.submit ⟨p, st, []⟩ o).1
            refetchMessages).1.timers = [] ∧
          MessageInput.delayedRefetch p refetchMessages
            = MessageInput.Effect.refetchMessages ::
                (match refetchMessages with
                 | .ok _ =>
                   if p.onMessageSent = true then [MessageInput.Effect.onMessageSent] else []
                 | .error _ => [])) := by
  have hsr : MessageInput.saveReply p o chatIdUuid (MessageInput.responseContent reply)
      ⟨[], true, [], MessageInput.responseContent reply⟩
      = (⟨[], true, [], MessageInput.responseContent reply⟩,
         [MessageInput.Effect.saveBotResponse chatIdUuid (MessageInput.responseContent reply),
          MessageInput.Effect.saveBotResponse chatIdUuid (MessageInput.responseContent reply),
          MessageInput.Effect.setTimeout 1000]) := by
    simp [MessageInput.saveReply, MessageInput.saveFallback, hsave, hfallback]
  have hres := MessageInput.handleSubmit_after_reply p o st chatIdUuid result reply
    hmsg hload hid hsend hact hr hok
  rw [hsr] at hres
  have htimers : ∀ timers,
      (MessageInput.Form.submit ⟨p, st, timers⟩ o).1.timers = timers ++ [p] := by
    intro timers
    have hnone : (MessageInput.updateTitle p o chatIdUuid (trim st.message)).filter
        MessageInput.Effect.isTimer = [] := by
      rw [List.filter_eq_nil_iff]
      intro e he
      rw [MessageInput.mem_updateTitle _ _ _ _ _ he]
      simp [MessageInput.Effect.isTimer]
    simp only [MessageInput.Form.submit, hres, List.filter_cons, List.filter_append, hnone,
      MessageInput.Effect.isTimer, List.filter_nil, List.nil_append, List.map_cons,
      List.map_nil]
    simp
  rw [hres]
  refine ⟨rfl, ?_, ?_, by simp, rfl, htimers, ?_⟩
  · rw [MessageInput.persistCalls_after_reply]
    rfl
  rotate_left
  · intro refetchMessages
    have hf : (MessageInput.Form.submit ⟨p, st, []⟩ o).1.timers = [p] := htimers []
    refine ⟨?_, ?_, ?_⟩
    · unfold MessageInput.Form.fireTimer
      rw [hf]
    · unfold MessageInput.Form.fireTimer
      rw [hf]
    · cases refetchMessages <;> simp [MessageInput.delayedRefetch]
  · intro hmem
    simp only [List.mem_cons, List.mem_append] at hmem
    rcases hmem with h | h | h | h | h | h | h | h
    · cases h
    · cases h
    · have := MessageInput.mem_updateTitle _ _ _ _ _ h
      cases this
    · cases h
    · cases h
    · cases h
    · cases h
    · simp at h

theorem MessageInput.handleSubmit_fallback_saves_witness :
    MessageInput.persistCalls
        (MessageInput.handleSubmit MessageInput.sampleProps MessageInput.primarySaveThrows
          MessageInput.helloState).2
      = [MessageInput.Effect.saveBotResponse MessageInput.exampleChatId "A || B".toList,
         MessageInput.Effect.saveBotResponse MessageInput.exampleChatId "A || B".toList] ∧
      (MessageInput.handleSubmit MessageInput.sampleProps MessageInput.primarySaveThrows
        MessageInput.helloState).1.error = [] ∧
      (MessageInput.Form.fireTimer
          (MessageInput.Form.submit ⟨MessageInput.sampleProps, MessageInput.helloState, []⟩
            MessageInput.primarySaveThrows).1 (.ok ())).2
        = MessageInput.delayedRefetch MessageInput.sampleProps (.ok ()) :=
  ⟨(MessageInput.handleSubmit_fallback_saves MessageInput.sampleProps
      MessageInput.primarySaveThrows MessageInput.helloState MessageInput.exampleChatId
      { sendMessage := some ⟨true, some "A || B".toList, none⟩, errors := none }
      ⟨true, some "A || B".toList, none⟩ ⟨"Network error".toList⟩ ⟨some "m2".toList⟩
      (by decide) rfl (by rfl) rfl rfl rfl rfl rfl rfl).2.1,
    (MessageInput.handleSubmit_fallback_saves MessageInput.sampleProps
      MessageInput.primarySaveThrows MessageInput.helloState MessageInput.exampleChatId
      { sendMessage := some ⟨true, some "A || B".toList, none⟩, errors := none }
      ⟨true, some "A || B".toList, none⟩ ⟨"Network error".toList⟩ ⟨some "m2".toList⟩
      (by decide) rfl (by rfl) rfl rfl rfl rfl rfl rfl).2.2.2.2.1,
    ((MessageInput.handleSubmit_fallback_saves MessageInput.sampleProps
      MessageInput.primarySaveThrows MessageInput.helloState MessageInput.exampleChatId
      { sendMessage := some ⟨true, some "A || B".toList, none⟩, errors := none }
      ⟨true, some "A || B".toList, none⟩ ⟨"Network error".toList⟩ ⟨some "m2".toList⟩
      (by decide) rfl (by rfl) rfl rfl rfl rfl rfl rfl).2.2.2.2.2.2 (.ok ())).1⟩

/-- An accepted submission that made no `saveBotResponse` call does not end
with the error text of a failed save. -/
theorem MessageInput.error_ne_save_failure_of_no_persist (p : MessageInput.Props)
    (o : MessageInput.Outcomes) (st : MessageInput.State)
    (hmsg : trim st.message ≠ []) (hload : st.isLoading = false)
    (hnone : MessageInput.persistCalls (MessageInput.handleSubmit p o st).2 = []) :
    (MessageInput.handleSubmit p o st).1.error
      ≠ "Bot response received but failed to save to database".toList := by
  cases hid : MessageInput.validateChatId p.chatId with
  | error err =>
    simp [MessageInput.handleSubmit, MessageInput.attempt, hmsg, hload, hid]
  | ok chatIdUuid =>
    cases hsend : o.sendMessage with
    | error err =>
      simp [MessageInput.handleSubmit, MessageInput.attempt, hmsg, hload, hid, hsend]
    | ok u =>
      cases u
      rw [MessageInput.handleSubmit_after_send p o st chatIdUuid hmsg hload hid hsend] at hnone ⊢
      cases hact : o.sendMessageAction with
      | error err => simp [MessageInput.requestReply, hact]
      | ok result =>
        cases hr : result.sendMessage with
        | none =>
          cases herrs : result.errors with
          | none => simp [MessageInput.requestReply, hact, hr, herrs]
          | some errors => simp [MessageInput.requestReply, hact, hr, herrs]
        | some reply =>
          cases hok : reply.success with
          | false => simp [MessageInput.requestReply, hact, hr, hok]
          | true =>
            exfalso
            rw [MessageInput.requestReply_success p o chatIdUuid (trim st.message) _ result
              reply hact hr hok, MessageInput.persistCalls_after_reply] at hnone
            revert hnone
            cases hsave : o.saveBotResponse with
            | error e1 =>
              cases hfb : o.saveBotResponseFallback <;>
                simp [MessageInput.saveReply, MessageInput.saveFallback, hsave, hfb,
                  MessageInput.persistCalls, MessageInput.Effect.isPersist]
            | ok saved =>
              cases hid2 : MessageInput.truthy saved.id with
              | false =>
                simp [MessageInput.saveReply, hsave, hid2, MessageInput.persistCalls,
                  MessageInput.Effect.isPersist]
              | true =>
                cases hrf : o.refetchMessages with
                | ok u2 =>
                  simp [MessageInput.saveReply, hsave, hid2, hrf, MessageInput.persistCalls,
                    MessageInput.Effect.isPersist]
                | error e2 =>
                  cases hfb : o.saveBotResponseFallback <;>
                    simp [MessageInput.saveReply, MessageInput.saveFallback, hsave, hid2, hrf,
                      hfb, MessageInput.persistCalls, MessageInput.Effect.isPersist]

/-- C14: when both `saveBotResponse` calls throw, the handler ends with the
error `Bot response received but failed to save to database`; and whatever the
props and the outcomes of the calls, an accepted submission that fails at the
validation of the chat id, at `sendMessage` or at `sendMessageAction` (a throw
or a reply without `success`), or that makes no `saveBotResponse` call at all,
ends with another error text. -/
theorem MessageInput.handleSubmit_save_failure_text (p : MessageInput.Props)
    (o : MessageInput.Outcomes) (st : MessageInput.State)
    (hmsg : trim st.message ≠ []) (hload : st.isLoading = false) :
    (∀ chatIdUuid result reply e1 e2,
        MessageInput.validateChatId p.chatId = .ok chatIdUuid → o.sendMessage = .ok () →
        o.sendMessageAction = .ok result → result.sendMessage = some reply →
        reply.success = true → o.saveBotResponse = .error e1 →
        o.saveBotResponseFallback = .error e2 →
        (MessageInput.handleSubmit p o st).1.error
          = "Bot response received but failed to save to database".toList) ∧
      (∀ e, MessageInput.validateChatId p.chatId = .error e →
        (MessageInput.handleSubmit p o st).1.error
          ≠ "Bot response received but failed to save to database".toList) ∧
      (∀ e, o.sendMessage = .error e →
        (MessageInput.handleSubmit p o st).1.error
          ≠ "Bot response received but failed to save to database".toList) ∧
      (∀ e, o.sendMessageAction = .error e →
        (MessageInput.handleSubmit p o st).1.error
          ≠ "Bot response received but failed to save to database".toList) ∧
      (∀ result reply, o.sendMessageAction = .ok result →
        result.sendMessage = some reply → reply.success = false →
        (MessageInput.handleSubmit p o st).1.error
          ≠ "Bot response received but failed to save to database".toList) ∧
      (MessageInput.persistCalls (MessageInput.handleSubmit p o st).2 = [] →
        (MessageInput.handleSubmit p o st).1.error
          ≠ "Bot response received but failed to save to database".toList) := by
  refine ⟨?_, ?_, ?_, ?_, ?_, MessageInput.error_ne_save_failure_of_no_persist p o st hmsg hload⟩
  · intro chatIdUuid result reply e1 e2 hid hsend hact hr hok hsave hfb
    rw [MessageInput.handleSubmit_after_reply p o st chatIdUuid result reply
      hmsg hload hid hsend hact hr hok]
    simp [MessageInput.saveReply, MessageInput.saveFallback, hsave, hfb]
  · intro e hid
    simp [MessageInput.handleSubmit, MessageInput.attempt, hmsg, hload, hid]
  · intro e hsend
    cases hid : MessageInput.validateChatId p.chatId <;>
      simp [MessageInput.handleSubmit, MessageInput.attempt, hmsg, hload, hid, hsend]
  · intro e hact
    cases hid : MessageInput.validateChatId p.chatId with
    | error err => simp [MessageInput.handleSubmit, MessageInput.attempt, hmsg, hload, hid]
    | ok chatIdUuid =>
      cases hsend : o.sendMessage <;>
        simp [MessageInput.handleSubmit, MessageInput.attempt, MessageInput.requestReply,
          hmsg, hload, hid, hsend, hact]
  · intro result reply hact hr hfail
    cases hid : MessageInput.validateChatId p.chatId with
    | error err => simp [MessageInput.handleSubmit, MessageInput.attempt, hmsg, hload, hid]
    | ok chatIdUuid =>
      cases hsend : o.sendMessage <;>
        simp [MessageInput.handleSubmit, MessageInput.attempt, MessageInput.requestReply,
          hmsg, hload, hid, hsend, hact, hr, hfail]

theorem MessageInput.handleSubmit_save_failure_text_witness :
    (MessageInput.handleSubmit MessageInput.sampleProps MessageInput.bothSavesThrow
        MessageInput.helloState).1.error
      = "Bot response received but failed to save to database".toList :=
  (MessageInput.handleSubmit_save_failure_text MessageInput.sampleProps
    MessageInput.bothSavesThrow MessageInput.helloState (by decide) rfl).1
    MessageInput.exampleChatId
    { sendMessage := some ⟨true, some "Hi".toList, none⟩, errors := none }
    ⟨true, some "Hi".toList, none⟩ ⟨"Network error".toList⟩ ⟨"Network error".toList⟩
    (by rfl) rfl rfl rfl rfl rfl rfl

/-- C15: the reply is inserted twice although the first insert returned an id:
with a first `saveBotResponse` call that returns the id `m1` and a refetch that
throws, the handler calls `saveBotResponse` a second time. -/
theorem MessageInput.handleSubmit_second_save_after_refetch_throws :
    MessageInput.refetchThrows.saveBotResponse = .ok ⟨some "m1".toList⟩ ∧
      MessageInput.persistCalls
          (MessageInput.handleSubmit MessageInput.sampleProps MessageInput.refetchThrows
            MessageInput.helloState).2
        = [MessageInput.Effect.saveBotResponse MessageInput.exampleChatId "Hi".toList,
           MessageInput.Effect.saveBotResponse MessageInput.exampleChatId "Hi".toList] ∧
      (MessageInput.handleSubmit MessageInput.sampleProps MessageInput.refetchThrows
          MessageInput.helloState).2
        = [MessageInput.Effect.preventDefault,
           MessageInput.Effect.sendMessage MessageInput.exampleChatId "hello".toList,
           MessageInput.Effect.updateChatTitle MessageInput.exampleChatId (utf16 "hello".toList),
           MessageInput.Effect.sendMessageAction MessageInput.exampleChatId "hello".toList,
           MessageInput.Effect.saveBotResponse MessageInput.exampleChatId "Hi".toList,
           MessageInput.Effect.refetchMessages,
           MessageInput.Effect.saveBotResponse MessageInput.exampleChatId "Hi".toList,
           MessageInput.Effect.setTimeout 1000] := by
  refine ⟨rfl, by decide, by decide⟩

/-- Every `saveBotResponse` call of `saveReply` carries the chat id and the
content it was given. -/
theorem MessageInput.saveReply_persist (p : MessageInput.Props) (o : MessageInput.Outcomes)
    (chatIdUuid content : Text) (st : MessageInput.State) (e : MessageInput.Effect)
    (he : e ∈ MessageInput.persistCalls (MessageInput.saveReply p o chatIdUuid content st).2) :
    e = MessageInput.Effect.saveBotResponse chatIdUuid content := by
  unfold MessageInput.persistCalls at he
  rw [List.mem_filter] at he
  obtain ⟨hmem, hp⟩ := he
  revert hmem
  cases hsave : o.saveBotResponse with
  | error e1 =>
    cases hfb : o.saveBotResponseFallback with
    | error e3 => simp [MessageInput.saveReply, MessageInput.saveFallback, hsave, hfb]
    | ok saved2 =>
      simp [MessageInput.saveReply, MessageInput.saveFallback, hsave, hfb]
      intro h
      repeat' (first | exact h | (subst h; simp [MessageInput.Effect.isPersist] at hp) |
        (rcases h with h | h))
  | ok saved =>
    cases hid2 : MessageInput.truthy saved.id with
    | false => simp [MessageInput.saveReply, hsave, hid2]
    | true =>
      cases hrf : o.refetchMessages with
      | ok u2 =>
        simp [MessageInput.saveReply, hsave, hid2, hrf]
        intro h
        rcases h with h | h | h
        · exact h
        · subst h; cases hp
        · obtain ⟨_, h⟩ := h; subst h; cases hp
      | error e2 =>
        cases hfb : o.saveBotResponseFallback with
        | error e3 =>
          simp [MessageInput.saveReply, MessageInput.saveFallback, hsave, hid2, hrf, hfb]
          intro h
          repeat' (first | exact h | (subst h; simp [MessageInput.Effect.isPersist] at hp) |
            (rcases h with h | h))
        | ok saved2 =>
          simp [MessageInput.saveReply, MessageInput.saveFallback, hsave, hid2, hrf, hfb]
          intro h
          repeat' (first | exact h | (subst h; simp [MessageInput.Effect.isPersist] at hp) |
            (rcases h with h | h))

/-- C16 fails as stated: for the reply `A || B` both `saveBotResponse` calls are
handed the raw text, which is not its normal form `A\n\nB`. -/
theorem MessageInput.handleSubmit_persists_raw_reply :
    MessageInput.persistCalls
        (MessageInput.handleSubmit MessageInput.sampleProps MessageInput.primarySaveThrows
          MessageInput.helloState).2
      = [MessageInput.Effect.saveBotResponse MessageInput.exampleChatId "A || B".toList,
         MessageInput.Effect.saveBotResponse MessageInput.exampleChatId "A || B".toList] ∧
      ChatWindow.normalize "A || B".toList = "A\n\nB".toList ∧
      "A || B".toList ≠ ChatWindow.normalize "A || B".toList := by
  refine ⟨by decide, by decide, by decide⟩

/-- C16, amended: for every non-empty reply text `r` of a successful
`sendMessageAction`, every `saveBotResponse` call of the handler (first and
second) is handed `r` itself, unchanged; `normalizeBotMarkdown` is applied by
`ChatWindow` when it renders a message that is not the user's, and a message of
the user is shown as stored. -/
theorem MessageInput.handleSubmit_persists_reply_unchanged (p : MessageInput.Props)
    (o : MessageInput.Outcomes) (st : MessageInput.State) (chatIdUuid r : Text)
    (result : MessageInput.ActionResult) (reply : MessageInput.BotReply)
    (hmsg : trim st.message ≠ []) (hload : st.isLoading = false)
    (hid : MessageInput.validateChatId p.chatId = .ok chatIdUuid)
    (hsend : o.sendMessage = .ok ())
    (hact : o.sendMessageAction = .ok result) (hr : result.sendMessage = some reply)
    (hok : reply.success = true) (hresp : reply.response = some r) (hne : r ≠ []) :
    (∀ e ∈ MessageInput.persistCalls (MessageInput.handleSubmit p o st).2,
        e = MessageInput.Effect.saveBotResponse chatIdUuid r) ∧
      MessageInput.persistCalls (MessageInput.handleSubmit p o st).2 ≠ [] ∧
      (∀ message : ChatWindow.Message, message.role ≠ "user".toList →
        ChatWindow.displayedContent message
          = ChatWindow.normalizeBotMarkdown (.string message.content)) ∧
      (∀ message : ChatWindow.Message, message.role = "user".toList →
        ChatWindow.displayedContent message = .string message.content) := by
  have hc : MessageInput.responseContent reply = r := by
    cases r with
    | nil => exact absurd rfl hne
    | cons c cs => simp [MessageInput.responseContent, MessageInput.orText, hresp]
  have hres := MessageInput.handleSubmit_after_reply p o st chatIdUuid result reply
    hmsg hload hid hsend hact hr hok
  rw [hres]
  simp only [MessageInput.persistCalls_after_reply, hc]
  refine ⟨fun e he => MessageInput.saveReply_persist p o chatIdUuid r _ e he, ?_, ?_, ?_⟩
  · cases hsave : o.saveBotResponse with
    | error e1 =>
      cases hfb : o.saveBotResponseFallback <;>
        simp [MessageInput.saveReply, MessageInput.saveFallback, hsave, hfb,
          MessageInput.persistCalls, MessageInput.Effect.isPersist]
    | ok saved =>
      cases hid2 : MessageInput.truthy saved.id with
      | false =>
        simp [MessageInput.saveReply, hsave, hid2, MessageInput.persistCalls,
          MessageInput.Effect.isPersist]
      | true =>
        cases hrf : o.refetchMessages with
        | ok u2 =>
          simp [MessageInput.saveReply, hsave, hid2, hrf, MessageInput.persistCalls,
            MessageInput.Effect.isPersist]
        | error e2 =>
          cases hfb : o.saveBotResponseFallback <;>
            simp [MessageInput.saveReply, MessageInput.saveFallback, hsave, hid2, hrf,
              hfb, MessageInput.persistCalls, MessageInput.Effect.isPersist]
  · intro message hrole
    unfold ChatWindow.displayedContent
    rw [if_neg hrole]
  · intro message hrole
    unfold ChatWindow.displayedContent
    rw [if_pos hrole]

theorem MessageInput.handleSubmit_persists_reply_unchanged_witness :
    (∀ e ∈ MessageInput.persistCalls
        (MessageInput.handleSubmit MessageInput.sampleProps MessageInput.primarySaveThrows
          MessageInput.helloState).2,
      e = MessageInput.Effect.saveBotResponse MessageInput.exampleChatId "A || B".toList) ∧
      MessageInput.persistCalls
        (MessageInput.handleSubmit MessageInput.sampleProps MessageInput.primarySaveThrows
          MessageInput.helloState).2 ≠ [] :=
  ⟨(MessageInput.handleSubmit_persists_reply_unchanged MessageInput.sampleProps
      MessageInput.primarySaveThrows MessageInput.helloState MessageInput.exampleChatId
      "A || B".toList
      { sendMessage := some ⟨true, some "A || B".toList, none⟩, errors := none }
      ⟨true, some "A || B".toList, none⟩
      (by decide) rfl (by rfl) rfl rfl rfl rfl rfl (by decide)).1,
    (MessageInput.handleSubmit_persists_reply_unchanged MessageInput.sampleProps
      MessageInput.primarySaveThrows MessageInput.helloState MessageInput.exampleChatId
      "A || B".toList
      { sendMessage := some ⟨true, some "A || B".toList, none⟩, errors := none }
      ⟨true, some "A || B".toList, none⟩
      (by decide) rfl (by rfl) rfl rfl rfl rfl rfl (by decide)).2.1⟩

/-! ## The title of a first message -/

theorem utf16_cons (c : Char) (cs : Text) : utf16 (c :: cs) = codeUnits c ++ utf16 cs := by
  simp [utf16]

theorem codeUnits_ne_nil (c : Char) : codeUnits c ≠ [] := by
  unfold codeUnits
  split <;> simp

theorem utf16_ne_nil (s : Text) (h : s ≠ []) : utf16 s ≠ [] := by
  cases s with
  | nil => exact absurd rfl h
  | cons c cs =>
    rw [utf16_cons]
    intro hnil
    exact codeUnits_ne_nil c (List.append_eq_nil.mp hnil).1

/-- In the Basic Multilingual Plane a character is one code unit: the code units
of such a text are its characters, one for one. -/
theorem utf16_of_bmp (s : Text) (h : ∀ c ∈ s, c.toNat < 0x10000) :
    utf16 s = s.map Char.toNat := by
  induction s with
  | nil => rfl
  | cons c cs ih =>
    have hc := h c (List.mem_cons_self _ _)
    rw [utf16_cons, ih (fun d hd => h d (List.mem_cons_of_mem _ hd))]
    simp [codeUnits, hc]

theorem utf16_append (s t : Text) : utf16 (s ++ t) = utf16 s ++ utf16 t := by
  simp [utf16]

theorem MessageInput.deriveTitle_short (c : Text) (h : (utf16 c).length ≤ 50) :
    MessageInput.deriveTitle c = utf16 c := by
  unfold MessageInput.deriveTitle
  rw [if_neg (by omega)]

theorem MessageInput.deriveTitle_long (c : Text) (h : 50 < (utf16 c).length) :
    MessageInput.deriveTitle c = (utf16 c).take 50 ++ utf16 "...".toList := by
  unfold MessageInput.deriveTitle
  rw [if_pos h]

theorem MessageInput.deriveTitle_ne_nil (c : Text) (h : c ≠ []) :
    MessageInput.deriveTitle c ≠ [] := by
  unfold MessageInput.deriveTitle
  split
  · intro hnil
    have h3 : utf16 "...".toList = [] := (List.append_eq_nil.mp hnil).2
    exact absurd h3 (by decide)
  · exact utf16_ne_nil c h

theorem MessageInput.deriveTitle_length (c : Text) :
    (MessageInput.deriveTitle c).length ≤ 53 := by
  unfold MessageInput.deriveTitle
  split
  · simp only [List.length_append, List.length_take]
    have : (utf16 "...".toList).length = 3 := by decide
    omega
  · omega

/-- For a text of the Basic Multilingual Plane the count is the number of
characters and the cut falls between characters. -/
theorem MessageInput.deriveTitle_of_bmp (c : Text) (h : ∀ ch ∈ c, ch.toNat < 0x10000) :
    MessageInput.deriveTitle c
      = utf16 (if c.length ≤ 50 then c else c.take 50 ++ "...".toList) := by
  have hlen : (utf16 c).length = c.length := by
    rw [utf16_of_bmp c h, List.length_map]
  unfold MessageInput.deriveTitle
  rw [hlen]
  by_cases hc : c.length ≤ 50
  · rw [if_neg (by omega), if_pos hc]
  · rw [if_pos (by omega), if_neg hc, utf16_append, utf16_of_bmp c h,
      utf16_of_bmp (c.take 50) (fun d hd => h d (List.mem_of_mem_take hd)), List.map_take]

/-- Above the Basic Multilingual Plane a character counts twice: 26 emoji are 52
code units, and the title keeps 25 of them before the dots. -/
theorem MessageInput.deriveTitle_astral :
    MessageInput.deriveTitle (List.replicate 26 (Char.ofNat 0x1F600))
      = utf16 (List.replicate 25 (Char.ofNat 0x1F600) ++ "...".toList) := by
  decide

/-- The calls of `requestReply` are no title updates. -/
theorem MessageInput.requestReply_no_title (p : MessageInput.Props)
    (o : MessageInput.Outcomes) (chatIdUuid messageContent : Text) (st : MessageInput.State)
    (a : Text) (b : List CodeUnit) :
    MessageInput.Effect.updateChatTitle a b
      ∉ (MessageInput.requestReply p o chatIdUuid messageContent st).2 := by
  cases hact : o.sendMessageAction with
  | error err => simp [MessageInput.requestReply, hact]
  | ok result =>
    cases hr : result.sendMessage with
    | none =>
      cases herrs : result.errors <;> simp [MessageInput.requestReply, hact, hr, herrs]
    | some reply =>
      cases hok : reply.success with
      | false => simp [MessageInput.requestReply, hact, hr, hok]
      | true =>
        rw [MessageInput.requestReply_success p o chatIdUuid messageContent st result reply
          hact hr hok]
        cases hsave : o.saveBotResponse with
        | error e1 =>
          cases hfb : o.saveBotResponseFallback <;>
            simp [MessageInput.saveReply, MessageInput.saveFallback, hsave, hfb]
        | ok saved =>
          cases hid2 : MessageInput.truthy saved.id with
          | false => simp [MessageInput.saveReply, hsave, hid2]
          | true =>
            cases hrf : o.refetchMessages with
            | ok u2 =>
              cases hcb : p.onMessageSent <;>
                simp [MessageInput.saveReply, hsave, hid2, hrf, hcb]
            | error e2 =>
              cases hfb : o.saveBotResponseFallback <;>
                simp [MessageInput.saveReply, MessageInput.saveFallback, hsave, hid2, hrf, hfb]

/-- A title update in the calls of `handleSubmit`: the submission was accepted,
`sendMessage` returned, the props say first message and `New Chat`, and the
title is the one derived from the trimmed text. -/
theorem MessageInput.title_update_made (p : MessageInput.Props) (o : MessageInput.Outcomes)
    (st : MessageInput.State) (a : Text) (b : List CodeUnit)
    (h : MessageInput.Effect.updateChatTitle a b ∈ (MessageInput.handleSubmit p o st).2) :
    trim st.message ≠ [] ∧ st.isLoading = false ∧
      MessageInput.validateChatId p.chatId = .ok a ∧ o.sendMessage = .ok () ∧
      p.isFirstMessage = true ∧ p.chatTitle = "New Chat".toList ∧
      b = MessageInput.deriveTitle (trim st.message) := by
  by_cases hmsg : trim st.message = []
  · simp [MessageInput.handleSubmit, hmsg] at h
  cases hload : st.isLoading with
  | true => simp [MessageInput.handleSubmit, hload] at h
  | false =>
    cases hid : MessageInput.validateChatId p.chatId with
    | error err =>
      simp [MessageInput.handleSubmit, MessageInput.attempt, hmsg, hload, hid] at h
    | ok chatIdUuid =>
      cases hsend : o.sendMessage with
      | error err =>
        simp [MessageInput.handleSubmit, MessageInput.attempt, hmsg, hload, hid, hsend] at h
      | ok u =>
        cases u
        rw [MessageInput.handleSubmit_after_send p o st chatIdUuid hmsg hload hid hsend] at h
        simp only [List.mem_cons, List.mem_append] at h
        rcases h with h | h | h | h
        · cases h
        · cases h
        · have hcond : p.isFirstMessage = true ∧ p.chatTitle = "New Chat".toList := by
            by_contra hc
            unfold MessageInput.updateTitle at h
            rw [if_neg hc] at h
            simp at h
          have heq := MessageInput.mem_updateTitle _ _ _ _ _ h
          injection heq with h1 h2
          subst h1
          exact ⟨hmsg, rfl, rfl, rfl, hcond.1, hcond.2, h2⟩
        · exact absurd h (MessageInput.requestReply_no_title _ _ _ _ _ _ _)

/-- C18: the title handed to `updateChatTitle` is derived from the trimmed
message `c`, its characters counted as `String.length` counts them, in UTF-16
code units: it is `c` itself when `c` has at most 50 of them, and the first 50
of `c` followed by `...` otherwise; it is never empty and never longer than 53.
For a message of the Basic Multilingual Plane, where a character is one code
unit, this is `c` when `c` has at most 50 characters and otherwise its first 50
characters followed by `...`. -/
theorem MessageInput.handleSubmit_derived_title (p : MessageInput.Props)
    (o : MessageInput.Outcomes) (st : MessageInput.State) (chatIdUuid : Text)
    (title : List CodeUnit)
    (h : MessageInput.Effect.updateChatTitle chatIdUuid title
      ∈ (MessageInput.handleSubmit p o st).2) :
    ((utf16 (trim st.message)).length ≤ 50 → title = utf16 (trim st.message)) ∧
      (50 < (utf16 (trim st.message)).length →
        title = (utf16 (trim st.message)).take 50 ++ utf16 "...".toList) ∧
      title ≠ [] ∧ title.length ≤ 53 ∧
      ((∀ ch ∈ trim st.message, ch.toNat < 0x10000) →
        ((trim st.message).length ≤ 50 → title = utf16 (trim st.message)) ∧
        (50 < (trim st.message).length →
          title = utf16 ((trim st.message).take 50 ++ "...".toList))) := by
  obtain ⟨hmsg, _, _, _, _, _, ht⟩ := MessageInput.title_update_made p o st chatIdUuid title h
  subst ht
  refine ⟨MessageInput.deriveTitle_short _, MessageInput.deriveTitle_long _,
    MessageInput.deriveTitle_ne_nil _ hmsg, MessageInput.deriveTitle_length _, ?_⟩
  intro hbmp
  rw [MessageInput.deriveTitle_of_bmp _ hbmp]
  exact ⟨fun hle => by rw [if_pos hle], fun hlt => by rw [if_neg (by omega)]⟩

theorem MessageInput.handleSubmit_derived_title_witness :
    MessageInput.Effect.updateChatTitle MessageInput.exampleChatId (utf16 "hello".toList)
        ∈ (MessageInput.handleSubmit MessageInput.sampleProps MessageInput.allSucceed
            MessageInput.helloState).2 ∧
      utf16 "hello".toList ≠ [] ∧ (utf16 "hello".toList).length ≤ 53 :=
  ⟨by decide,
    ⟨(MessageInput.handleSubmit_derived_title MessageInput.sampleProps MessageInput.allSucceed
        MessageInput.helloState MessageInput.exampleChatId (utf16 "hello".toList)
        (by decide)).2.2.1,
      (MessageInput.handleSubmit_derived_title MessageInput.sampleProps MessageInput.allSucceed
        MessageInput.helloState MessageInput.exampleChatId (utf16 "hello".toList)
        (by decide)).2.2.2.1⟩⟩

/-- C19 fails as stated: with no messages in the view and a chat list that is
not loaded, or that does not hold the conversation, `ChatWindow` hands the
title `New Chat` to the form and the title update is issued, although no stored
title equal to `New Chat` was looked up. -/
theorem ChatWindow.title_update_without_stored_title :
    ChatWindow.currentChat none MessageInput.exampleChatId = none ∧
      MessageInput.Effect.updateChatTitle MessageInput.exampleChatId (utf16 "hello".toList)
        ∈ (MessageInput.handleSubmit
            (ChatWindow.messageInputProps none none (some ⟨some []⟩) MessageInput.exampleChatId)
            MessageInput.allSucceed MessageInput.helloState).2 ∧
      ChatWindow.currentChat (some ⟨some [⟨"c2".toList, "Trip".toList⟩]⟩)
          MessageInput.exampleChatId = none ∧
      MessageInput.Effect.updateChatTitle MessageInput.exampleChatId (utf16 "hello".toList)
        ∈ (MessageInput.handleSubmit
            (ChatWindow.messageInputProps (some ⟨some [⟨"c2".toList, "Trip".toList⟩]⟩)
              none (some ⟨some []⟩) MessageInput.exampleChatId)
            MessageInput.allSucceed MessageInput.helloState).2 := by
  refine ⟨by decide, by decide, by decide, by decide⟩

theorem ChatWindow.chatTitle_eq_sentinel (chatData : Option ChatWindow.ChatsData)
    (chatIdString : Text)
    (h : ChatWindow.chatTitle chatData chatIdString = "New Chat".toList) :
    ChatWindow.currentChat chatData chatIdString = none ∨
      ∃ chat, ChatWindow.currentChat chatData chatIdString = some chat ∧
        (chat.title = "New Chat".toList ∨ chat.title = []) := by
  unfold ChatWindow.chatTitle at h
  cases hc : ChatWindow.currentChat chatData chatIdString with
  | none => exact Or.inl rfl
  | some chat =>
    refine Or.inr ⟨chat, rfl, ?_⟩
    rw [hc] at h
    cases ht : chat.title with
    | nil => exact Or.inr rfl
    | cons c cs =>
      left
      simpa [MessageInput.orText, ht] using h

/-- C19, amended: a title update is issued only if `sendMessage` returned, the
view held no message at submission, and the title `ChatWindow` shows for the
conversation is `New Chat`: the chat-list entry found for the conversation has
the title `New Chat` or an empty title, or no entry was found (the list is not
loaded, or the conversation is not in it).  A conversation whose chat-list entry
has any other title never has its title overwritten. -/
theorem ChatWindow.title_update_only_for_new_chat (chatData : Option ChatWindow.ChatsData)
    (subscriptionData queryData : Option ChatWindow.MessagesData) (chatIdString : Text)
    (o : MessageInput.Outcomes) (st : MessageInput.State) :
    (∀ a b, MessageInput.Effect.updateChatTitle a b
        ∈ (MessageInput.handleSubmit
            (ChatWindow.messageInputProps chatData subscriptionData queryData chatIdString)
            o st).2 →
        o.sendMessage = .ok () ∧
          ChatWindow.messages subscriptionData queryData = [] ∧
          ChatWindow.chatTitle chatData chatIdString = "New Chat".toList ∧
          (ChatWindow.currentChat chatData chatIdString = none ∨
            ∃ chat, ChatWindow.currentChat chatData chatIdString = some chat ∧
              (chat.title = "New Chat".toList ∨ chat.title = []))) ∧
      (∀ chat, ChatWindow.currentChat chatData chatIdString = some chat →
        chat.title ≠ [] → chat.title ≠ "New Chat".toList →
        ∀ a b, MessageInput.Effect.updateChatTitle a b
          ∉ (MessageInput.handleSubmit
              (ChatWindow.messageInputProps chatData subscriptionData queryData chatIdString)
              o st).2) := by
  have main : ∀ a b, MessageInput.Effect.updateChatTitle a b
        ∈ (MessageInput.handleSubmit
            (ChatWindow.messageInputProps chatData subscriptionData queryData chatIdString)
            o st).2 →
        o.sendMessage = .ok () ∧
          ChatWindow.messages subscriptionData queryData = [] ∧
          ChatWindow.chatTitle chatData chatIdString = "New Chat".toList ∧
          (ChatWindow.currentChat chatData chatIdString = none ∨
            ∃ chat, ChatWindow.currentChat chatData chatIdString = some chat ∧
              (chat.title = "New Chat".toList ∨ chat.title = [])) := by
    intro a b h
    obtain ⟨_, _, _, hsend, hfirst, htitle, _⟩ :=
      MessageInput.title_update_made _ o st a b h
    have hfirst2 : ChatWindow.isFirstMessage
        (ChatWindow.messages subscriptionData queryData) = true := hfirst
    have htitle2 : ChatWindow.chatTitle chatData chatIdString = "New Chat".toList := htitle
    refine ⟨hsend, ?_, htitle2, ChatWindow.chatTitle_eq_sentinel _ _ htitle2⟩
    unfold ChatWindow.isFirstMessage at hfirst2
    exact List.length_eq_zero.mp (by simpa using hfirst2)
  refine ⟨main, ?_⟩
  intro chat hchat hne hnew a b h
  rcases (main a b h).2.2.2 with hnone | ⟨chat2, hc2, ht⟩
  · rw [hnone] at hchat
    cases hchat
  · rw [hc2] at hchat
    cases hchat
    rcases ht with ht | ht
    · exact hnew ht
    · exact hne ht

/-- C20: the outcome of the title update does not matter: with the outcomes of
all other calls fixed, `handleSubmit` makes the same calls and leaves the same
state and error whether `updateChatTitle` returns or throws. -/
theorem MessageInput.handleSubmit_ignores_title_outcome (p : MessageInput.Props)
    (o : MessageInput.Outcomes) (st : MessageInput.State)
    (first second : Except MessageInput.JsError Unit) :
    MessageInput.handleSubmit p { o with updateChatTitle := first } st
      = MessageInput.handleSubmit p { o with updateChatTitle := second } st := by
  have ht : ∀ chatIdUuid messageContent,
      MessageInput.updateTitle p { o with updateChatTitle := first } chatIdUuid messageContent
        = MessageInput.updateTitle p { o with updateChatTitle := second } chatIdUuid
            messageContent := by
    intro chatIdUuid messageContent
    unfold MessageInput.updateTitle
    cases first <;> cases second <;> rfl
  have hr : ∀ chatIdUuid messageContent s,
      MessageInput.requestReply p { o with updateChatTitle := first } chatIdUuid
          messageContent s
        = MessageInput.requestReply p { o with updateChatTitle := second } chatIdUuid
            messageContent s := by
    intro chatIdUuid messageContent s
    rfl
  unfold MessageInput.handleSubmit MessageInput.attempt
  simp only [ht, hr]

/-! ## Texts in which a pattern does not match -/

theorem occurs_cons (m : Matcher) (c : Char) (cs : Text) :
    occurs m (c :: cs) = ((m (c :: cs)).isSome || occurs m cs) := by
  simp [occurs, List.tails]

theorem occurs_nil (m : Matcher) : occurs m [] = (m []).isSome := by
  simp [occurs, List.tails]

/-- A pattern whose matches start with a character of a class does not match
in a text without such a character. -/
theorem occurs_eq_false_of_head (m : Matcher) (P : Char → Prop)
    (hnil : m [] = none) (hm : ∀ c cs, ¬ P c → m (c :: cs) = none) :
    ∀ l : Text, (∀ c ∈ l, ¬ P c) → occurs m l = false := by
  intro l
  induction l with
  | nil => intro _; rw [occurs_nil, hnil]; rfl
  | cons c cs ih =>
    intro h
    rw [occurs_cons, hm c cs (h c (List.mem_cons_self _ _)),
      ih (fun d hd => h d (List.mem_cons_of_mem _ hd))]
    rfl

/-- A pattern that needs a given character in the text it is tried on does not
match in a text without it. -/
theorem occurs_eq_false_of_mem (m : Matcher) (x : Char)
    (hm : ∀ t, x ∉ t → m t = none) :
    ∀ l : Text, x ∉ l → occurs m l = false := by
  intro l
  induction l with
  | nil => intro h; rw [occurs_nil, hm [] h]; rfl
  | cons c cs ih =>
    intro h
    rw [occurs_cons, hm (c :: cs) h, ih (fun hd => h (List.mem_cons_of_mem _ hd))]
    rfl

theorem ChatWindow.matchBr_none_of_head (c : Char) (cs : Text) (h : ¬ c = '<') :
    ChatWindow.matchBr (c :: cs) = none := by
  unfold ChatWindow.matchBr
  split
  · rename_i c1 b r rest heq
    injection heq with h1 h2
    subst h1
    simp [h]
  · rfl

theorem ChatWindow.matchBullet_none_of_head (c : Char) (cs : Text)
    (h : ¬ (c = '•' ∨ c = '·')) : ChatWindow.matchBullet (c :: cs) = none := by
  simp [ChatWindow.matchBullet, h]

theorem ChatWindow.matchRuleHeading_none_of_head (c : Char) (cs : Text) (h : ¬ c = '\n') :
    ChatWindow.matchRuleHeading (c :: cs) = none := by
  simp [ChatWindow.matchRuleHeading, h]

theorem ChatWindow.matchNewlines_none_of_head (c : Char) (cs : Text) (h : ¬ c = '\n') :
    ChatWindow.matchNewlines (c :: cs) = none := by
  simp [ChatWindow.matchNewlines, List.takeWhile_cons, h]

theorem ChatWindow.matchPipePair_none_of_not_mem (t : Text) (h : '|' ∉ t) :
    ChatWindow.matchPipePair t = none := by
  unfold ChatWindow.matchPipePair
  split
  · rename_i p rest heq
    have hp : p ∈ t := by
      have : p ∈ t.dropWhile isWhiteSpace := by rw [heq]; exact List.mem_cons_self _ _
      exact (List.dropWhile_sublist _).subset this
    have hne : ¬ p = '|' := fun hpe => h (hpe ▸ hp)
    simp [hne]
  · rfl

theorem ChatWindow.matchDoublePipe_none_of_not_mem (t : Text) (h : '|' ∉ t) :
    ChatWindow.matchDoublePipe t = none := by
  unfold ChatWindow.matchDoublePipe
  split
  · rename_i p q rest heq
    have hp : p ∈ t := by
      have : p ∈ t.dropWhile isWhiteSpace := by rw [heq]; exact List.mem_cons_self _ _
      exact (List.dropWhile_sublist _).subset this
    have hne : ¬ p = '|' := fun hpe => h (hpe ▸ hp)
    simp [hne]
  · rfl

theorem ChatWindow.matchRuleHeading_none_of_not_mem (t : Text) (h : '-' ∉ t) :
    ChatWindow.matchRuleHeading t = none := by
  cases t with
  | nil => rfl
  | cons c rest =>
    have hrun : (rest.dropWhile isWhiteSpace).takeWhile (· = '-') = [] := by
      rw [List.takeWhile_eq_nil_iff]
      intro hpos hd
      have hmem : (rest.dropWhile isWhiteSpace).get ⟨0, hpos⟩ ∈ c :: rest :=
        List.mem_cons_of_mem _ ((List.dropWhile_sublist _).subset (List.get_mem _ _ _))
      have heq : (rest.dropWhile isWhiteSpace).get ⟨0, hpos⟩ = '-' := by simpa using hd
      exact h (heq ▸ hmem)
    simp [ChatWindow.matchRuleHeading, hrun]

theorem isPlain_iff (c : Char) :
    isPlain c = true ↔
      isWhiteSpace c = false ∧ c ≠ '|' ∧ c ≠ '<' ∧ c ≠ '-' ∧ c ≠ '#' ∧ c ≠ '•' ∧ c ≠ '·' := by
  simp [isPlain, and_assoc]

theorem isPlain_ne_newline (c : Char) (h : isPlain c = true) : c ≠ '\n' := by
  intro hc
  subst hc
  exact absurd h (by decide)

theorem dropWhile_whiteSpace_of_plain (l : Text) (h : ∀ c ∈ l, isPlain c = true) :
    l.dropWhile isWhiteSpace = l := by
  cases l with
  | nil => rfl
  | cons c cs =>
    have hc := ((isPlain_iff c).mp (h c (List.mem_cons_self _ _))).1
    simp [List.dropWhile_cons, hc]

theorem ChatWindow.matchDoublePipe_shrinks : Shrinks ChatWindow.matchDoublePipe := by
  intro l out rest h
  unfold ChatWindow.matchDoublePipe at h
  split at h
  · rename_i p q tail heq
    split at h
    · injection h with h
      injection h with _ h2
      subst h2
      have h1 : (tail.dropWhile isWhiteSpace).length ≤ tail.length :=
        (List.dropWhile_suffix _).length_le
      have h2 : (l.dropWhile isWhiteSpace).length ≤ l.length :=
        (List.dropWhile_suffix _).length_le
      rw [heq] at h2
      simp only [List.length_cons] at h2
      omega
    · cases h
  · cases h

/-- The second replacement on `a || b` for plain `a` and `b`. -/
theorem ChatWindow.replaceAll_doublePipe_plain (a b : Text)
    (ha : ∀ c ∈ a, isPlain c = true) (hb : ∀ c ∈ b, isPlain c = true) :
    replaceAll ChatWindow.matchDoublePipe (a ++ " || ".toList ++ b)
      = a ++ "\n\n".toList ++ b := by
  induction a with
  | nil =>
    have hm : ChatWindow.matchDoublePipe ([] ++ " || ".toList ++ b)
        = some ("\n\n".toList, b) := by
      have hd := dropWhile_whiteSpace_of_plain b hb
      have e1 : ([] ++ " || ".toList ++ b) = ' ' :: '|' :: '|' :: ' ' :: b := rfl
      rw [e1]
      unfold ChatWindow.matchDoublePipe
      have e2 : (' ' :: '|' :: '|' :: ' ' :: b).dropWhile isWhiteSpace
          = '|' :: '|' :: ' ' :: b := by
        rw [List.dropWhile_cons_of_pos (by decide), List.dropWhile_cons_of_neg (by decide)]
      rw [e2]
      have e3 : (' ' :: b).dropWhile isWhiteSpace = b := by
        rw [List.dropWhile_cons_of_pos (by decide), hd]
      simp only [e3, and_self, if_true]
    rw [replaceAll_of_some _ ChatWindow.matchDoublePipe_shrinks _ _ _ hm]
    have hb2 : '|' ∉ b := fun hmem => ((isPlain_iff _).mp (hb _ hmem)).2.1 rfl
    rw [replaceAll_of_not_occurs _ _
      (occurs_eq_false_of_mem _ '|' ChatWindow.matchDoublePipe_none_of_not_mem b hb2)]
    rfl
  | cons c cs ih =>
    have hc := (isPlain_iff c).mp (ha c (List.mem_cons_self _ _))
    have hm : ChatWindow.matchDoublePipe (c :: (cs ++ " || ".toList ++ b)) = none := by
      unfold ChatWindow.matchDoublePipe
      rw [List.dropWhile_cons_of_neg (by simp [hc.1])]
      split
      · rename_i p q rest heq
        injection heq with h1 h2
        subst h1
        simp [hc.2.1]
      · rfl
    have e : c :: cs ++ " || ".toList ++ b = c :: (cs ++ " || ".toList ++ b) := rfl
    rw [e, replaceAll_of_none _ _ _ hm, ih (fun d hd => ha d (List.mem_cons_of_mem _ hd))]
    rfl

theorem ChatWindow.not_occurs_newlines_plain (a b : Text)
    (ha : ∀ c ∈ a, isPlain c = true) (hb : ∀ c ∈ b, isPlain c = true) :
    occurs ChatWindow.matchNewlines (a ++ "\n\n".toList ++ b) = false := by
  have hbn : ∀ c ∈ b, ¬ c = '\n' := fun c hc => isPlain_ne_newline c (hb c hc)
  have hbo : occurs ChatWindow.matchNewlines b = false :=
    occurs_eq_false_of_head _ (fun c => c = '\n') rfl
      ChatWindow.matchNewlines_none_of_head b hbn
  have hrun : b.takeWhile (· = '\n') = [] := by
    cases b with
    | nil => rfl
    | cons d ds =>
      have := hbn d (List.mem_cons_self _ _)
      simp [List.takeWhile_cons, this]
  induction a with
  | nil =>
    have e : ([] : Text) ++ "\n\n".toList ++ b = '\n' :: '\n' :: b := rfl
    rw [e, occurs_cons, occurs_cons, hbo]
    simp [ChatWindow.matchNewlines, List.takeWhile_cons, hrun]
  | cons c cs ih =>
    have hc : ¬ c = '\n' := isPlain_ne_newline c (ha c (List.mem_cons_self _ _))
    have e : c :: cs ++ "\n\n".toList ++ b = c :: (cs ++ "\n\n".toList ++ b) := rfl
    rw [e, occurs_cons, ChatWindow.matchNewlines_none_of_head c _ hc,
      ih (fun d hd => ha d (List.mem_cons_of_mem _ hd))]
    rfl

theorem trim_eq_self (s : Text)
    (hhead : ∀ h : s ≠ [], isWhiteSpace (s.head h) = false)
    (hlast : ∀ h : s ≠ [], isWhiteSpace (s.getLast h) = false) : trim s = s := by
  unfold trim
  have h1 : s.dropWhile isWhiteSpace = s := by
    cases s with
    | nil => rfl
    | cons c cs =>
      have := hhead (List.cons_ne_nil _ _)
      simp only [List.head_cons] at this
      simp [List.dropWhile_cons, this]
  rw [h1]
  have h2 : s.reverse.dropWhile isWhiteSpace = s.reverse := by
    by_cases hs : s = []
    · subst hs; rfl
    · have hl := hlast hs
      have hr : s.reverse ≠ [] := by simpa using hs
      have hh : s.reverse.head hr = s.getLast hs := by simp
      cases hrev : s.reverse with
      | nil => exact absurd hrev hr
      | cons d ds =>
        have hd : d = s.getLast hs := by
          rw [← hh]
          simp [hrev]
        simp [List.dropWhile_cons, hd, hl]
  rw [h2, List.reverse_reverse]

/-- The steps of `normalizeBotMarkdown` on `a || b` for plain `a` and `b`. -/
theorem ChatWindow.normalizeSteps_doublePipe (a b : Text) (ha : a ≠ []) (hb : b ≠ [])
    (hpa : ∀ c ∈ a, isPlain c = true) (hpb : ∀ c ∈ b, isPlain c = true) :
    ChatWindow.normalizeSteps (a ++ " || ".toList ++ b) = a ++ "\n\n".toList ++ b := by
  have hx : ∀ c ∈ a ++ " || ".toList ++ b, ¬ c = '<' := by
    intro c hc
    simp only [List.mem_append] at hc
    rcases hc with (hc | hc) | hc
    · exact ((isPlain_iff c).mp (hpa c hc)).2.2.1
    · intro h; subst h; exact absurd hc (by decide)
    · exact ((isPlain_iff c).mp (hpb c hc)).2.2.1
  have hy : ∀ c ∈ a ++ "\n\n".toList ++ b, isPlain c = true ∨ c = '\n' := by
    intro c hc
    simp only [List.mem_append] at hc
    rcases hc with (hc | hc) | hc
    · exact Or.inl (hpa c hc)
    · right
      have : c ∈ ['\n', '\n'] := hc
      simpa using this
    · exact Or.inl (hpb c hc)
  have s1 : replaceAll ChatWindow.matchBr (a ++ " || ".toList ++ b)
      = a ++ " || ".toList ++ b :=
    replaceAll_of_not_occurs _ _
      (occurs_eq_false_of_head _ (fun c => c = '<') rfl ChatWindow.matchBr_none_of_head _ hx)
  have s3 : replaceAll ChatWindow.matchPipePair (a ++ "\n\n".toList ++ b)
      = a ++ "\n\n".toList ++ b := by
    apply replaceAll_of_not_occurs
    apply occurs_eq_false_of_mem _ '|' ChatWindow.matchPipePair_none_of_not_mem
    intro hmem
    rcases hy _ hmem with h | h
    · exact ((isPlain_iff _).mp h).2.1 rfl
    · exact absurd h (by decide)
  have s4 : replaceAll ChatWindow.matchBullet (a ++ "\n\n".toList ++ b)
      = a ++ "\n\n".toList ++ b := by
    apply replaceAll_of_not_occurs
    apply occurs_eq_false_of_head _ (fun c => c = '•' ∨ c = '·') rfl
      ChatWindow.matchBullet_none_of_head
    intro c hc hbul
    rcases hy c hc with h | h
    · have hp := (isPlain_iff c).mp h
      rcases hbul with hbul | hbul
      · exact hp.2.2.2.2.2.1 hbul
      · exact hp.2.2.2.2.2.2 hbul
    · subst h
      exact absurd hbul (by decide)
  have s5 : replaceAll ChatWindow.matchRuleHeading (a ++ "\n\n".toList ++ b)
      = a ++ "\n\n".toList ++ b := by
    apply replaceAll_of_not_occurs
    apply occurs_eq_false_of_mem _ '-' ChatWindow.matchRuleHeading_none_of_not_mem
    intro hmem
    rcases hy _ hmem with h | h
    · exact ((isPlain_iff _).mp h).2.2.2.1 rfl
    · exact absurd h (by decide)
  have s6 : replaceAll ChatWindow.matchNewlines (a ++ "\n\n".toList ++ b)
      = a ++ "\n\n".toList ++ b :=
    replaceAll_of_not_occurs _ _ (ChatWindow.not_occurs_newlines_plain a b hpa hpb)
  have s7 : trim (a ++ "\n\n".toList ++ b) = a ++ "\n\n".toList ++ b := by
    apply trim_eq_self
    · intro hne
      cases a with
      | nil => exact absurd rfl ha
      | cons c cs =>
        exact ((isPlain_iff c).mp (hpa c (List.mem_cons_self _ _))).1
    · intro hne
      rw [List.getLast_append_of_ne_nil hb]
      exact ((isPlain_iff _).mp (hpb _ (List.getLast_mem hb))).1
  unfold ChatWindow.normalizeSteps
  simp only [s1, ChatWindow.replaceAll_doublePipe_plain a b hpa hpb, s3, s4, s5, s6, s7]

/-- C17: `normalizeBotMarkdown` turns a double-pipe separator into a paragraph
break: for all non-empty texts `a` and `b` made of characters other than white
space, `|`, `<`, `-`, `#` and the two bullets, the normal form of `a || b` is
`a`, two newlines, `b`; in particular that of `A || B` is `A\n\nB`. -/
theorem ChatWindow.normalizeBotMarkdown_doublePipe (a b : Text) (ha : a ≠ []) (hb : b ≠ [])
    (hpa : ∀ c ∈ a, isPlain c = true) (hpb : ∀ c ∈ b, isPlain c = true) :
    ChatWindow.normalizeBotMarkdown (.string (a ++ " || ".toList ++ b))
        = .string (a ++ "\n\n".toList ++ b) ∧
      ChatWindow.normalizeBotMarkdown (.string "A || B".toList) = .string "A\n\nB".toList := by
  refine ⟨?_, by decide⟩
  have hne : a ++ " || ".toList ++ b ≠ [] := by
    cases a with
    | nil => exact absurd rfl ha
    | cons c cs => simp
  unfold ChatWindow.normalizeBotMarkdown
  simp only [hne, if_false, ChatWindow.normalizeSteps_doublePipe a b ha hb hpa hpb]

theorem ChatWindow.normalizeBotMarkdown_doublePipe_witness :
    ChatWindow.normalizeBotMarkdown (.string ("Dear".toList ++ " || ".toList ++ "all".toList))
      = .string ("Dear".toList ++ "\n\n".toList ++ "all".toList) :=
  (ChatWindow.normalizeBotMarkdown_doublePipe "Dear".toList "all".toList
    (by decide) (by decide) (by decide) (by decide)).1

/-! ## Every match consumes a character -/

theorem length_dropWhile_le (p : Char → Bool) (l : Text) :
    (l.dropWhile p).length ≤ l.length :=
  (List.dropWhile_suffix p).length_le

theorem ChatWindow.matchPipePair_shrinks : Shrinks ChatWindow.matchPipePair := by
  intro l out rest h
  unfold ChatWindow.matchPipePair at h
  split at h
  · rename_i p t heq
    split at h
    · split at h
      · rename_i q tail heq2
        split at h
        · injection h with h
          injection h with _ h2
          subst h2
          have h1 := length_dropWhile_le isWhiteSpace tail
          have h2 := length_dropWhile_le isWhiteSpace t
          have h3 := length_dropWhile_le isWhiteSpace l
          rw [heq2] at h2
          rw [heq] at h3
          simp only [List.length_cons] at h2 h3
          omega
        · cases h
      · cases h
    · cases h
  · cases h

theorem ChatWindow.matchBullet_shrinks : Shrinks ChatWindow.matchBullet := by
  intro l out rest h
  unfold ChatWindow.matchBullet at h
  split at h
  · rename_i c tail
    split at h
    · split at h
      · rename_i s t
        split at h
        · injection h with h
          injection h with _ h2
          subst h2
          simp only [List.length_cons]
          omega
        · injection h with h
          injection h with _ h2
          subst h2
          simp only [List.length_cons]
          omega
      · injection h with h
        injection h with _ h2
        subst h2
        simp
    · cases h
  · cases h

theorem ChatWindow.matchNewlines_shrinks : Shrinks ChatWindow.matchNewlines := by
  intro l out rest h
  unfold ChatWindow.matchNewlines at h
  split at h
  · rename_i hrun
    injection h with h
    injection h with _ h2
    subst h2
    have hsplit : (l.takeWhile (· = '\n')).length + (l.dropWhile (· = '\n')).length
        = l.length := by
      rw [← List.length_append, List.takeWhile_append_dropWhile]
    omega
  · cases h

theorem ChatWindow.matchRuleHeading_shrinks : Shrinks ChatWindow.matchRuleHeading := by
  intro l out rest h
  unfold ChatWindow.matchRuleHeading at h
  split at h
  · rename_i c tail
    split at h
    · simp only at h
      split at h
      · split at h
        · injection h with h
          injection h with _ h2
          subst h2
          have h1 := length_dropWhile_le (· = '#')
            (((tail.dropWhile isWhiteSpace).dropWhile (· = '-')).dropWhile isWhiteSpace)
          have h2 := length_dropWhile_le isWhiteSpace
            ((tail.dropWhile isWhiteSpace).dropWhile (· = '-'))
          have h3 := length_dropWhile_le (· = '-') (tail.dropWhile isWhiteSpace)
          have h4 := length_dropWhile_le isWhiteSpace tail
          simp only [List.length_cons]
          omega
        · cases h
      · cases h
    · cases h
  · cases h

/-! ## Runs of newlines -/

theorem takeWhile_dropWhile_nil (p : Char → Bool) (l : Text) :
    (l.dropWhile p).takeWhile p = [] := by
  induction l with
  | nil => rfl
  | cons c cs ih =>
    by_cases h : p c = true
    · rw [List.dropWhile_cons_of_pos h]; exact ih
    · rw [List.dropWhile_cons_of_neg h, List.takeWhile_cons_of_neg h]

theorem ChatWindow.matchNewlines_some (l out rest : Text)
    (h : ChatWindow.matchNewlines l = some (out, rest)) :
    out = "\n\n".toList ∧ rest = l.dropWhile (· = '\n') ∧
      3 ≤ (l.takeWhile (· = '\n')).length := by
  unfold ChatWindow.matchNewlines at h
  split at h
  · rename_i hrun
    injection h with h
    injection h with h1 h2
    exact ⟨h1.symm, h2.symm, hrun⟩
  · cases h

theorem ChatWindow.matchNewlines_none (l : Text) (h : ChatWindow.matchNewlines l = none) :
    (l.takeWhile (· = '\n')).length < 3 := by
  unfold ChatWindow.matchNewlines at h
  split at h
  · cases h
  · omega

theorem ChatWindow.matchNewlines_eq_none (l : Text) (h : (l.takeWhile (· = '\n')).length < 3) :
    ChatWindow.matchNewlines l = none := by
  unfold ChatWindow.matchNewlines
  rw [if_neg (by omega)]

theorem ChatWindow.newlinesBelow3_newline (k : Nat) (cs : Text) :
    ChatWindow.newlinesBelow3 k ('\n' :: cs)
      = (decide (k + 1 < 3) && ChatWindow.newlinesBelow3 (k + 1) cs) := by
  simp [ChatWindow.newlinesBelow3]

theorem ChatWindow.newlinesBelow3_other (k : Nat) (c : Char) (cs : Text) (h : ¬ c = '\n') :
    ChatWindow.newlinesBelow3 k (c :: cs) = ChatWindow.newlinesBelow3 0 cs := by
  simp [ChatWindow.newlinesBelow3, h]

/-- After the sixth replacement no three newlines stand in a row. -/
theorem ChatWindow.newlinesBelow3_replaceAll (l : Text) :
    ∀ k, k + min (l.takeWhile (· = '\n')).length 2 ≤ 2 →
      ChatWindow.newlinesBelow3 k (replaceAll ChatWindow.matchNewlines l) = true := by
  refine replaceAll_induction ChatWindow.matchNewlines ChatWindow.matchNewlines_shrinks
    (fun l r => ∀ k, k + min (l.takeWhile (· = '\n')).length 2 ≤ 2 →
      ChatWindow.newlinesBelow3 k r = true) ?_ ?_ ?_ l
  · intro k _
    rfl
  · intro l out rest hm ih k hk
    obtain ⟨hout, hrest, hrun⟩ := ChatWindow.matchNewlines_some l out rest hm
    have hk0 : k = 0 := by omega
    subst hk0 hout
    have hr0 : (rest.takeWhile (· = '\n')).length = 0 := by
      rw [hrest, takeWhile_dropWhile_nil]
      rfl
    have h2 := ih 2 (by omega)
    show ChatWindow.newlinesBelow3 0
      ('\n' :: '\n' :: replaceAll ChatWindow.matchNewlines rest) = true
    rw [ChatWindow.newlinesBelow3_newline, ChatWindow.newlinesBelow3_newline, h2]
    rfl
  · intro c cs hm ih k hk
    have hrun := ChatWindow.matchNewlines_none _ hm
    by_cases hc : c = '\n'
    · subst hc
      have e : (('\n' :: cs).takeWhile (· = '\n')).length
          = (cs.takeWhile (· = '\n')).length + 1 := by
        simp [List.takeWhile_cons]
      rw [e] at hrun hk
      rw [ChatWindow.newlinesBelow3_newline, ih (k + 1) (by omega)]
      have : k + 1 < 3 := by omega
      simp [this]
    · rw [ChatWindow.newlinesBelow3_other k c _ hc]
      exact ih 0 (by omega)

theorem ChatWindow.newlinesBelow3_mono (l : Text) :
    ∀ k j, j ≤ k → ChatWindow.newlinesBelow3 k l = true →
      ChatWindow.newlinesBelow3 j l = true := by
  induction l with
  | nil => intro _ _ _ _; rfl
  | cons c cs ih =>
    intro k j hjk h
    by_cases hc : c = '\n'
    · subst hc
      rw [ChatWindow.newlinesBelow3_newline] at h ⊢
      simp only [Bool.and_eq_true, decide_eq_true_eq] at h ⊢
      exact ⟨by omega, ih (k + 1) (j + 1) (by omega) h.2⟩
    · rw [ChatWindow.newlinesBelow3_other _ c _ hc] at h ⊢
      exact h

theorem ChatWindow.newlinesBelow3_suffix (u v : Text) :
    ∀ k, ChatWindow.newlinesBelow3 k (u ++ v) = true →
      ChatWindow.newlinesBelow3 0 v = true := by
  induction u with
  | nil => intro k h; exact ChatWindow.newlinesBelow3_mono v k 0 (Nat.zero_le _) h
  | cons c cs ih =>
    intro k h
    by_cases hc : c = '\n'
    · subst hc
      have h2 : ChatWindow.newlinesBelow3 k ('\n' :: (cs ++ v)) = true := h
      rw [ChatWindow.newlinesBelow3_newline] at h2
      simp only [Bool.and_eq_true] at h2
      exact ih _ h2.2
    · have h2 : ChatWindow.newlinesBelow3 k (c :: (cs ++ v)) = true := h
      rw [ChatWindow.newlinesBelow3_other _ c _ hc] at h2
      exact ih _ h2

theorem ChatWindow.newlinesBelow3_prefix (u v : Text) :
    ∀ k, ChatWindow.newlinesBelow3 k (u ++ v) = true →
      ChatWindow.newlinesBelow3 k u = true := by
  induction u with
  | nil => intro _ _; rfl
  | cons c cs ih =>
    intro k h
    by_cases hc : c = '\n'
    · subst hc
      have h2 : ChatWindow.newlinesBelow3 k ('\n' :: (cs ++ v)) = true := h
      rw [ChatWindow.newlinesBelow3_newline] at h2 ⊢
      simp only [Bool.and_eq_true] at h2 ⊢
      exact ⟨h2.1, ih _ h2.2⟩
    · have h2 : ChatWindow.newlinesBelow3 k (c :: (cs ++ v)) = true := h
      rw [ChatWindow.newlinesBelow3_other _ c _ hc] at h2 ⊢
      exact ih _ h2

theorem ChatWindow.newlinesBelow3_run (l : Text) :
    ∀ k, k ≤ 2 → ChatWindow.newlinesBelow3 k l = true →
      k + (l.takeWhile (· = '\n')).length ≤ 2 := by
  induction l with
  | nil => intro k hk _; simpa using hk
  | cons c cs ih =>
    intro k hk h
    by_cases hc : c = '\n'
    · subst hc
      rw [ChatWindow.newlinesBelow3_newline] at h
      simp only [Bool.and_eq_true, decide_eq_true_eq] at h
      have := ih (k + 1) (by omega) h.2
      have e : (('\n' :: cs).takeWhile (· = '\n')).length
          = (cs.takeWhile (· = '\n')).length + 1 := by
        simp [List.takeWhile_cons]
      omega
    · have e : ((c :: cs).takeWhile (· = '\n')).length = 0 := by
        simp [List.takeWhile_cons, hc]
      omega

/-- In a text without three newlines in a row the sixth pattern does not
match. -/
theorem ChatWindow.not_occurs_newlines (l : Text) :
    ∀ k, k ≤ 2 → ChatWindow.newlinesBelow3 k l = true →
      occurs ChatWindow.matchNewlines l = false := by
  induction l with
  | nil => intro _ _ _; rfl
  | cons c cs ih =>
    intro k hk h
    have hrun := ChatWindow.newlinesBelow3_run (c :: cs) k hk h
    rw [occurs_cons, ChatWindow.matchNewlines_eq_none _ (by omega)]
    by_cases hc : c = '\n'
    · subst hc
      rw [ChatWindow.newlinesBelow3_newline] at h
      simp only [Bool.and_eq_true, decide_eq_true_eq] at h
      rw [ih (k + 1) (by omega) h.2]
      rfl
    · rw [ChatWindow.newlinesBelow3_other _ c _ hc] at h
      rw [ih 0 (by omega) h]
      rfl

/-! ## Trimming -/

theorem trim_eq_rdropWhile (s : Text) :
    trim s = (s.dropWhile isWhiteSpace).rdropWhile isWhiteSpace := rfl

/-- A text is its trimmed form between a run of white space and a rest. -/
theorem trim_decomp (s : Text) :
    ∃ v, s = s.takeWhile isWhiteSpace ++ (trim s ++ v) := by
  obtain ⟨v, hv⟩ : trim s <+: s.dropWhile isWhiteSpace := by
    rw [trim_eq_rdropWhile]
    exact List.rdropWhile_prefix _ _
  refine ⟨v, ?_⟩
  rw [hv, List.takeWhile_append_dropWhile]

theorem dropWhile_trim (s : Text) : (trim s).dropWhile isWhiteSpace = trim s := by
  obtain ⟨v, hv⟩ : trim s <+: s.dropWhile isWhiteSpace := by
    rw [trim_eq_rdropWhile]
    exact List.rdropWhile_prefix _ _
  cases ht : trim s with
  | nil => rfl
  | cons c cs =>
    rw [ht] at hv
    have hne : s.dropWhile isWhiteSpace ≠ [] := by
      rw [← hv]; simp
    have hhead := List.head_dropWhile_not isWhiteSpace s hne
    have hc : (s.dropWhile isWhiteSpace).head hne = c := by
      simp [← hv]
    rw [hc] at hhead
    rw [List.dropWhile_cons_of_neg (by simp [hhead])]

theorem trim_trim (s : Text) : trim (trim s) = trim s := by
  rw [trim_eq_rdropWhile (trim s), dropWhile_trim, trim_eq_rdropWhile s,
    List.rdropWhile_idempotent]

theorem ChatWindow.newlinesBelow3_trim (s : Text)
    (h : ChatWindow.newlinesBelow3 0 s = true) :
    ChatWindow.newlinesBelow3 0 (trim s) = true := by
  obtain ⟨v, hv⟩ := trim_decomp s
  rw [hv] at h
  exact ChatWindow.newlinesBelow3_prefix _ v 0 (ChatWindow.newlinesBelow3_suffix _ _ 0 h)

theorem mem_trim (s : Text) (c : Char) (h : c ∈ trim s) : c ∈ s := by
  obtain ⟨v, hv⟩ := trim_decomp s
  rw [hv]
  simp [h]

/-! ## Pipes kept apart -/

theorem ChatWindow.pipesApart_pipe (b : Bool) (cs : Text) :
    ChatWindow.pipesApart b ('|' :: cs) = (!b && ChatWindow.pipesApart true cs) := by
  simp [ChatWindow.pipesApart]

theorem ChatWindow.pipesApart_whiteSpace (b : Bool) (c : Char) (cs : Text)
    (h : isWhiteSpace c = true) :
    ChatWindow.pipesApart b (c :: cs) = ChatWindow.pipesApart b cs := by
  have hc : ¬ c = '|' := by
    intro hc
    subst hc
    exact absurd h (by decide)
  simp [ChatWindow.pipesApart, hc, h]

theorem ChatWindow.pipesApart_other (b : Bool) (c : Char) (cs : Text)
    (h : isWhiteSpace c = false) (hc : ¬ c = '|') :
    ChatWindow.pipesApart b (c :: cs) = ChatWindow.pipesApart false cs := by
  simp [ChatWindow.pipesApart, hc, h]

theorem ChatWindow.pipesApart_weaken (l : Text) :
    ∀ b, ChatWindow.pipesApart b l = true → ChatWindow.pipesApart false l = true := by
  induction l with
  | nil => intro _ _; rfl
  | cons c cs ih =>
    intro b h
    by_cases hc : c = '|'
    · subst hc
      rw [ChatWindow.pipesApart_pipe] at h ⊢
      simp only [Bool.and_eq_true] at h
      simp [h.2]
    · by_cases hw : isWhiteSpace c = true
      · rw [ChatWindow.pipesApart_whiteSpace _ c _ hw] at h ⊢
        exact ih b h
      · have hw2 : isWhiteSpace c = false := by simpa using hw
        rw [ChatWindow.pipesApart_other _ c _ hw2 hc] at h ⊢
        exact h

theorem ChatWindow.pipesApart_cons_congr (c : Char) (cs cs2 : Text)
    (h : ∀ b, ChatWindow.pipesApart b cs = true → ChatWindow.pipesApart b cs2 = true) :
    ∀ b, ChatWindow.pipesApart b (c :: cs) = true →
      ChatWindow.pipesApart b (c :: cs2) = true := by
  intro b hb
  by_cases hc : c = '|'
  · subst hc
    rw [ChatWindow.pipesApart_pipe] at hb ⊢
    simp only [Bool.and_eq_true] at hb ⊢
    exact ⟨hb.1, h true hb.2⟩
  · by_cases hw : isWhiteSpace c = true
    · rw [ChatWindow.pipesApart_whiteSpace _ c _ hw] at hb ⊢
      exact h b hb
    · have hw2 : isWhiteSpace c = false := by simpa using hw
      rw [ChatWindow.pipesApart_other _ c _ hw2 hc] at hb ⊢
      exact h false hb

theorem ChatWindow.pipesApart_dropWhile (b : Bool) (l : Text) :
    ChatWindow.pipesApart b (l.dropWhile isWhiteSpace) = ChatWindow.pipesApart b l := by
  induction l with
  | nil => rfl
  | cons c cs ih =>
    by_cases hw : isWhiteSpace c = true
    · rw [List.dropWhile_cons_of_pos hw, ih, ChatWindow.pipesApart_whiteSpace _ c _ hw]
    · rw [List.dropWhile_cons_of_neg hw]

theorem ChatWindow.pipesApart_run_false (p : Char → Bool)
    (hp : ∀ c, p c = true → isWhiteSpace c = false ∧ ¬ c = '|') (l : Text) :
    ChatWindow.pipesApart false (l.dropWhile p) = ChatWindow.pipesApart false l := by
  induction l with
  | nil => rfl
  | cons c cs ih =>
    by_cases hc : p c = true
    · rw [List.dropWhile_cons_of_pos hc, ih,
        ChatWindow.pipesApart_other _ c _ (hp c hc).1 (hp c hc).2]
    · rw [List.dropWhile_cons_of_neg hc]

theorem ChatWindow.pipesApart_run (p : Char → Bool)
    (hp : ∀ c, p c = true → isWhiteSpace c = false ∧ ¬ c = '|') (b : Bool) (l : Text)
    (h : 1 ≤ (l.takeWhile p).length) :
    ChatWindow.pipesApart b l = ChatWindow.pipesApart false (l.dropWhile p) := by
  cases l with
  | nil => simp at h
  | cons c cs =>
    by_cases hc : p c = true
    · rw [List.dropWhile_cons_of_pos hc, ChatWindow.pipesApart_run_false p hp,
        ChatWindow.pipesApart_other _ c _ (hp c hc).1 (hp c hc).2]
    · rw [List.takeWhile_cons_of_neg hc] at h
      simp at h

theorem ChatWindow.pipesApart_run_append (p : Char → Bool)
    (hp : ∀ c, p c = true → isWhiteSpace c = false ∧ ¬ c = '|') (b : Bool) (l rest : Text)
    (h : 1 ≤ (l.takeWhile p).length) :
    ChatWindow.pipesApart b (l.takeWhile p ++ rest) = ChatWindow.pipesApart false rest := by
  have h1 : ((l.takeWhile p ++ rest).takeWhile p).length ≥ 1 := by
    cases l with
    | nil => simp at h
    | cons c cs =>
      by_cases hc : p c = true
      · simp [List.takeWhile_cons, hc]
      · rw [List.takeWhile_cons_of_neg hc] at h
        simp at h
  rw [ChatWindow.pipesApart_run p hp b _ h1]
  have h2 : (l.takeWhile p ++ rest).dropWhile p = rest.dropWhile p := by
    rw [List.dropWhile_append]
    have : (l.takeWhile p).dropWhile p = [] := by
      rw [List.dropWhile_eq_nil_iff]
      intro x hx
      exact List.mem_takeWhile_imp hx
    simp [this]
  rw [h2, ChatWindow.pipesApart_run_false p hp]

theorem ChatWindow.pipesApart_prefix (u v : Text) :
    ∀ b, ChatWindow.pipesApart b (u ++ v) = true → ChatWindow.pipesApart b u = true := by
  induction u with
  | nil => intro _ _; rfl
  | cons c cs ih =>
    intro b h
    exact ChatWindow.pipesApart_cons_congr c (cs ++ v) cs ih b h

theorem ChatWindow.pipesApart_suffix (u v : Text) :
    ∀ b, ChatWindow.pipesApart b (u ++ v) = true → ChatWindow.pipesApart false v = true := by
  induction u with
  | nil => intro b h; exact ChatWindow.pipesApart_weaken v b h
  | cons c cs ih =>
    intro b h
    have h2 : ChatWindow.pipesApart b (c :: (cs ++ v)) = true := h
    by_cases hc : c = '|'
    · subst hc
      rw [ChatWindow.pipesApart_pipe] at h2
      simp only [Bool.and_eq_true] at h2
      exact ih true h2.2
    · by_cases hw : isWhiteSpace c = true
      · rw [ChatWindow.pipesApart_whiteSpace _ c _ hw] at h2
        exact ih b h2
      · have hw2 : isWhiteSpace c = false := by simpa using hw
        rw [ChatWindow.pipesApart_other _ c _ hw2 hc] at h2
        exact ih false h2

theorem ChatWindow.pipesApart_trim (s : Text) (h : ChatWindow.pipesApart false s = true) :
    ChatWindow.pipesApart false (trim s) = true := by
  obtain ⟨v, hv⟩ := trim_decomp s
  rw [hv] at h
  exact ChatWindow.pipesApart_prefix _ v false (ChatWindow.pipesApart_suffix _ _ false h)

theorem ChatWindow.matchPipePair_some (l out rest : Text)
    (h : ChatWindow.matchPipePair l = some (out, rest)) :
    out = "\n\n".toList ∧
      ∃ t r, l.dropWhile isWhiteSpace = '|' :: t ∧ t.dropWhile isWhiteSpace = '|' :: r := by
  unfold ChatWindow.matchPipePair at h
  split at h
  · rename_i p t heq
    split at h
    · rename_i hp
      split at h
      · rename_i q tail heq2
        split at h
        · rename_i hq
          injection h with h
          injection h with h1 _
          subst hp hq
          exact ⟨h1.symm, t, tail, heq, heq2⟩
        · cases h
      · cases h
    · cases h
  · cases h

theorem ChatWindow.matchPipePair_eq_none_of_pipesApart (b : Bool) (l : Text)
    (h : ChatWindow.pipesApart b l = true) : ChatWindow.matchPipePair l = none := by
  cases hm : ChatWindow.matchPipePair l with
  | none => rfl
  | some r =>
    obtain ⟨out, rest⟩ := r
    obtain ⟨_, t, r, h1, h2⟩ := ChatWindow.matchPipePair_some l out rest hm
    rw [← ChatWindow.pipesApart_dropWhile, h1, ChatWindow.pipesApart_pipe,
      ← ChatWindow.pipesApart_dropWhile, h2, ChatWindow.pipesApart_pipe] at h
    simp at h

theorem ChatWindow.matchDoublePipe_eq_none_of_pipesApart (b : Bool) (l : Text)
    (h : ChatWindow.pipesApart b l = true) : ChatWindow.matchDoublePipe l = none := by
  unfold ChatWindow.matchDoublePipe
  split
  · rename_i p q rest heq
    by_cases hpq : p = '|' ∧ q = '|'
    · exfalso
      obtain ⟨hp, hq⟩ := hpq
      subst hp hq
      rw [← ChatWindow.pipesApart_dropWhile, heq, ChatWindow.pipesApart_pipe,
        ChatWindow.pipesApart_pipe] at h
      simp at h
    · rw [if_neg hpq]
  · rfl

theorem ChatWindow.pipesApart_tail (b : Bool) (c : Char) (cs : Text)
    (h : ChatWindow.pipesApart b (c :: cs) = true) :
    ∃ b2, ChatWindow.pipesApart b2 cs = true := by
  by_cases hc : c = '|'
  · subst hc
    rw [ChatWindow.pipesApart_pipe] at h
    simp only [Bool.and_eq_true] at h
    exact ⟨true, h.2⟩
  · by_cases hw : isWhiteSpace c = true
    · rw [ChatWindow.pipesApart_whiteSpace _ c _ hw] at h
      exact ⟨b, h⟩
    · have hw2 : isWhiteSpace c = false := by simpa using hw
      rw [ChatWindow.pipesApart_other _ c _ hw2 hc] at h
      exact ⟨false, h⟩

/-- In a text whose pipes are kept apart neither pipe pattern matches. -/
theorem ChatWindow.not_occurs_pipes (l : Text) :
    ∀ b, ChatWindow.pipesApart b l = true →
      occurs ChatWindow.matchDoublePipe l = false ∧
        occurs ChatWindow.matchPipePair l = false := by
  induction l with
  | nil => intro _ _; exact ⟨rfl, rfl⟩
  | cons c cs ih =>
    intro b h
    obtain ⟨b2, h2⟩ := ChatWindow.pipesApart_tail b c cs h
    rw [occurs_cons, occurs_cons, ChatWindow.matchDoublePipe_eq_none_of_pipesApart b _ h,
      ChatWindow.matchPipePair_eq_none_of_pipesApart b _ h, (ih b2 h2).1, (ih b2 h2).2]
    exact ⟨rfl, rfl⟩

/-- After the third replacement the pipes of the text are kept apart. -/
theorem ChatWindow.pipesApart_replaceAll_pipePair (l : Text) :
    ∀ b, (b = true → ∀ t, l.dropWhile isWhiteSpace ≠ '|' :: t) →
      ChatWindow.pipesApart b (replaceAll ChatWindow.matchPipePair l) = true := by
  refine replaceAll_induction ChatWindow.matchPipePair ChatWindow.matchPipePair_shrinks
    (fun l r => ∀ b, (b = true → ∀ t, l.dropWhile isWhiteSpace ≠ '|' :: t) →
      ChatWindow.pipesApart b r = true) ?_ ?_ ?_ l
  · intro _ _
    rfl
  · intro l out rest hm ih b hb
    obtain ⟨hout, t, r, h1, _⟩ := ChatWindow.matchPipePair_some l out rest hm
    subst hout
    have hbf : b = false := by
      cases b with
      | false => rfl
      | true => exact absurd h1 (hb rfl t)
    subst hbf
    show ChatWindow.pipesApart false
      ('\n' :: '\n' :: replaceAll ChatWindow.matchPipePair rest) = true
    rw [ChatWindow.pipesApart_whiteSpace _ _ _ (by decide),
      ChatWindow.pipesApart_whiteSpace _ _ _ (by decide)]
    exact ih false (fun hf => by cases hf)
  · intro c cs hm ih b hb
    by_cases hc : c = '|'
    · subst hc
      have hbf : b = false := by
        cases b with
        | false => rfl
        | true =>
          exact absurd (List.dropWhile_cons_of_neg (by decide)) (hb rfl cs)
      subst hbf
      rw [ChatWindow.pipesApart_pipe]
      simp only [Bool.not_false, Bool.true_and]
      apply ih true
      intro _ t ht
      have hmm : ChatWindow.matchPipePair ('|' :: cs) ≠ none := by
        unfold ChatWindow.matchPipePair
        rw [List.dropWhile_cons_of_neg (by decide)]
        simp [ht]
      exact hmm hm
    · by_cases hw : isWhiteSpace c = true
      · rw [ChatWindow.pipesApart_whiteSpace _ c _ hw]
        apply ih b
        intro hbt t
        have := hb hbt t
        rwa [List.dropWhile_cons_of_pos hw] at this
      · have hw2 : isWhiteSpace c = false := by simpa using hw
        rw [ChatWindow.pipesApart_other _ c _ hw2 hc]
        exact ih false (fun hf => by cases hf)

theorem ChatWindow.matchBullet_some (l out rest : Text)
    (h : ChatWindow.matchBullet l = some (out, rest)) :
    out = "- ".toList ∧
      ∃ c cs, l = c :: cs ∧ (c = '•' ∨ c = '·') ∧
        (rest = cs ∨ ∃ s, isWhiteSpace s = true ∧ cs = s :: rest) := by
  unfold ChatWindow.matchBullet at h
  split at h
  · rename_i c tail
    split at h
    · rename_i hc
      split at h
      · rename_i s t
        split at h
        · rename_i hs
          injection h with h
          injection h with h1 h2
          exact ⟨h1.symm, c, s :: t, rfl, hc, Or.inr ⟨s, hs, by rw [h2]⟩⟩
        · injection h with h
          injection h with h1 h2
          exact ⟨h1.symm, c, s :: t, rfl, hc, Or.inl h2.symm⟩
      · injection h with h
        injection h with h1 h2
        exact ⟨h1.symm, c, [], rfl, hc, Or.inl h2.symm⟩
    · cases h
  · cases h

theorem ChatWindow.matchRuleHeading_some (l out rest : Text)
    (h : ChatWindow.matchRuleHeading l = some (out, rest)) :
    ∃ tail, l = '\n' :: tail ∧
      3 ≤ ((tail.dropWhile isWhiteSpace).takeWhile (· = '-')).length ∧
      1 ≤ ((((tail.dropWhile isWhiteSpace).dropWhile (· = '-')).dropWhile
        isWhiteSpace).takeWhile (· = '#')).length ∧
      out = "\n\n".toList ++
        (((tail.dropWhile isWhiteSpace).dropWhile (· = '-')).dropWhile
          isWhiteSpace).takeWhile (· = '#') ∧
      rest = (((tail.dropWhile isWhiteSpace).dropWhile (· = '-')).dropWhile
          isWhiteSpace).dropWhile (· = '#') := by
  unfold ChatWindow.matchRuleHeading at h
  split at h
  · rename_i c tail
    split at h
    · rename_i hc
      simp only at h
      split at h
      · rename_i hd
        split at h
        · rename_i hh
          injection h with h
          injection h with h1 h2
          subst hc
          exact ⟨tail, rfl, hd, hh, h1.symm, h2.symm⟩
        · cases h
      · cases h
    · cases h
  · cases h

theorem isDash_plain (c : Char) (h : decide (c = '-') = true) :
    isWhiteSpace c = false ∧ ¬ c = '|' := by
  have hc : c = '-' := by simpa using h
  subst hc
  exact ⟨by decide, by decide⟩

theorem isHash_plain (c : Char) (h : decide (c = '#') = true) :
    isWhiteSpace c = false ∧ ¬ c = '|' := by
  have hc : c = '#' := by simpa using h
  subst hc
  exact ⟨by decide, by decide⟩

/-- The fourth replacement keeps the pipes apart. -/
theorem ChatWindow.pipesApart_replaceAll_bullet (l : Text) :
    ∀ b, ChatWindow.pipesApart b l = true →
      ChatWindow.pipesApart b (replaceAll ChatWindow.matchBullet l) = true := by
  refine replaceAll_induction ChatWindow.matchBullet ChatWindow.matchBullet_shrinks
    (fun l r => ∀ b, ChatWindow.pipesApart b l = true → ChatWindow.pipesApart b r = true)
    ?_ ?_ ?_ l
  · intro _ h
    exact h
  · intro l out rest hm ih b hb
    obtain ⟨hout, c, cs, hl, hc, hrest⟩ := ChatWindow.matchBullet_some l out rest hm
    subst hout hl
    have hcw : isWhiteSpace c = false := by
      rcases hc with hc | hc <;> subst hc <;> decide
    have hcp : ¬ c = '|' := by
      rcases hc with hc | hc <;> subst hc <;> decide
    rw [ChatWindow.pipesApart_other _ c _ hcw hcp] at hb
    have hr : ChatWindow.pipesApart false rest = true := by
      rcases hrest with hrest | ⟨s, hs, hrest⟩
      · rw [hrest]; exact hb
      · rw [hrest, ChatWindow.pipesApart_whiteSpace _ s _ hs] at hb
        exact hb
    show ChatWindow.pipesApart b ('-' :: ' ' :: replaceAll ChatWindow.matchBullet rest) = true
    rw [ChatWindow.pipesApart_other _ _ _ (by decide) (by decide),
      ChatWindow.pipesApart_whiteSpace _ _ _ (by decide)]
    exact ih false hr
  · intro c cs _ ih
    exact ChatWindow.pipesApart_cons_congr c cs _ ih

/-- The fifth replacement keeps the pipes apart. -/
theorem ChatWindow.pipesApart_replaceAll_ruleHeading (l : Text) :
    ∀ b, ChatWindow.pipesApart b l = true →
      ChatWindow.pipesApart b (replaceAll ChatWindow.matchRuleHeading l) = true := by
  refine replaceAll_induction ChatWindow.matchRuleHeading ChatWindow.matchRuleHeading_shrinks
    (fun l r => ∀ b, ChatWindow.pipesApart b l = true → ChatWindow.pipesApart b r = true)
    ?_ ?_ ?_ l
  · intro _ h
    exact h
  · intro l out rest hm ih b hb
    obtain ⟨tail, hl, hd, hh, hout, hrest⟩ := ChatWindow.matchRuleHeading_some l out rest hm
    subst hl
    rw [ChatWindow.pipesApart_whiteSpace _ _ _ (by decide),
      ← ChatWindow.pipesApart_dropWhile,
      ChatWindow.pipesApart_run (· = '-') isDash_plain b _ (by omega),
      ← ChatWindow.pipesApart_dropWhile,
      ChatWindow.pipesApart_run (· = '#') isHash_plain false _ hh, ← hrest] at hb
    have e : out ++ replaceAll ChatWindow.matchRuleHeading rest
        = '\n' :: '\n' :: ((((tail.dropWhile isWhiteSpace).dropWhile (· = '-')).dropWhile
            isWhiteSpace).takeWhile (· = '#') ++ replaceAll ChatWindow.matchRuleHeading rest) := by
      rw [hout]
      rfl
    rw [e, ChatWindow.pipesApart_whiteSpace _ _ _ (by decide),
      ChatWindow.pipesApart_whiteSpace _ _ _ (by decide),
      ChatWindow.pipesApart_run_append (· = '#') isHash_plain b _ _ hh]
    exact ih false hb
  · intro c cs _ ih
    exact ChatWindow.pipesApart_cons_congr c cs _ ih

theorem ChatWindow.pipesApart_dropWhile_newline (b : Bool) (l : Text) :
    ChatWindow.pipesApart b (l.dropWhile (· = '\n')) = ChatWindow.pipesApart b l := by
  induction l with
  | nil => rfl
  | cons c cs ih =>
    by_cases hc : c = '\n'
    · subst hc
      rw [List.dropWhile_cons_of_pos (by simp), ih,
        ChatWindow.pipesApart_whiteSpace _ _ _ (by decide)]
    · rw [List.dropWhile_cons_of_neg (by simpa using hc)]

/-- The sixth replacement keeps the pipes apart. -/
theorem ChatWindow.pipesApart_replaceAll_newlines (l : Text) :
    ∀ b, ChatWindow.pipesApart b l = true →
      ChatWindow.pipesApart b (replaceAll ChatWindow.matchNewlines l) = true := by
  refine replaceAll_induction ChatWindow.matchNewlines ChatWindow.matchNewlines_shrinks
    (fun l r => ∀ b, ChatWindow.pipesApart b l = true → ChatWindow.pipesApart b r = true)
    ?_ ?_ ?_ l
  · intro _ h
    exact h
  · intro l out rest hm ih b hb
    obtain ⟨hout, hrest, _⟩ := ChatWindow.matchNewlines_some l out rest hm
    subst hout
    rw [← ChatWindow.pipesApart_dropWhile_newline, ← hrest] at hb
    show ChatWindow.pipesApart b
      ('\n' :: '\n' :: replaceAll ChatWindow.matchNewlines rest) = true
    rw [ChatWindow.pipesApart_whiteSpace _ _ _ (by decide),
      ChatWindow.pipesApart_whiteSpace _ _ _ (by decide)]
    exact ih b hb
  · intro c cs _ ih
    exact ChatWindow.pipesApart_cons_congr c cs _ ih

/-! ## Characters of a replaced text -/

/-- A property of characters that the replacements of a matcher keep holds for
the replaced text. -/
theorem replaceAll_forall_mem (m : Matcher) (hm : Shrinks m) (P : Char → Prop)
    (hhit : ∀ l out rest, m l = some (out, rest) → (∀ c ∈ l, P c) →
      (∀ c ∈ out, P c) ∧ (∀ c ∈ rest, P c)) :
    ∀ l : Text, (∀ c ∈ l, P c) → ∀ c ∈ replaceAll m l, P c := by
  refine replaceAll_induction m hm
    (fun l r => (∀ c ∈ l, P c) → ∀ c ∈ r, P c) ?_ ?_ ?_
  · intro h
    exact h
  · intro l out rest hmatch ih hl c hc
    obtain ⟨ho, hr⟩ := hhit l out rest hmatch hl
    rcases List.mem_append.mp hc with hc | hc
    · exact ho c hc
    · exact ih hr c hc
  · intro c cs _ ih hl d hd
    rcases List.mem_cons.mp hd with hd | hd
    · rw [hd]; exact hl c (List.mem_cons_self _ _)
    · exact ih (fun e he => hl e (List.mem_cons_of_mem _ he)) d hd

theorem mem_of_mem_dropWhile (p : Char → Bool) (l : Text) (c : Char)
    (h : c ∈ l.dropWhile p) : c ∈ l :=
  (List.dropWhile_sublist p).subset h

/-- After the fourth replacement the text holds no bullet. -/
theorem ChatWindow.no_bullet_replaceAll (l : Text) :
    ∀ c ∈ replaceAll ChatWindow.matchBullet l, ¬ (c = '•' ∨ c = '·') := by
  refine replaceAll_induction ChatWindow.matchBullet ChatWindow.matchBullet_shrinks
    (fun _ r => ∀ c ∈ r, ¬ (c = '•' ∨ c = '·')) ?_ ?_ ?_ l
  · intro c hc
    cases hc
  · intro l out rest hm ih c hc
    obtain ⟨hout, _⟩ := ChatWindow.matchBullet_some l out rest hm
    subst hout
    rcases List.mem_append.mp hc with hc | hc
    · have hc2 : c = '-' ∨ c = ' ' := by simpa using hc
      rcases hc2 with h | h <;> subst h <;> decide
    · exact ih c hc
  · intro c cs hm ih d hd
    rcases List.mem_cons.mp hd with hd | hd
    · rw [hd]
      intro hb
      have : ChatWindow.matchBullet (c :: cs) ≠ none := by
        cases cs with
        | nil => simp [ChatWindow.matchBullet, hb]
        | cons s t =>
          by_cases hs : isWhiteSpace s = true <;> simp [ChatWindow.matchBullet, hb, hs]
      exact this hm
    · exact ih d hd

theorem ChatWindow.replaceAll_ruleHeading_forall (P : Char → Prop) (hn : P '\n') (hh : P '#')
    (l : Text) (hl : ∀ c ∈ l, P c) :
    ∀ c ∈ replaceAll ChatWindow.matchRuleHeading l, P c := by
  refine replaceAll_forall_mem _ ChatWindow.matchRuleHeading_shrinks P ?_ l hl
  intro l out rest hm hl
  obtain ⟨tail, htail, _, _, hout, hrest⟩ := ChatWindow.matchRuleHeading_some l out rest hm
  constructor
  · intro c hc
    rw [hout] at hc
    rcases List.mem_append.mp hc with hc | hc
    · have hc2 : c = '\n' := by simpa using hc
      rw [hc2]; exact hn
    · have hc2 : c = '#' := by simpa using List.mem_takeWhile_imp hc
      rw [hc2]; exact hh
  · intro c hc
    rw [hrest] at hc
    apply hl
    rw [htail]
    exact List.mem_cons_of_mem _
      (mem_of_mem_dropWhile _ _ _ (mem_of_mem_dropWhile _ _ _
        (mem_of_mem_dropWhile _ _ _ (mem_of_mem_dropWhile _ _ _ hc))))

theorem ChatWindow.replaceAll_newlines_forall (P : Char → Prop) (hn : P '\n')
    (l : Text) (hl : ∀ c ∈ l, P c) :
    ∀ c ∈ replaceAll ChatWindow.matchNewlines l, P c := by
  refine replaceAll_forall_mem _ ChatWindow.matchNewlines_shrinks P ?_ l hl
  intro l out rest hm hl
  obtain ⟨hout, hrest, _⟩ := ChatWindow.matchNewlines_some l out rest hm
  constructor
  · intro c hc
    rw [hout] at hc
    have hc2 : c = '\n' := by simpa using hc
    rw [hc2]; exact hn
  · intro c hc
    rw [hrest] at hc
    exact hl c (mem_of_mem_dropWhile _ _ _ hc)

/-! ## The normal form -/

theorem ChatWindow.normalizeBotMarkdown_string (x : Text) :
    ChatWindow.normalizeBotMarkdown (.string x) = .string (ChatWindow.normalize x) := by
  unfold ChatWindow.normalizeBotMarkdown ChatWindow.normalize
  by_cases h : x = []
  · simp [h]
  · simp [h]

/-- What holds of every output of the steps: the pipes are kept apart, no three
newlines stand in a row, no bullet is left, and the text is trimmed. -/
theorem ChatWindow.normalizeSteps_facts (x : Text) :
    ChatWindow.pipesApart false (ChatWindow.normalizeSteps x) = true ∧
      ChatWindow.newlinesBelow3 0 (ChatWindow.normalizeSteps x) = true ∧
      (∀ c ∈ ChatWindow.normalizeSteps x, ¬ (c = '•' ∨ c = '·')) ∧
      trim (ChatWindow.normalizeSteps x) = ChatWindow.normalizeSteps x := by
  unfold ChatWindow.normalizeSteps
  refine ⟨?_, ?_, ?_, trim_trim _⟩
  · apply ChatWindow.pipesApart_trim
    apply ChatWindow.pipesApart_replaceAll_newlines
    apply ChatWindow.pipesApart_replaceAll_ruleHeading
    apply ChatWindow.pipesApart_replaceAll_bullet
    exact ChatWindow.pipesApart_replaceAll_pipePair _ false (fun h => by cases h)
  · apply ChatWindow.newlinesBelow3_trim
    exact ChatWindow.newlinesBelow3_replaceAll _ 0 (by omega)
  · intro c hc
    have h1 := mem_trim _ c hc
    exact ChatWindow.replaceAll_newlines_forall (fun c => ¬ (c = '•' ∨ c = '·'))
      (by decide) _
      (ChatWindow.replaceAll_ruleHeading_forall (fun c => ¬ (c = '•' ∨ c = '·'))
        (by decide) (by decide) _ (ChatWindow.no_bullet_replaceAll _)) c h1

/-- A text with the properties of a normal form in which neither the line-break
pattern nor the rule-before-heading pattern matches is left unchanged by the
steps. -/
theorem ChatWindow.normalizeSteps_fixed (y : Text)
    (hbr : occurs ChatWindow.matchBr y = false)
    (hrule : occurs ChatWindow.matchRuleHeading y = false)
    (hp : ChatWindow.pipesApart false y = true)
    (hn : ChatWindow.newlinesBelow3 0 y = true)
    (hb : ∀ c ∈ y, ¬ (c = '•' ∨ c = '·'))
    (ht : trim y = y) :
    ChatWindow.normalizeSteps y = y := by
  unfold ChatWindow.normalizeSteps
  simp only [replaceAll_of_not_occurs _ _ hbr,
    replaceAll_of_not_occurs _ _ (ChatWindow.not_occurs_pipes y false hp).1,
    replaceAll_of_not_occurs _ _ (ChatWindow.not_occurs_pipes y false hp).2,
    replaceAll_of_not_occurs _ _
      (occurs_eq_false_of_head _ (fun c => c = '•' ∨ c = '·') rfl
        ChatWindow.matchBullet_none_of_head y hb),
    replaceAll_of_not_occurs _ _ hrule,
    replaceAll_of_not_occurs _ _ (ChatWindow.not_occurs_newlines y 0 (by omega) hn), ht]

theorem ChatWindow.normalize_idempotent_of (x : Text)
    (hbr : occurs ChatWindow.matchBr (ChatWindow.normalize x) = false)
    (hrule : occurs ChatWindow.matchRuleHeading (ChatWindow.normalize x) = false) :
    ChatWindow.normalize (ChatWindow.normalize x) = ChatWindow.normalize x := by
  by_cases hx : x = []
  · subst hx
    rfl
  · have e : ChatWindow.normalize x = ChatWindow.normalizeSteps x := by
      unfold ChatWindow.normalize
      rw [if_neg hx]
    rw [e] at hbr hrule ⊢
    obtain ⟨hp, hn, hb, ht⟩ := ChatWindow.normalizeSteps_facts x
    unfold ChatWindow.normalize
    split
    · rfl
    · exact ChatWindow.normalizeSteps_fixed _ hbr hrule hp hn hb ht

theorem ChatWindow.matchDoublePipe_some (l out rest : Text)
    (h : ChatWindow.matchDoublePipe l = some (out, rest)) :
    out = "\n\n".toList ∧ ∀ c ∈ rest, c ∈ l := by
  unfold ChatWindow.matchDoublePipe at h
  split at h
  · rename_i p q tail heq
    split at h
    · injection h with h
      injection h with h1 h2
      refine ⟨h1.symm, ?_⟩
      intro c hc
      rw [← h2] at hc
      have h3 : c ∈ l.dropWhile isWhiteSpace := by
        rw [heq]
        exact List.mem_cons_of_mem _ (List.mem_cons_of_mem _ (mem_of_mem_dropWhile _ _ _ hc))
      exact mem_of_mem_dropWhile _ _ _ h3
    · cases h
  · cases h

theorem ChatWindow.matchPipePair_rest (l out rest : Text)
    (h : ChatWindow.matchPipePair l = some (out, rest)) : ∀ c ∈ rest, c ∈ l := by
  unfold ChatWindow.matchPipePair at h
  split at h
  · rename_i p t heq
    split at h
    · split at h
      · rename_i q tail heq2
        split at h
        · injection h with h
          injection h with _ h2
          intro c hc
          rw [← h2] at hc
          have h3 : c ∈ t.dropWhile isWhiteSpace := by
            rw [heq2]
            exact List.mem_cons_of_mem _ (mem_of_mem_dropWhile _ _ _ hc)
          have h4 : c ∈ l.dropWhile isWhiteSpace := by
            rw [heq]
            exact List.mem_cons_of_mem _ (mem_of_mem_dropWhile _ _ _ h3)
          exact mem_of_mem_dropWhile _ _ _ h4
        · cases h
      · cases h
    · cases h
  · cases h

theorem ChatWindow.matchRuleHeading_none_of_no_hash (t : Text) (h : '#' ∉ t) :
    ChatWindow.matchRuleHeading t = none := by
  cases hm : ChatWindow.matchRuleHeading t with
  | none => rfl
  | some r =>
    exfalso
    obtain ⟨out, rest⟩ := r
    obtain ⟨tail, htail, _, hh, _, _⟩ := ChatWindow.matchRuleHeading_some t out rest hm
    have hne : (((tail.dropWhile isWhiteSpace).dropWhile (· = '-')).dropWhile
        isWhiteSpace).takeWhile (· = '#') ≠ [] := by
      intro h0
      rw [h0] at hh
      simp at hh
    obtain ⟨c, hc⟩ := List.exists_mem_of_ne_nil _ hne
    have hc2 : c = '#' := by simpa using List.mem_takeWhile_imp hc
    have hc3 : c ∈ t := by
      rw [htail]
      exact List.mem_cons_of_mem _
        (mem_of_mem_dropWhile _ _ _ (mem_of_mem_dropWhile _ _ _
          (mem_of_mem_dropWhile _ _ _ ((List.takeWhile_sublist _).subset hc))))
    exact h (hc2 ▸ hc3)

/-- A text without `<` and `#` has a normal form without them. -/
theorem ChatWindow.normalize_no_angle_no_hash (x : Text) (h1 : '<' ∉ x) (h2 : '#' ∉ x) :
    '<' ∉ ChatWindow.normalize x ∧ '#' ∉ ChatWindow.normalize x := by
  by_cases hx : x = []
  · subst hx
    exact ⟨h1, h2⟩
  have e : ChatWindow.normalize x = ChatWindow.normalizeSteps x := by
    unfold ChatWindow.normalize
    rw [if_neg hx]
  rw [e]
  have hP : ∀ c ∈ x, ¬ c = '<' ∧ ¬ c = '#' := by
    intro c hc
    exact ⟨fun h => h1 (h ▸ hc), fun h => h2 (h ▸ hc)⟩
  have s1 : replaceAll ChatWindow.matchBr x = x :=
    replaceAll_of_not_occurs _ _
      (occurs_eq_false_of_head _ (fun c => c = '<') rfl ChatWindow.matchBr_none_of_head x
        (fun c hc => (hP c hc).1))
  have hs2 := replaceAll_forall_mem ChatWindow.matchDoublePipe
    ChatWindow.matchDoublePipe_shrinks (fun c => ¬ c = '<' ∧ ¬ c = '#')
    (fun l out rest hm hl => by
      obtain ⟨hout, hrest⟩ := ChatWindow.matchDoublePipe_some l out rest hm
      refine ⟨fun c hc => ?_, fun c hc => hl c (hrest c hc)⟩
      rw [hout] at hc
      have hc2 : c = '\n' := by simpa using hc
      rw [hc2]
      exact ⟨by decide, by decide⟩) x hP
  have hs3 := replaceAll_forall_mem ChatWindow.matchPipePair
    ChatWindow.matchPipePair_shrinks (fun c => ¬ c = '<' ∧ ¬ c = '#')
    (fun l out rest hm hl => by
      obtain ⟨hout, _⟩ := ChatWindow.matchPipePair_some l out rest hm
      refine ⟨fun c hc => ?_, fun c hc => hl c (ChatWindow.matchPipePair_rest l out rest hm c hc)⟩
      rw [hout] at hc
      have hc2 : c = '\n' := by simpa using hc
      rw [hc2]
      exact ⟨by decide, by decide⟩) _ hs2
  have hs4 := replaceAll_forall_mem ChatWindow.matchBullet
    ChatWindow.matchBullet_shrinks (fun c => ¬ c = '<' ∧ ¬ c = '#')
    (fun l out rest hm hl => by
      obtain ⟨hout, c0, cs, hlc, _, hrest⟩ := ChatWindow.matchBullet_some l out rest hm
      refine ⟨fun c hc => ?_, fun c hc => ?_⟩
      · rw [hout] at hc
        have hc2 : c = '-' ∨ c = ' ' := by simpa using hc
        rcases hc2 with h | h <;> rw [h] <;> exact ⟨by decide, by decide⟩
      · apply hl
        rw [hlc]
        rcases hrest with hrest | ⟨s, _, hrest⟩
        · rw [← hrest]; exact List.mem_cons_of_mem _ hc
        · rw [hrest]; exact List.mem_cons_of_mem _ (List.mem_cons_of_mem _ hc)) _ hs3
  have s5 : replaceAll ChatWindow.matchRuleHeading
      (replaceAll ChatWindow.matchBullet (replaceAll ChatWindow.matchPipePair
        (replaceAll ChatWindow.matchDoublePipe x)))
      = replaceAll ChatWindow.matchBullet (replaceAll ChatWindow.matchPipePair
        (replaceAll ChatWindow.matchDoublePipe x)) :=
    replaceAll_of_not_occurs _ _
      (occurs_eq_false_of_mem _ '#' ChatWindow.matchRuleHeading_none_of_no_hash _
        (fun hmem => (hs4 _ hmem).2 rfl))
  have hs6 := ChatWindow.replaceAll_newlines_forall (fun c => ¬ c = '<' ∧ ¬ c = '#')
    ⟨by decide, by decide⟩ _ hs4
  unfold ChatWindow.normalizeSteps
  simp only [s1, s5]
  exact ⟨fun hmem => (hs6 _ (mem_trim _ _ hmem)).1 rfl,
    fun hmem => (hs6 _ (mem_trim _ _ hmem)).2 rfl⟩

/-- C1 fails as stated: a heading behind two dash rules loses one rule per pass,
and a line-break marker wrapped around another one is only removed by the
second pass. -/
theorem ChatWindow.normalizeBotMarkdown_not_idempotent :
    ChatWindow.normalizeBotMarkdown (.string "a\n---\n---#".toList)
        = .string "a\n---\n\n#".toList ∧
      ChatWindow.normalizeBotMarkdown
          (ChatWindow.normalizeBotMarkdown (.string "a\n---\n---#".toList))
        = .string "a\n\n#".toList ∧
      ChatWindow.normalizeBotMarkdown
          (ChatWindow.normalizeBotMarkdown (.string "a\n---\n---#".toList))
        ≠ ChatWindow.normalizeBotMarkdown (.string "a\n---\n---#".toList) ∧
      ChatWindow.normalizeBotMarkdown
          (ChatWindow.normalizeBotMarkdown (.string "<br<br>>".toList))
        ≠ ChatWindow.normalizeBotMarkdown (.string "<br<br>>".toList) := by
  refine ⟨by decide, by decide, by decide, by decide⟩

/-- C1, amended: `normalizeBotMarkdown` is idempotent at every text whose normal
form holds no match of the line-break pattern and no match of the
rule-before-heading pattern, and in particular at every text without `<` and
`#`: there a second pass changes nothing. -/
theorem ChatWindow.normalizeBotMarkdown_idempotent_of (x : Text) :
    (occurs ChatWindow.matchBr (ChatWindow.normalize x) = false →
        occurs ChatWindow.matchRuleHeading (ChatWindow.normalize x) = false →
        ChatWindow.normalizeBotMarkdown (ChatWindow.normalizeBotMarkdown (.string x))
          = ChatWindow.normalizeBotMarkdown (.string x)) ∧
      ('<' ∉ x → '#' ∉ x →
        ChatWindow.normalizeBotMarkdown (ChatWindow.normalizeBotMarkdown (.string x))
          = ChatWindow.normalizeBotMarkdown (.string x)) := by
  have main : occurs ChatWindow.matchBr (ChatWindow.normalize x) = false →
      occurs ChatWindow.matchRuleHeading (ChatWindow.normalize x) = false →
      ChatWindow.normalizeBotMarkdown (ChatWindow.normalizeBotMarkdown (.string x))
        = ChatWindow.normalizeBotMarkdown (.string x) := by
    intro hbr hrule
    rw [ChatWindow.normalizeBotMarkdown_string, ChatWindow.normalizeBotMarkdown_string,
      ChatWindow.normalize_idempotent_of x hbr hrule]
  refine ⟨main, ?_⟩
  intro h1 h2
  obtain ⟨h3, h4⟩ := ChatWindow.normalize_no_angle_no_hash x h1 h2
  apply main
  · exact occurs_eq_false_of_head _ (fun c => c = '<') rfl ChatWindow.matchBr_none_of_head _
      (fun c hc h => h3 (h ▸ hc))
  · exact occurs_eq_false_of_mem _ '#' ChatWindow.matchRuleHeading_none_of_no_hash _ h4

theorem ChatWindow.normalizeBotMarkdown_idempotent_of_witness :
    ChatWindow.normalizeBotMarkdown
        (ChatWindow.normalizeBotMarkdown (.string "A || B<br>• c | | d\n---\n# e".toList))
      = ChatWindow.normalizeBotMarkdown (.string "A || B<br>• c | | d\n---\n# e".toList) ∧
      ChatWindow.normalizeBotMarkdown
        (ChatWindow.normalizeBotMarkdown (.string " • one || two\n\n\n\n--- ".toList))
      = ChatWindow.normalizeBotMarkdown (.string " • one || two\n\n\n\n--- ".toList) :=
  ⟨(ChatWindow.normalizeBotMarkdown_idempotent_of "A || B<br>• c | | d\n---\n# e".toList).1
      (by decide) (by decide),
    (ChatWindow.normalizeBotMarkdown_idempotent_of " • one || two\n\n\n\n--- ".toList).2
      (by decide) (by decide)⟩

/-! ## The end of an attempt -/

/-- An accepted submission: the handler runs the attempt and resets
`isLoading`. -/
theorem MessageInput.handleSubmit_accepted (p : MessageInput.Props)
    (o : MessageInput.Outcomes) (st : MessageInput.State)
    (hmsg : trim st.message ≠ []) (hload : st.isLoading = false) :
    MessageInput.handleSubmit p o st
      = ({ (MessageInput.attempt p o (trim st.message) ⟨[], true, [], []⟩).1 with
            isLoading := false },
          MessageInput.Effect.preventDefault ::
            (MessageInput.attempt p o (trim st.message) ⟨[], true, [], []⟩).2) := by
  simp [MessageInput.handleSubmit, hmsg, hload]

/-- C21: after `handleSubmit` has run for an accepted submission, `isLoading`
is false whatever the props and whatever each call did (returned or threw), so
a next submission of a text that is not blank is accepted: the handler runs the
attempt again. -/
theorem MessageInput.handleSubmit_resets_loading (p : MessageInput.Props)
    (o : MessageInput.Outcomes) (st : MessageInput.State)
    (hmsg : trim st.message ≠ []) (hload : st.isLoading = false) :
    (MessageInput.handleSubmit p o st).1.isLoading = false ∧
      ∀ (next : Text) (p2 : MessageInput.Props) (o2 : MessageInput.Outcomes),
        trim next ≠ [] →
        MessageInput.handleSubmit p2 o2
            { (MessageInput.handleSubmit p o st).1 with message := next }
          = ({ (MessageInput.attempt p2 o2 (trim next) ⟨[], true, [], []⟩).1 with
                isLoading := false },
              MessageInput.Effect.preventDefault ::
                (MessageInput.attempt p2 o2 (trim next) ⟨[], true, [], []⟩).2) := by
  have h1 : (MessageInput.handleSubmit p o st).1.isLoading = false := by
    rw [MessageInput.handleSubmit_accepted p o st hmsg hload]
  refine ⟨h1, ?_⟩
  intro next p2 o2 hnext
  exact MessageInput.handleSubmit_accepted p2 o2 _ hnext h1

theorem MessageInput.handleSubmit_resets_loading_witness :
    (MessageInput.handleSubmit MessageInput.sampleProps MessageInput.bothSavesThrow
        MessageInput.helloState).1.isLoading = false :=
  (MessageInput.handleSubmit_resets_loading MessageInput.sampleProps
    MessageInput.bothSavesThrow MessageInput.helloState (by decide) rfl).1

/-- C26 fails on the code: when `sendMessageAction` returns a result with
neither a reply nor errors, the handler ends with an empty error without having
called `saveBotResponse`. -/
theorem MessageInput.handleSubmit_empty_action_result :
    MessageInput.actionEmpty.sendMessageAction
        = .ok { sendMessage := none, errors := none } ∧
      MessageInput.handleSubmit MessageInput.sampleProps MessageInput.actionEmpty
          MessageInput.helloState
        = (⟨[], false, [], []⟩,
           [MessageInput.Effect.preventDefault,
            MessageInput.Effect.sendMessage MessageInput.exampleChatId "hello".toList,
            MessageInput.Effect.updateChatTitle MessageInput.exampleChatId (utf16 "hello".toList),
            MessageInput.Effect.sendMessageAction MessageInput.exampleChatId
              "hello".toList]) ∧
      (MessageInput.handleSubmit MessageInput.sampleProps MessageInput.actionEmpty
          MessageInput.helloState).1.error = [] ∧
      MessageInput.persistCalls
        (MessageInput.handleSubmit MessageInput.sampleProps MessageInput.actionEmpty
          MessageInput.helloState).2 = [] := by
  refine ⟨rfl, by decide, by decide, by decide⟩

/-! ## The content that is saved -/

theorem MessageInput.responseContent_ne_nil (reply : MessageInput.BotReply) :
    MessageInput.responseContent reply ≠ [] := by
  unfold MessageInput.responseContent MessageInput.orText
  split
  · simp
  · split
    · simp
    · decide

/-- A `saveBotResponse` call among the calls of `handleSubmit`: the action
returned a reply, and the content is the one line 146 takes from it. -/
theorem MessageInput.persist_call_made (p : MessageInput.Props) (o : MessageInput.Outcomes)
    (st : MessageInput.State) (a content : Text)
    (h : MessageInput.Effect.saveBotResponse a content
      ∈ (MessageInput.handleSubmit p o st).2) :
    ∃ result reply, o.sendMessageAction = .ok result ∧ result.sendMessage = some reply ∧
      reply.success = true ∧ content = MessageInput.responseContent reply := by
  by_cases hmsg : trim st.message = []
  · simp [MessageInput.handleSubmit, hmsg] at h
  cases hload : st.isLoading with
  | true => simp [MessageInput.handleSubmit, hload] at h
  | false =>
    cases hid : MessageInput.validateChatId p.chatId with
    | error err =>
      simp [MessageInput.handleSubmit, MessageInput.attempt, hmsg, hload, hid] at h
    | ok chatIdUuid =>
      cases hsend : o.sendMessage with
      | error err =>
        simp [MessageInput.handleSubmit, MessageInput.attempt, hmsg, hload, hid, hsend] at h
      | ok u =>
        cases u
        rw [MessageInput.handleSubmit_after_send p o st chatIdUuid hmsg hload hid hsend] at h
        simp only [List.mem_cons, List.mem_append] at h
        rcases h with h | h | h | h
        · cases h
        · cases h
        · have := MessageInput.mem_updateTitle _ _ _ _ _ h
          cases this
        · cases hact : o.sendMessageAction with
          | error err => simp [MessageInput.requestReply, hact] at h
          | ok result =>
            cases hr : result.sendMessage with
            | none =>
              cases herrs : result.errors <;>
                simp [MessageInput.requestReply, hact, hr, herrs] at h
            | some reply =>
              cases hok : reply.success with
              | false => simp [MessageInput.requestReply, hact, hr, hok] at h
              | true =>
                refine ⟨result, reply, rfl, hr, hok, ?_⟩
                rw [MessageInput.requestReply_success p o chatIdUuid (trim st.message) _
                  result reply hact hr hok] at h
                rcases List.mem_cons.mp h with h | h
                · cases h
                · have hp : MessageInput.Effect.saveBotResponse a content
                      ∈ MessageInput.persistCalls
                        (MessageInput.saveReply p o chatIdUuid
                          (MessageInput.responseContent reply)
                          { message := [], isLoading := true, error := [],
                            botResponse := (MessageInput.responseContent reply) }).2 := by
                    unfold MessageInput.persistCalls
                    rw [List.mem_filter]
                    exact ⟨h, rfl⟩
                  have := MessageInput.saveReply_persist _ _ _ _ _ _ hp
                  injection this with _ h2

/-- C30: the content handed to a `saveBotResponse` call is never empty: it is
the `response` field of the reply when that is not empty, else its `message`
field when that is not empty, else the text `Bot responded successfully`. -/
theorem MessageInput.handleSubmit_persisted_content (p : MessageInput.Props)
    (o : MessageInput.Outcomes) (st : MessageInput.State) (chatIdUuid content : Text)
    (h : MessageInput.Effect.saveBotResponse chatIdUuid content
      ∈ (MessageInput.handleSubmit p o st).2) :
    content ≠ [] ∧
      ∃ result reply, o.sendMessageAction = .ok result ∧ result.sendMessage = some reply ∧
        (∀ r, reply.response = some r → r ≠ [] → content = r) ∧
        ((reply.response = none ∨ reply.response = some []) →
          ∀ m, reply.message = some m → m ≠ [] → content = m) ∧
        ((reply.response = none ∨ reply.response = some []) →
          (reply.message = none ∨ reply.message = some []) →
          content = "Bot responded successfully".toList) := by
  obtain ⟨result, reply, hact, hr, _, hc⟩ :=
    MessageInput.persist_call_made p o st chatIdUuid content h
  subst hc
  refine ⟨MessageInput.responseContent_ne_nil reply, result, reply, hact, hr, ?_, ?_, ?_⟩
  · intro r hresp hne
    cases r with
    | nil => exact absurd rfl hne
    | cons c cs => simp [MessageInput.responseContent, MessageInput.orText, hresp]
  · intro hresp m hm hne
    cases m with
    | nil => exact absurd rfl hne
    | cons c cs =>
      rcases hresp with hresp | hresp <;>
        simp [MessageInput.responseContent, MessageInput.orText, hresp, hm]
  · intro hresp hm
    rcases hresp with hresp | hresp <;> rcases hm with hm | hm <;>
      simp [MessageInput.responseContent, MessageInput.orText, hresp, hm]

theorem MessageInput.handleSubmit_persisted_content_witness :
    MessageInput.Effect.saveBotResponse MessageInput.exampleChatId "Hi".toList
        ∈ (MessageInput.handleSubmit MessageInput.sampleProps MessageInput.allSucceed
            MessageInput.helloState).2 ∧
      "Hi".toList ≠ [] :=
  ⟨by decide,
    (MessageInput.handleSubmit_persisted_content MessageInput.sampleProps
      MessageInput.allSucceed MessageInput.helloState MessageInput.exampleChatId "Hi".toList
      (by decide)).1⟩

/-! ## Degenerate input of the normaliser -/

/-- C22: `normalizeBotMarkdown` is a total function that returns the empty
string and every value that is not a string (`null`, `undefined`, a boolean, a
number, an object) as it was given. -/
theorem ChatWindow.normalizeBotMarkdown_passes_through :
    ChatWindow.normalizeBotMarkdown (.string []) = .string [] ∧
      ChatWindow.normalizeBotMarkdown .null = .null ∧
      ChatWindow.normalizeBotMarkdown .undefined = .undefined ∧
      (∀ n, ChatWindow.normalizeBotMarkdown (.number n) = .number n) ∧
      (∀ b, ChatWindow.normalizeBotMarkdown (.boolean b) = .boolean b) ∧
      ChatWindow.normalizeBotMarkdown .object = .object ∧
      ∀ value, (∀ s, value ≠ .string s) → ChatWindow.normalizeBotMarkdown value = value := by
  refine ⟨rfl, rfl, rfl, fun _ => rfl, fun _ => rfl, rfl, ?_⟩
  intro value h
  cases value with
  | string s => exact absurd rfl (h s)
  | _ => rfl

/-! ## One source, as delivered -/

/-- C25: the message view is one source as delivered, never a merge: the list
of the subscription, with its content and order, whenever the subscription has
delivered a list, be it empty; otherwise the list of the query; otherwise the
empty list. -/
theorem ChatWindow.messages_one_source :
    (∀ (live : List ChatWindow.Message) (queryData : Option ChatWindow.MessagesData),
        ChatWindow.messages (some ⟨some live⟩) queryData = live) ∧
      (∀ queryData, ChatWindow.messages (some ⟨some []⟩) queryData = []) ∧
      (∀ subscriptionData (snapshot : List ChatWindow.Message),
        subscriptionData.bind (·.messages) = none →
        ChatWindow.messages subscriptionData (some ⟨some snapshot⟩) = snapshot) ∧
      (∀ subscriptionData queryData,
        subscriptionData.bind (·.messages) = none → queryData.bind (·.messages) = none →
        ChatWindow.messages subscriptionData queryData = []) ∧
      ∀ subscriptionData queryData,
        subscriptionData.bind (·.messages) = some (ChatWindow.messages subscriptionData queryData) ∨
        (subscriptionData.bind (·.messages) = none ∧
          queryData.bind (·.messages)
            = some (ChatWindow.messages subscriptionData queryData)) ∨
        (subscriptionData.bind (·.messages) = none ∧ queryData.bind (·.messages) = none ∧
          ChatWindow.messages subscriptionData queryData = []) := by
  refine ⟨fun _ _ => rfl, fun _ => rfl, ?_, ?_, ?_⟩
  · intro sd snapshot h
    unfold ChatWindow.messages
    rw [h]
    rfl
  · intro sd qd h1 h2
    unfold ChatWindow.messages
    rw [h1, h2]
  · intro sd qd
    unfold ChatWindow.messages
    cases h1 : sd.bind (·.messages) with
    | some live => exact Or.inl rfl
    | none =>
      cases h2 : qd.bind (·.messages) with
      | some snapshot => exact Or.inr (Or.inl ⟨rfl, rfl⟩)
      | none => exact Or.inr (Or.inr ⟨rfl, rfl, rfl⟩)

/-! ## The debug log -/

theorem DebugPanel.run_append (panel : DebugPanel.Panel) (e1 e2 : List DebugPanel.Event) :
    panel.run (e1 ++ e2) = (panel.run e1).run e2 := by
  simp [DebugPanel.Panel.run, List.foldl_append]

/-- A message sent and refetched adds two entries to the log of a panel whose
last action is not the first of the two. -/
theorem DebugPanel.run_sentAndRefetched (panel : DebugPanel.Panel)
    (h : panel.lastAction ≠ "Message sent, refetching messages".toList) :
    (panel.run DebugPanel.sentAndRefetched).lastAction
        = "Messages refetched successfully".toList ∧
      (panel.run DebugPanel.sentAndRefetched).debugLog.length = panel.debugLog.length + 2 := by
  have h1 : ¬ "Message sent, refetching messages".toList = panel.lastAction :=
    fun e => h e.symm
  have h2 : ¬ "Messages refetched successfully".toList
      = "Message sent, refetching messages".toList := by decide
  simp only [DebugPanel.Panel.run, DebugPanel.sentAndRefetched, List.foldl_cons, List.foldl_nil,
    DebugPanel.Panel.step, DebugPanel.Panel.render, h1, h2, if_false]
  simp [DebugPanel.logAction]

theorem DebugPanel.run_sentAndRefetched_repeated (n : Nat) :
    ∀ panel : DebugPanel.Panel,
      panel.lastAction ≠ "Message sent, refetching messages".toList →
      (panel.run (List.replicate n DebugPanel.sentAndRefetched).flatten).debugLog.length
        = panel.debugLog.length + 2 * n := by
  induction n with
  | zero => intro panel _; rfl
  | succ n ih =>
    intro panel h
    obtain ⟨h1, h2⟩ := DebugPanel.run_sentAndRefetched panel h
    rw [List.replicate_succ, List.flatten_cons, DebugPanel.run_append,
      ih _ (by rw [h1]; decide), h2]
    omega

/-- C23 fails as stated: no capacity bounds the log.  For every `N`, a panel
that sees `N + 1` messages sent and refetched, each render with a `lastAction`
other than the one before, holds `2 * (N + 1)` entries. -/
theorem DebugPanel.debugLog_unbounded :
    ¬ ∃ N : Nat, ∀ events : List DebugPanel.Event,
      ((DebugPanel.mount "t0".toList []).run events).debugLog.length ≤ N := by
  rintro ⟨N, h⟩
  have h1 := h (List.replicate (N + 1) DebugPanel.sentAndRefetched).flatten
  rw [DebugPanel.run_sentAndRefetched_repeated (N + 1) _ (by decide)] at h1
  omega

theorem DebugPanel.prefix_step (panel : DebugPanel.Panel) (e : DebugPanel.Event)
    (h : e ≠ .clearLog) : panel.debugLog <+: (panel.step e).debugLog := by
  cases e with
  | clearLog => exact absurd rfl h
  | render now lastAction =>
    simp only [DebugPanel.Panel.step, DebugPanel.Panel.render]
    split
    · exact List.prefix_refl _
    · simp only [DebugPanel.logAction]
      split
      · exact List.prefix_append _ _
      · exact List.prefix_refl _

theorem DebugPanel.prefix_run (events : List DebugPanel.Event) :
    ∀ panel : DebugPanel.Panel, (∀ e ∈ events, e ≠ .clearLog) →
      panel.debugLog <+: (panel.run events).debugLog := by
  induction events with
  | nil => intro panel _; exact List.prefix_refl _
  | cons e rest ih =>
    intro panel h
    exact (DebugPanel.prefix_step panel e (h e (List.mem_cons_self _ _))).trans
      (ih (panel.step e) (fun d hd => h d (List.mem_cons_of_mem _ hd)))

/-- From any state of the panel the log can be brought beyond any length
without a click on `Clear Log`. -/
theorem DebugPanel.run_grows (panel : DebugPanel.Panel) (N : Nat) :
    ∃ events : List DebugPanel.Event, (∀ e ∈ events, e ≠ .clearLog) ∧
      N < (panel.run events).debugLog.length := by
  refine ⟨.render "t0".toList "Messages refetched successfully".toList ::
    (List.replicate (N + 1) DebugPanel.sentAndRefetched).flatten, ?_, ?_⟩
  · intro e he
    rcases List.mem_cons.mp he with h | h
    · rw [h]
      exact fun h2 => by cases h2
    · obtain ⟨l, hl, hel⟩ := List.mem_flatten.mp h
      rw [List.eq_of_mem_replicate hl] at hel
      simp only [DebugPanel.sentAndRefetched, List.mem_cons, List.mem_singleton,
        List.not_mem_nil, or_false] at hel
      rcases hel with h2 | h2 <;> rw [h2] <;> exact fun h3 => by cases h3
  · have hlast : (panel.step (.render "t0".toList
        "Messages refetched successfully".toList)).lastAction
        = "Messages refetched successfully".toList := by
      simp only [DebugPanel.Panel.step, DebugPanel.Panel.render]
      split
      · rename_i h
        exact h.symm
      · rfl
    have hrun : panel.run (.render "t0".toList "Messages refetched successfully".toList ::
        (List.replicate (N + 1) DebugPanel.sentAndRefetched).flatten)
        = (panel.step (.render "t0".toList "Messages refetched successfully".toList)).run
            (List.replicate (N + 1) DebugPanel.sentAndRefetched).flatten := rfl
    rw [hrun, DebugPanel.run_sentAndRefetched_repeated (N + 1) _ (by rw [hlast]; decide)]
    omega

/-- C23, amended: the log itself is unbounded.  While the panel is mounted, a
render whose `lastAction` is not empty and differs from the one of the previous
render appends one entry at the end; any other render leaves the log as it is;
no entry is ever evicted: as long as `Clear Log` is not clicked the log only
grows at its end, beyond any length, and `Clear Log` empties it.  A panel that
is mounted starts with an empty log and runs the effect once.  What is bounded is the part the
panel shows, the last 5 entries of the log in their order (the whole log when
it has fewer). -/
theorem DebugPanel.debugLog_append_only (panel : DebugPanel.Panel) (now lastAction : Text) :
    (lastAction ≠ panel.lastAction ∧ lastAction ≠ [] →
        (panel.step (.render now lastAction)).debugLog
          = panel.debugLog ++ [⟨now, lastAction⟩]) ∧
      (lastAction = panel.lastAction ∨ lastAction = [] →
        (panel.step (.render now lastAction)).debugLog = panel.debugLog) ∧
      (panel.step (.render now lastAction)).lastAction = lastAction ∧
      (∀ events : List DebugPanel.Event, (∀ e ∈ events, e ≠ .clearLog) →
        panel.debugLog <+: (panel.run events).debugLog) ∧
      (∀ N : Nat, ∃ events : List DebugPanel.Event, (∀ e ∈ events, e ≠ .clearLog) ∧
        N < (panel.run events).debugLog.length) ∧
      (panel.step .clearLog).debugLog = [] ∧
      (panel.step .clearLog).lastAction = panel.lastAction ∧
      (DebugPanel.mount now lastAction).debugLog
        = (if lastAction ≠ [] then [⟨now, lastAction⟩] else []) ∧
      (DebugPanel.mount now lastAction).lastAction = lastAction ∧
      (DebugPanel.recentActions panel.debugLog).length = min 5 panel.debugLog.length ∧
      DebugPanel.recentActions panel.debugLog <:+ panel.debugLog := by
  refine ⟨?_, ?_, ?_, fun events h => DebugPanel.prefix_run events panel h,
    DebugPanel.run_grows panel, rfl, rfl, ?_, rfl, ?_, ?_⟩
  · rintro ⟨h1, h2⟩
    simp [DebugPanel.Panel.step, DebugPanel.Panel.render, DebugPanel.logAction, h1, h2]
  · intro h
    rcases h with h | h
    · simp [DebugPanel.Panel.step, DebugPanel.Panel.render, h]
    · simp only [DebugPanel.Panel.step, DebugPanel.Panel.render]
      split
      · rfl
      · simp [DebugPanel.logAction, h]
  · simp only [DebugPanel.Panel.step, DebugPanel.Panel.render]
    split
    · rename_i h
      exact h.symm
    · rfl
  · simp only [DebugPanel.mount, DebugPanel.logAction]
    split <;> simp
  · unfold DebugPanel.recentActions
    rw [List.length_drop]
    omega
  · exact List.drop_suffix _ _

/-! ## The delayed refetch -/

/-- C24 fails as stated: the timer set for the example conversation is still
pending after the form was rendered for another conversation, and when it fires
it refetches and calls `onMessageSent`. -/
theorem MessageInput.delayed_refetch_survives_switch :
    MessageInput.ChatId.string MessageInput.otherChatId
        ≠ MessageInput.sampleForm.props.chatId ∧
      MessageInput.Effect.setTimeout 1000
        ∈ (MessageInput.sampleForm.submit MessageInput.primarySaveThrows).2 ∧
      (((MessageInput.sampleForm.submit MessageInput.primarySaveThrows).1.changeChat
          (.string MessageInput.otherChatId)).timers.length = 1) ∧
      (((MessageInput.sampleForm.submit MessageInput.primarySaveThrows).1.changeChat
          (.string MessageInput.otherChatId)).fireTimer (.ok ())).2
        = [MessageInput.Effect.refetchMessages, MessageInput.Effect.onMessageSent] := by
  refine ⟨by decide, by decide, by decide, by decide⟩

theorem MessageInput.refetch_mem_delayedRefetch (p : MessageInput.Props)
    (refetchMessages : Except MessageInput.JsError Unit) :
    MessageInput.Effect.refetchMessages ∈ MessageInput.delayedRefetch p refetchMessages := by
  unfold MessageInput.delayedRefetch
  cases refetchMessages <;> simp

/-- C24, amended: a delayed refetch is never cancelled.  Every `setTimeout` call
of `handleSubmit` leaves a pending timer, rendering the form for another
conversation leaves the pending timers as they are, and a timer that fires
afterwards runs its callback as before the switch: it calls `refetchMessages`
and, when that returned and the callback was supplied, `onMessageSent`. -/
theorem MessageInput.delayed_refetch_not_cancelled (f : MessageInput.Form)
    (chatId : MessageInput.ChatId) (refetchMessages : Except MessageInput.JsError Unit) :
    (f.changeChat chatId).timers = f.timers ∧
      (∀ o, MessageInput.Effect.setTimeout 1000 ∈ (f.submit o).2 →
        (f.submit o).1.timers ≠ []) ∧
      (∀ timer rest, f.timers = timer :: rest →
        ((f.changeChat chatId).fireTimer refetchMessages).2
            = (f.fireTimer refetchMessages).2 ∧
          ((f.changeChat chatId).fireTimer refetchMessages).2
            = MessageInput.delayedRefetch timer refetchMessages ∧
          MessageInput.Effect.refetchMessages
            ∈ ((f.changeChat chatId).fireTimer refetchMessages).2) := by
  refine ⟨rfl, ?_, ?_⟩
  · intro o h
    unfold MessageInput.Form.submit at h ⊢
    simp only at h ⊢
    intro hnil
    have hfil : ((MessageInput.handleSubmit f.props o f.state).2.filter
        MessageInput.Effect.isTimer) = [] := by
      have := (List.append_eq_nil.mp hnil).2
      simpa using this
    rw [List.filter_eq_nil_iff] at hfil
    exact absurd rfl (hfil _ h)
  · intro timer rest ht
    have e : ((f.changeChat chatId).fireTimer refetchMessages).2
        = MessageInput.delayedRefetch timer refetchMessages := by
      unfold MessageInput.Form.fireTimer MessageInput.Form.changeChat
      simp only [ht]
    have e2 : (f.fireTimer refetchMessages).2
        = MessageInput.delayedRefetch timer refetchMessages := by
      unfold MessageInput.Form.fireTimer
      simp only [ht]
    refine ⟨e.trans e2.symm, e, ?_⟩
    rw [e]
    exact MessageInput.refetch_mem_delayedRefetch timer refetchMessages

/-! ## What the normal form never contains -/

theorem ChatWindow.normalize_eq_steps (x : Text) (h : x ≠ []) :
    ChatWindow.normalize x = ChatWindow.normalizeSteps x := by
  unfold ChatWindow.normalize
  rw [if_neg h]

theorem ChatWindow.newlinesBelow3_no_run (l : Text)
    (h : ChatWindow.newlinesBelow3 0 l = true) (n : Nat) (hn : 3 ≤ n) :
    ¬ List.replicate n '\n' <:+: l := by
  rintro ⟨u, v, huv⟩
  rw [← huv, List.append_assoc] at h
  have h2 := ChatWindow.newlinesBelow3_suffix u _ 0 h
  obtain ⟨m, rfl⟩ : ∃ m, n = m + 3 := ⟨n - 3, by omega⟩
  have e : List.replicate (m + 3) '\n' ++ v
      = '\n' :: '\n' :: '\n' :: (List.replicate m '\n' ++ v) := by
    simp [List.replicate_succ]
  rw [e, ChatWindow.newlinesBelow3_newline, ChatWindow.newlinesBelow3_newline,
    ChatWindow.newlinesBelow3_newline] at h2
  simp at h2

/-- C28: for every text, the output of `normalizeBotMarkdown` holds no run of
three or more newline characters. -/
theorem ChatWindow.normalizeBotMarkdown_no_newline_run (x : Text) :
    ChatWindow.normalizeBotMarkdown (.string x) = .string (ChatWindow.normalize x) ∧
      ∀ n, 3 ≤ n → ¬ List.replicate n '\n' <:+: ChatWindow.normalize x := by
  refine ⟨ChatWindow.normalizeBotMarkdown_string x, ?_⟩
  intro n hn
  by_cases hx : x = []
  · subst hx
    exact ChatWindow.newlinesBelow3_no_run [] rfl n hn
  · rw [ChatWindow.normalize_eq_steps x hx]
    exact ChatWindow.newlinesBelow3_no_run _ (ChatWindow.normalizeSteps_facts x).2.1 n hn

theorem ChatWindow.pipesApart_whiteSpace_append (b : Bool) (w l : Text)
    (hw : ∀ c ∈ w, isWhiteSpace c = true) :
    ChatWindow.pipesApart b (w ++ l) = ChatWindow.pipesApart b l := by
  induction w with
  | nil => rfl
  | cons c cs ih =>
    have e : c :: cs ++ l = c :: (cs ++ l) := rfl
    rw [e, ChatWindow.pipesApart_whiteSpace _ c _ (hw c (List.mem_cons_self _ _)),
      ih (fun d hd => hw d (List.mem_cons_of_mem _ hd))]

theorem ChatWindow.pipesApart_no_pair (l : Text)
    (h : ChatWindow.pipesApart false l = true) :
    ¬ ∃ u w v, l = u ++ '|' :: (w ++ '|' :: v) ∧ ∀ c ∈ w, isWhiteSpace c = true := by
  rintro ⟨u, w, v, hl, hw⟩
  rw [hl] at h
  have h2 := ChatWindow.pipesApart_suffix u _ false h
  rw [ChatWindow.pipesApart_pipe, ChatWindow.pipesApart_whiteSpace_append _ w _ hw,
    ChatWindow.pipesApart_pipe] at h2
  simp at h2

/-- C29: for every text, the output of `normalizeBotMarkdown` holds no two pipe
characters that are adjacent or have only white space (newlines included)
between them; in particular it never holds a pipe, a newline and a pipe in a
row, the boundary of two table rows. -/
theorem ChatWindow.normalizeBotMarkdown_pipes_apart (x : Text) :
    ChatWindow.normalizeBotMarkdown (.string x) = .string (ChatWindow.normalize x) ∧
      (¬ ∃ u w v, ChatWindow.normalize x = u ++ '|' :: (w ++ '|' :: v) ∧
        ∀ c ∈ w, isWhiteSpace c = true) ∧
      ¬ ['|', '|'] <:+: ChatWindow.normalize x ∧
      ¬ ['|', '\n', '|'] <:+: ChatWindow.normalize x := by
  have hp : ChatWindow.pipesApart false (ChatWindow.normalize x) = true := by
    by_cases hx : x = []
    · subst hx
      rfl
    · rw [ChatWindow.normalize_eq_steps x hx]
      exact (ChatWindow.normalizeSteps_facts x).1
  have main := ChatWindow.pipesApart_no_pair _ hp
  refine ⟨ChatWindow.normalizeBotMarkdown_string x, main, ?_, ?_⟩
  · rintro ⟨u, v, huv⟩
    exact main ⟨u, [], v, by rw [← huv]; simp, fun c hc => by cases hc⟩
  · rintro ⟨u, v, huv⟩
    refine main ⟨u, ['\n'], v, by rw [← huv]; simp, fun c hc => ?_⟩
    have : c = '\n' := by simpa using hc
    rw [this]
    decide

/-! ## Line-break markers -/

theorem ChatWindow.matchBr_some (l out rest : Text)
    (h : ChatWindow.matchBr l = some (out, rest)) :
    out = "  \n".toList ∧ rest <:+ l ∧ rest.length < l.length := by
  unfold ChatWindow.matchBr at h
  split at h
  · rename_i c b r tail
    split at h
    · split at h
      · rename_i d t heq
        have hs1 : d :: t <:+ c :: b :: r :: tail := by
          rw [← heq]
          exact (List.dropWhile_suffix _).trans
            ((List.suffix_cons _ _).trans ((List.suffix_cons _ _).trans (List.suffix_cons _ _)))
        split at h
        · split at h
          · rename_i e u
            split at h
            · injection h with h
              injection h with h1 h2
              have hs2 : rest <:+ c :: b :: r :: tail := by
                rw [← h2]
                exact (List.dropWhile_suffix _).trans
                  ((List.suffix_cons _ _).trans ((List.suffix_cons _ _).trans hs1))
              have hl1 := (List.dropWhile_suffix isWhiteSpace (l := u)).length_le
              have hl2 := hs1.length_le
              rw [h2] at hl1
              simp only [List.length_cons] at hl2 ⊢
              exact ⟨h1.symm, hs2, by omega⟩
            · cases h
          · cases h
        · split at h
          · injection h with h
            injection h with h1 h2
            have hs2 : rest <:+ c :: b :: r :: tail := by
              rw [← h2]
              exact (List.dropWhile_suffix _).trans ((List.suffix_cons _ _).trans hs1)
            have hl1 := (List.dropWhile_suffix isWhiteSpace (l := t)).length_le
            have hl2 := hs1.length_le
            rw [h2] at hl1
            simp only [List.length_cons] at hl2 ⊢
            exact ⟨h1.symm, hs2, by omega⟩
          · cases h
      · cases h
    · cases h
  · cases h

theorem ChatWindow.matchBr_shrinks : Shrinks ChatWindow.matchBr :=
  fun l out rest h => (ChatWindow.matchBr_some l out rest h).2.2

theorem ChatWindow.everyAngleStartsBreak_cons (c : Char) (cs : Text) :
    ChatWindow.everyAngleStartsBreak (c :: cs)
      = ((c != '<' || (ChatWindow.matchBr (c :: cs)).isSome)
          && ChatWindow.everyAngleStartsBreak cs) := by
  simp [ChatWindow.everyAngleStartsBreak, List.tails]

theorem ChatWindow.everyAngleStartsBreak_suffix (t l : Text) (hs : t <:+ l)
    (h : ChatWindow.everyAngleStartsBreak l = true) :
    ChatWindow.everyAngleStartsBreak t = true := by
  unfold ChatWindow.everyAngleStartsBreak at h ⊢
  rw [List.all_eq_true] at h ⊢
  intro s hsm
  exact h s ((List.mem_tails _ _).mpr (((List.mem_tails _ _).mp hsm).trans hs))

/-- When every `<` starts a line-break marker, the first replacement leaves no
`<` in the text. -/
theorem ChatWindow.no_angle_replaceAll_br (l : Text) :
    ChatWindow.everyAngleStartsBreak l = true → '<' ∉ replaceAll ChatWindow.matchBr l := by
  refine replaceAll_induction ChatWindow.matchBr ChatWindow.matchBr_shrinks
    (fun l r => ChatWindow.everyAngleStartsBreak l = true → '<' ∉ r) ?_ ?_ ?_ l
  · intro _ h
    cases h
  · intro l out rest hm ih hl hmem
    obtain ⟨hout, hsuf, _⟩ := ChatWindow.matchBr_some l out rest hm
    rcases List.mem_append.mp hmem with h | h
    · rw [hout] at h
      exact absurd h (by decide)
    · exact ih (ChatWindow.everyAngleStartsBreak_suffix rest l hsuf hl) h
  · intro c cs hm ih hl hmem
    rw [ChatWindow.everyAngleStartsBreak_cons, hm] at hl
    simp only [Option.isSome_none, Bool.or_false, Bool.and_eq_true, bne_iff_ne, ne_eq] at hl
    rcases List.mem_cons.mp hmem with h | h
    · exact hl.1 h.symm
    · exact ih hl.2 h

/-- The replacements after the first one and `trim` bring no `<` into a text. -/
theorem ChatWindow.no_angle_later_steps (z : Text) (hz : '<' ∉ z) :
    '<' ∉ trim (replaceAll ChatWindow.matchNewlines
      (replaceAll ChatWindow.matchRuleHeading (replaceAll ChatWindow.matchBullet
        (replaceAll ChatWindow.matchPipePair (replaceAll ChatWindow.matchDoublePipe z))))) := by
  have hP : ∀ c ∈ z, ¬ c = '<' := fun c hc h => hz (h ▸ hc)
  have hs2 := replaceAll_forall_mem ChatWindow.matchDoublePipe
    ChatWindow.matchDoublePipe_shrinks (fun c => ¬ c = '<')
    (fun l out rest hm hl => by
      obtain ⟨hout, hrest⟩ := ChatWindow.matchDoublePipe_some l out rest hm
      refine ⟨fun c hc => ?_, fun c hc => hl c (hrest c hc)⟩
      rw [hout] at hc
      have hc2 : c = '\n' := by simpa using hc
      rw [hc2]
      decide) z hP
  have hs3 := replaceAll_forall_mem ChatWindow.matchPipePair
    ChatWindow.matchPipePair_shrinks (fun c => ¬ c = '<')
    (fun l out rest hm hl => by
      obtain ⟨hout, _⟩ := ChatWindow.matchPipePair_some l out rest hm
      refine ⟨fun c hc => ?_,
        fun c hc => hl c (ChatWindow.matchPipePair_rest l out rest hm c hc)⟩
      rw [hout] at hc
      have hc2 : c = '\n' := by simpa using hc
      rw [hc2]
      decide) _ hs2
  have hs4 := replaceAll_forall_mem ChatWindow.matchBullet
    ChatWindow.matchBullet_shrinks (fun c => ¬ c = '<')
    (fun l out rest hm hl => by
      obtain ⟨hout, c0, cs, hlc, _, hrest⟩ := ChatWindow.matchBullet_some l out rest hm
      refine ⟨fun c hc => ?_, fun c hc => ?_⟩
      · rw [hout] at hc
        have hc2 : c = '-' ∨ c = ' ' := by simpa using hc
        rcases hc2 with h | h <;> rw [h] <;> decide
      · apply hl
        rw [hlc]
        rcases hrest with hrest | ⟨s, _, hrest⟩
        · rw [← hrest]; exact List.mem_cons_of_mem _ hc
        · rw [hrest]; exact List.mem_cons_of_mem _ (List.mem_cons_of_mem _ hc)) _ hs3
  have hs5 := ChatWindow.replaceAll_ruleHeading_forall (fun c => ¬ c = '<')
    (by decide) (by decide) _ hs4
  have hs6 := ChatWindow.replaceAll_newlines_forall (fun c => ¬ c = '<') (by decide) _ hs5
  exact fun hmem => hs6 _ (mem_trim _ _ hmem) rfl

theorem ChatWindow.mem_angle_of_hasBreakMarker (l : Text) (h : ChatWindow.HasBreakMarker l) :
    '<' ∈ l := by
  obtain ⟨pre, b, r, w, slash, post, hl, _⟩ := h
  rw [hl]
  simp

/-- C27 fails as stated: a marker wrapped around another one, and a `<br` that
is closed only behind a double pipe, leave a line-break marker in the output. -/
theorem ChatWindow.normalizeBotMarkdown_leaves_break_marker :
    ChatWindow.normalizeBotMarkdown (.string "<br<br>>".toList) = .string "<br  \n>".toList ∧
      ChatWindow.HasBreakMarker "<br  \n>".toList ∧
      ChatWindow.normalizeBotMarkdown (.string "<br||>".toList) = .string "<br\n\n>".toList ∧
      ChatWindow.HasBreakMarker "<br\n\n>".toList := by
  refine ⟨by decide, ?_, by decide, ?_⟩
  · exact ⟨[], 'b', 'r', "  \n".toList, [], [], by decide, Or.inl rfl, Or.inl rfl,
      by decide, Or.inl rfl⟩
  · exact ⟨[], 'b', 'r', "\n\n".toList, [], [], by decide, Or.inl rfl, Or.inl rfl,
      by decide, Or.inl rfl⟩

/-- Where every `<` starts a line-break marker, the output of
`normalizeBotMarkdown` holds no `<` at all. -/
theorem ChatWindow.normalize_no_angle (x : Text)
    (h : ChatWindow.everyAngleStartsBreak x = true) : '<' ∉ ChatWindow.normalize x := by
  by_cases hx : x = []
  · subst hx
    intro hmem
    cases hmem
  · rw [ChatWindow.normalize_eq_steps x hx]
    unfold ChatWindow.normalizeSteps
    exact ChatWindow.no_angle_later_steps _ (ChatWindow.no_angle_replaceAll_br x h)

/-! ## The scan for a closed `<br` -/

theorem ChatWindow.Scan.space_space (s : ChatWindow.Scan) : s.space.space = s.space := by
  cases s <;> rfl

theorem ChatWindow.Scan.pipe_pipe (s : ChatWindow.Scan) : s.pipe.pipe = s.space := by
  cases s <;> simp [ChatWindow.Scan.pipe, ChatWindow.Scan.space]

theorem ChatWindow.Scan.space_pipe (s : ChatWindow.Scan) : s.space.pipe = s.pipe := by
  cases s <;> rfl

theorem ChatWindow.Scan.pipe_space (s : ChatWindow.Scan) : s.pipe.space = s.pipe := by
  cases s <;> rfl

theorem ChatWindow.noClose_whiteSpace (s : ChatWindow.Scan) (c : Char) (cs : Text)
    (h : isWhiteSpace c = true) :
    ChatWindow.noClose s (c :: cs) = ChatWindow.noClose s.space cs := by
  have hc : ¬ c = '<' := by
    intro e
    rw [e] at h
    exact absurd h (by decide)
  simp [ChatWindow.noClose, ChatWindow.Scan.next, hc, h]

theorem ChatWindow.noClose_pipe (s : ChatWindow.Scan) (cs : Text) :
    ChatWindow.noClose s ('|' :: cs) = ChatWindow.noClose s.pipe cs := by
  have h1 : ¬ '|' = '<' := by decide
  have h2 : isWhiteSpace '|' = false := by decide
  simp [ChatWindow.noClose, ChatWindow.Scan.next, h2]

/-- A character that is no `<`, no white space, no pipe, no `>`, no `/` and no
letter of `br` ends every scan. -/
theorem ChatWindow.noClose_other (s : ChatWindow.Scan) (c : Char) (cs : Text)
    (h1 : ¬ c = '<') (h2 : isWhiteSpace c = false) (h3 : ¬ c = '|') (h4 : ¬ c = '>')
    (h5 : ¬ c = '/') (h6 : ¬ (c = 'b' ∨ c = 'B')) (h7 : ¬ (c = 'r' ∨ c = 'R')) :
    ChatWindow.noClose s (c :: cs) = ChatWindow.noClose .idle cs := by
  cases s <;> simp [ChatWindow.noClose, ChatWindow.Scan.next, h1, h2, h3, h4, h5, h6, h7]

/-- White space at the head of a text moves the scan once. -/
theorem ChatWindow.noClose_space_dropWhile (s : ChatWindow.Scan) (l : Text) :
    ChatWindow.noClose s.space (l.dropWhile isWhiteSpace) = ChatWindow.noClose s.space l := by
  induction l with
  | nil => rfl
  | cons c cs ih =>
    by_cases hw : isWhiteSpace c = true
    · rw [List.dropWhile_cons_of_pos hw, ih, ChatWindow.noClose_whiteSpace _ c _ hw,
        ChatWindow.Scan.space_space]
    · rw [List.dropWhile_cons_of_neg hw]

/-- A text read from `s`: the white space at its head moves the scan to
`s.space`, unless there is none. -/
theorem ChatWindow.noClose_dropWhile (s : ChatWindow.Scan) (l : Text) :
    ChatWindow.noClose s l = ChatWindow.noClose s (l.dropWhile isWhiteSpace) ∨
      ChatWindow.noClose s l = ChatWindow.noClose s.space (l.dropWhile isWhiteSpace) := by
  cases l with
  | nil => left; rfl
  | cons c cs =>
    by_cases hw : isWhiteSpace c = true
    · right
      rw [List.dropWhile_cons_of_pos hw, ChatWindow.noClose_space_dropWhile,
        ChatWindow.noClose_whiteSpace _ c _ hw]
    · left
      rw [List.dropWhile_cons_of_neg hw]

/-- Two pipes behind white space, with white space between them or not, leave
the scan where white space leaves it. -/
theorem ChatWindow.noClose_pipe_pair (s : ChatWindow.Scan) (l t r : Text)
    (h1 : l.dropWhile isWhiteSpace = '|' :: t) (h2 : t.dropWhile isWhiteSpace = '|' :: r) :
    ChatWindow.noClose s l = ChatWindow.noClose s.space r := by
  have key : ∀ u : ChatWindow.Scan, ChatWindow.noClose u ('|' :: t)
      = ChatWindow.noClose u.pipe.pipe r := by
    intro u
    rw [ChatWindow.noClose_pipe]
    rcases ChatWindow.noClose_dropWhile u.pipe t with h | h
    · rw [h, h2, ChatWindow.noClose_pipe]
    · rw [h, h2, ChatWindow.noClose_pipe, ChatWindow.Scan.space_pipe]
  rcases ChatWindow.noClose_dropWhile s l with h | h
  · rw [h, h1, key, ChatWindow.Scan.pipe_pipe]
  · rw [h, h1, key, ChatWindow.Scan.pipe_pipe, ChatWindow.Scan.space_space]

theorem ChatWindow.matchDoublePipe_eq (l out rest : Text)
    (h : ChatWindow.matchDoublePipe l = some (out, rest)) :
    out = "\n\n".toList ∧
      ∃ tail, l.dropWhile isWhiteSpace = '|' :: '|' :: tail ∧
        rest = tail.dropWhile isWhiteSpace := by
  unfold ChatWindow.matchDoublePipe at h
  split at h
  · rename_i p q tail heq
    split at h
    · rename_i hpq
      injection h with h
      injection h with h1 h2
      refine ⟨h1.symm, tail, ?_, h2.symm⟩
      rw [heq, hpq.1, hpq.2]
    · cases h
  · cases h

theorem ChatWindow.matchPipePair_eq (l out rest : Text)
    (h : ChatWindow.matchPipePair l = some (out, rest)) :
    out = "\n\n".toList ∧
      ∃ t r, l.dropWhile isWhiteSpace = '|' :: t ∧ t.dropWhile isWhiteSpace = '|' :: r ∧
        rest = r.dropWhile isWhiteSpace := by
  unfold ChatWindow.matchPipePair at h
  split at h
  · rename_i p t heq
    split at h
    · rename_i hp
      split at h
      · rename_i q tail heq2
        split at h
        · rename_i hq
          injection h with h
          injection h with h1 h2
          refine ⟨h1.symm, t, tail, ?_, ?_, h2.symm⟩
          · rw [heq, hp]
          · rw [heq2, hq]
        · cases h
      · cases h
    · cases h
  · cases h

theorem ChatWindow.noClose_cons_congr (c : Char) (cs cs2 : Text)
    (h : ∀ s, ChatWindow.noClose s cs2 = ChatWindow.noClose s cs) (s : ChatWindow.Scan) :
    ChatWindow.noClose s (c :: cs2) = ChatWindow.noClose s (c :: cs) := by
  simp only [ChatWindow.noClose]
  cases s.next c with
  | none => rfl
  | some t => exact h t

/-- Two newlines put before a text move the scan as white space does. -/
theorem ChatWindow.noClose_two_newlines (s : ChatWindow.Scan) (l : Text) :
    ChatWindow.noClose s ('\n' :: '\n' :: l) = ChatWindow.noClose s.space l := by
  rw [ChatWindow.noClose_whiteSpace _ _ _ (by decide),
    ChatWindow.noClose_whiteSpace _ _ _ (by decide), ChatWindow.Scan.space_space]

/-- The second replacement closes no `<br` and opens none. -/
theorem ChatWindow.noClose_replaceAll_doublePipe (l : Text) :
    ∀ s, ChatWindow.noClose s (replaceAll ChatWindow.matchDoublePipe l)
      = ChatWindow.noClose s l := by
  refine replaceAll_induction ChatWindow.matchDoublePipe ChatWindow.matchDoublePipe_shrinks
    (fun l r => ∀ s, ChatWindow.noClose s r = ChatWindow.noClose s l) ?_ ?_ ?_ l
  · intro _
    rfl
  · intro l out rest hm ih s
    obtain ⟨hout, tail, hl, hrest⟩ := ChatWindow.matchDoublePipe_eq l out rest hm
    have hskip : ('|' :: tail).dropWhile isWhiteSpace = '|' :: tail :=
      List.dropWhile_cons_of_neg (by decide)
    rw [ChatWindow.noClose_pipe_pair s l ('|' :: tail) tail hl hskip, hout]
    show ChatWindow.noClose s
      ('\n' :: '\n' :: replaceAll ChatWindow.matchDoublePipe rest) = _
    rw [ChatWindow.noClose_two_newlines, ih, hrest, ChatWindow.noClose_space_dropWhile]
  · intro c cs _ ih s
    exact ChatWindow.noClose_cons_congr c cs _ ih s

/-- The third replacement closes no `<br` and opens none. -/
theorem ChatWindow.noClose_replaceAll_pipePair (l : Text) :
    ∀ s, ChatWindow.noClose s (replaceAll ChatWindow.matchPipePair l)
      = ChatWindow.noClose s l := by
  refine replaceAll_induction ChatWindow.matchPipePair ChatWindow.matchPipePair_shrinks
    (fun l r => ∀ s, ChatWindow.noClose s r = ChatWindow.noClose s l) ?_ ?_ ?_ l
  · intro _
    rfl
  · intro l out rest hm ih s
    obtain ⟨hout, t, r, hl, ht, hrest⟩ := ChatWindow.matchPipePair_eq l out rest hm
    rw [ChatWindow.noClose_pipe_pair s l t r hl ht, hout]
    show ChatWindow.noClose s
      ('\n' :: '\n' :: replaceAll ChatWindow.matchPipePair rest) = _
    rw [ChatWindow.noClose_two_newlines, ih, hrest, ChatWindow.noClose_space_dropWhile]
  · intro c cs _ ih s
    exact ChatWindow.noClose_cons_congr c cs _ ih s

/-- The fourth replacement closes no `<br` and opens none. -/
theorem ChatWindow.noClose_replaceAll_bullet (l : Text) :
    ∀ s, ChatWindow.noClose s (replaceAll ChatWindow.matchBullet l)
      = ChatWindow.noClose s l := by
  refine replaceAll_induction ChatWindow.matchBullet ChatWindow.matchBullet_shrinks
    (fun l r => ∀ s, ChatWindow.noClose s r = ChatWindow.noClose s l) ?_ ?_ ?_ l
  · intro _
    rfl
  · intro l out rest hm ih s
    obtain ⟨hout, c, cs, hl, hc, hrest⟩ := ChatWindow.matchBullet_some l out rest hm
    subst hout hl
    have hbullet : ChatWindow.noClose s (c :: cs) = ChatWindow.noClose .idle cs := by
      rcases hc with hc | hc <;> subst hc <;>
        exact ChatWindow.noClose_other _ _ _ (by decide) (by decide) (by decide) (by decide)
          (by decide) (by decide) (by decide)
    have hr : ChatWindow.noClose .idle cs = ChatWindow.noClose .idle rest := by
      rcases hrest with hrest | ⟨w, hw, hrest⟩
      · rw [hrest]
      · rw [hrest, ChatWindow.noClose_whiteSpace _ w _ hw]
        rfl
    show ChatWindow.noClose s ('-' :: ' ' :: replaceAll ChatWindow.matchBullet rest) = _
    rw [ChatWindow.noClose_other _ '-' _ (by decide) (by decide) (by decide) (by decide)
        (by decide) (by decide) (by decide),
      ChatWindow.noClose_whiteSpace _ ' ' _ (by decide), hbullet, hr]
    exact ih _
  · intro c cs _ ih s
    exact ChatWindow.noClose_cons_congr c cs _ ih s

/-- A run of characters that are no `<`, no white space, no pipe, no `>`, no `/`
and no letter of `br` ends every scan. -/
theorem ChatWindow.noClose_idle_dropWhile (p : Char → Bool)
    (hp : ∀ c, p c = true →
      ¬ c = '<' ∧ isWhiteSpace c = false ∧ ¬ c = '|' ∧ ¬ c = '>' ∧
        ¬ c = '/' ∧ ¬ (c = 'b' ∨ c = 'B') ∧ ¬ (c = 'r' ∨ c = 'R')) (l : Text) :
    ChatWindow.noClose .idle (l.dropWhile p) = ChatWindow.noClose .idle l := by
  induction l with
  | nil => rfl
  | cons c cs ih =>
    by_cases hc : p c = true
    · obtain ⟨h1, h2, h3, h4, h5, h6, h7⟩ := hp c hc
      rw [List.dropWhile_cons_of_pos hc, ih, ChatWindow.noClose_other _ c _ h1 h2 h3 h4 h5 h6 h7]
    · rw [List.dropWhile_cons_of_neg hc]

theorem ChatWindow.noClose_run (p : Char → Bool)
    (hp : ∀ c, p c = true →
      ¬ c = '<' ∧ isWhiteSpace c = false ∧ ¬ c = '|' ∧ ¬ c = '>' ∧
        ¬ c = '/' ∧ ¬ (c = 'b' ∨ c = 'B') ∧ ¬ (c = 'r' ∨ c = 'R')) (s : ChatWindow.Scan)
    (l : Text) (h : 1 ≤ (l.takeWhile p).length) :
    ChatWindow.noClose s l = ChatWindow.noClose .idle (l.dropWhile p) := by
  cases l with
  | nil => simp at h
  | cons c cs =>
    by_cases hc : p c = true
    · obtain ⟨h1, h2, h3, h4, h5, h6, h7⟩ := hp c hc
      rw [List.dropWhile_cons_of_pos hc, ChatWindow.noClose_idle_dropWhile p hp,
        ChatWindow.noClose_other _ c _ h1 h2 h3 h4 h5 h6 h7]
    · rw [List.takeWhile_cons_of_neg hc] at h
      simp at h

theorem ChatWindow.noClose_run_append (p : Char → Bool)
    (hp : ∀ c, p c = true →
      ¬ c = '<' ∧ isWhiteSpace c = false ∧ ¬ c = '|' ∧ ¬ c = '>' ∧
        ¬ c = '/' ∧ ¬ (c = 'b' ∨ c = 'B') ∧ ¬ (c = 'r' ∨ c = 'R')) (s : ChatWindow.Scan)
    (l rest : Text) (h : 1 ≤ (l.takeWhile p).length) :
    ChatWindow.noClose s (l.takeWhile p ++ rest) = ChatWindow.noClose .idle rest := by
  have key : ∀ (u : Text), (∀ c ∈ u, p c = true) →
      ChatWindow.noClose .idle (u ++ rest) = ChatWindow.noClose .idle rest := by
    intro u
    induction u with
    | nil => intro _; rfl
    | cons c cs ih =>
      intro hu
      obtain ⟨h1, h2, h3, h4, h5, h6, h7⟩ := hp c (hu c (List.mem_cons_self _ _))
      rw [List.cons_append, ChatWindow.noClose_other _ c _ h1 h2 h3 h4 h5 h6 h7]
      exact ih (fun d hd => hu d (List.mem_cons_of_mem _ hd))
  cases hl : l.takeWhile p with
  | nil => rw [hl] at h; simp at h
  | cons c cs =>
    have hall : ∀ d ∈ c :: cs, p d = true := by
      intro d hd
      rw [← hl] at hd
      exact List.mem_takeWhile_imp hd
    obtain ⟨h1, h2, h3, h4, h5, h6, h7⟩ := hp c (hall c (List.mem_cons_self _ _))
    rw [List.cons_append, ChatWindow.noClose_other _ c _ h1 h2 h3 h4 h5 h6 h7]
    exact key cs (fun d hd => hall d (List.mem_cons_of_mem _ hd))

theorem isDash_other (c : Char) (h : decide (c = '-') = true) :
    ¬ c = '<' ∧ isWhiteSpace c = false ∧ ¬ c = '|' ∧ ¬ c = '>' ∧
      ¬ c = '/' ∧ ¬ (c = 'b' ∨ c = 'B') ∧ ¬ (c = 'r' ∨ c = 'R') := by
  have hc : c = '-' := by simpa using h
  subst hc
  decide

theorem isHash_other (c : Char) (h : decide (c = '#') = true) :
    ¬ c = '<' ∧ isWhiteSpace c = false ∧ ¬ c = '|' ∧ ¬ c = '>' ∧
      ¬ c = '/' ∧ ¬ (c = 'b' ∨ c = 'B') ∧ ¬ (c = 'r' ∨ c = 'R') := by
  have hc : c = '#' := by simpa using h
  subst hc
  decide

/-- The fifth replacement closes no `<br` and opens none. -/
theorem ChatWindow.noClose_replaceAll_ruleHeading (l : Text) :
    ∀ s, ChatWindow.noClose s (replaceAll ChatWindow.matchRuleHeading l)
      = ChatWindow.noClose s l := by
  refine replaceAll_induction ChatWindow.matchRuleHeading ChatWindow.matchRuleHeading_shrinks
    (fun l r => ∀ s, ChatWindow.noClose s r = ChatWindow.noClose s l) ?_ ?_ ?_ l
  · intro _
    rfl
  · intro l out rest hm ih s
    obtain ⟨tail, hl, hd, hh, hout, hrest⟩ := ChatWindow.matchRuleHeading_some l out rest hm
    subst hl
    have hidle : ChatWindow.Scan.idle.space = ChatWindow.Scan.idle := rfl
    have e1 : ChatWindow.noClose s ('\n' :: tail) = ChatWindow.noClose .idle rest := by
      rw [ChatWindow.noClose_whiteSpace _ _ _ (by decide),
        ← ChatWindow.noClose_space_dropWhile,
        ChatWindow.noClose_run (· = '-') isDash_other _ _ (by omega)]
      have h2 := ChatWindow.noClose_space_dropWhile .idle
        ((tail.dropWhile isWhiteSpace).dropWhile (· = '-'))
      rw [hidle] at h2
      rw [← h2, ChatWindow.noClose_run (· = '#') isHash_other _ _ hh, ← hrest]
    have e2 : out ++ replaceAll ChatWindow.matchRuleHeading rest
        = '\n' :: '\n' :: ((((tail.dropWhile isWhiteSpace).dropWhile (· = '-')).dropWhile
            isWhiteSpace).takeWhile (· = '#') ++ replaceAll ChatWindow.matchRuleHeading rest) := by
      rw [hout]
      rfl
    rw [e1, e2, ChatWindow.noClose_two_newlines,
      ChatWindow.noClose_run_append (· = '#') isHash_other _ _ _ hh]
    exact ih _
  · intro c cs _ ih s
    exact ChatWindow.noClose_cons_congr c cs _ ih s

theorem ChatWindow.noClose_space_dropWhile_newline (s : ChatWindow.Scan) (l : Text) :
    ChatWindow.noClose s.space (l.dropWhile (· = '\n')) = ChatWindow.noClose s.space l := by
  induction l with
  | nil => rfl
  | cons c cs ih =>
    by_cases hc : c = '\n'
    · subst hc
      rw [List.dropWhile_cons_of_pos (by simp), ih,
        ChatWindow.noClose_whiteSpace _ _ _ (by decide), ChatWindow.Scan.space_space]
    · rw [List.dropWhile_cons_of_neg (by simpa using hc)]

/-- The sixth replacement closes no `<br` and opens none. -/
theorem ChatWindow.noClose_replaceAll_newlines (l : Text) :
    ∀ s, ChatWindow.noClose s (replaceAll ChatWindow.matchNewlines l)
      = ChatWindow.noClose s l := by
  refine replaceAll_induction ChatWindow.matchNewlines ChatWindow.matchNewlines_shrinks
    (fun l r => ∀ s, ChatWindow.noClose s r = ChatWindow.noClose s l) ?_ ?_ ?_ l
  · intro _
    rfl
  · intro l out rest hm ih s
    obtain ⟨hout, hrest, hrun⟩ := ChatWindow.matchNewlines_some l out rest hm
    subst hout
    have e1 : ChatWindow.noClose s l = ChatWindow.noClose s.space rest := by
      cases l with
      | nil => simp at hrun
      | cons c cs =>
        by_cases hc : c = '\n'
        · subst hc
          rw [hrest, List.dropWhile_cons_of_pos (by simp),
            ChatWindow.noClose_space_dropWhile_newline,
            ChatWindow.noClose_whiteSpace _ _ _ (by decide)]
        · rw [List.takeWhile_cons_of_neg (by simpa using hc)] at hrun
          simp at hrun
    show ChatWindow.noClose s
      ('\n' :: '\n' :: replaceAll ChatWindow.matchNewlines rest) = _
    rw [ChatWindow.noClose_two_newlines, e1]
    exact ih _
  · intro c cs _ ih s
    exact ChatWindow.noClose_cons_congr c cs _ ih s

theorem ChatWindow.noClose_concat_whiteSpace (l : Text) (x : Char)
    (hx : isWhiteSpace x = true) :
    ∀ s, ChatWindow.noClose s (l ++ [x]) = ChatWindow.noClose s l := by
  induction l with
  | nil =>
    intro s
    rw [List.nil_append, ChatWindow.noClose_whiteSpace _ x _ hx]
    rfl
  | cons c cs ih =>
    intro s
    exact ChatWindow.noClose_cons_congr c cs _ ih s

theorem ChatWindow.noClose_rdropWhile (l : Text) :
    ∀ s, ChatWindow.noClose s (l.rdropWhile isWhiteSpace) = ChatWindow.noClose s l := by
  induction l using List.reverseRecOn with
  | nil => intro s; rfl
  | append_singleton l x ih =>
    intro s
    by_cases hx : isWhiteSpace x = true
    · rw [List.rdropWhile_concat_pos _ _ _ hx, ih, ChatWindow.noClose_concat_whiteSpace l x hx]
    · rw [List.rdropWhile_concat_neg _ _ _ hx]

/-- Trimming closes no `<br` and opens none. -/
theorem ChatWindow.noClose_trim (l : Text) :
    ChatWindow.noClose .idle (trim l) = ChatWindow.noClose .idle l := by
  rw [trim_eq_rdropWhile, ChatWindow.noClose_rdropWhile]
  exact ChatWindow.noClose_space_dropWhile .idle l

theorem ChatWindow.closes_run_dropWhile (even : Bool) (l : Text) :
    ChatWindow.closes (.run even) (l.dropWhile isWhiteSpace)
      = ChatWindow.closes (.run even) l := by
  induction l with
  | nil => rfl
  | cons c cs ih =>
    by_cases hw : isWhiteSpace c = true
    · have hc : ¬ c = '<' := by
        intro e
        rw [e] at hw
        exact absurd hw (by decide)
      rw [List.dropWhile_cons_of_pos hw, ih]
      simp [ChatWindow.closes, hc, hw]
    · rw [List.dropWhile_cons_of_neg hw]

theorem ChatWindow.closes_br_dropWhile (even : Bool) (l : Text) :
    ChatWindow.closes (.br even) (l.dropWhile isWhiteSpace)
      = ChatWindow.closes (.br even) l := by
  induction l with
  | nil => rfl
  | cons c cs ih =>
    by_cases hw : isWhiteSpace c = true
    · rw [List.dropWhile_cons_of_pos hw, ih]
      simp [ChatWindow.closes, hw]
    · rw [List.dropWhile_cons_of_neg hw]

theorem head_dropWhile_not (p : Char → Bool) (l : Text) (d : Char) (t : Text)
    (h : l.dropWhile p = d :: t) : ¬ p d = true := by
  induction l with
  | nil => cases h
  | cons c cs ih =>
    by_cases hc : p c = true
    · rw [List.dropWhile_cons_of_pos hc] at h
      exact ih h
    · rw [List.dropWhile_cons_of_neg hc] at h
      injection h with h1 _
      rw [← h1]
      exact hc

/-- A `<` in the run behind a `<br`: the run goes on behind a complete marker,
and ends at anything else. -/
theorem ChatWindow.closes_run_lt (even : Bool) (cs : Text) :
    ChatWindow.closes (.run even) ('<' :: cs)
      = match ChatWindow.matchBr ('<' :: cs) with
        | some (_, rest) => ChatWindow.closes (.run even) rest
        | none => false := by
  have h0 : ChatWindow.closes (.run even) ('<' :: cs) = ChatWindow.closes (.lt even) cs := by
    simp [ChatWindow.closes]
  rw [h0]
  cases cs with
  | nil => rfl
  | cons b cs =>
    cases cs with
    | nil =>
      simp only [ChatWindow.closes, ChatWindow.matchBr]
      split <;> rfl
    | cons r tail =>
      by_cases hb : b = 'b' ∨ b = 'B'
      · by_cases hr : r = 'r' ∨ r = 'R'
        · have h1 : ChatWindow.closes (.lt even) (b :: r :: tail)
              = ChatWindow.closes (.br even) (tail.dropWhile isWhiteSpace) := by
            rw [ChatWindow.closes_br_dropWhile]
            simp [ChatWindow.closes, hb, hr]
          rw [h1]
          simp only [ChatWindow.matchBr, hb, hr, and_self, if_true, true_and]
          cases hd : tail.dropWhile isWhiteSpace with
          | nil => rfl
          | cons d t =>
            have hdw : ¬ isWhiteSpace d = true := head_dropWhile_not _ _ _ _ hd
            by_cases hs : d = '/'
            · subst hs
              cases t with
              | nil => simp [ChatWindow.closes]
              | cons e u =>
                by_cases he : e = '>'
                · subst he
                  simp [ChatWindow.closes, ChatWindow.closes_run_dropWhile, isWhiteSpace]
                · simp [ChatWindow.closes, he, isWhiteSpace]
            · by_cases hg : d = '>'
              · subst hg
                simp [ChatWindow.closes, ChatWindow.closes_run_dropWhile, isWhiteSpace]
              · simp [ChatWindow.closes, hs, hg, hdw]
        · simp [ChatWindow.closes, ChatWindow.matchBr, hb, hr]
      · simp [ChatWindow.closes, ChatWindow.matchBr, hb]

theorem ChatWindow.leavesBreak_cons (c : Char) (cs : Text) :
    ChatWindow.leavesBreak (c :: cs)
      = (ChatWindow.opensBreak (c :: cs) || ChatWindow.leavesBreak cs) := by
  simp [ChatWindow.leavesBreak, List.tails]

theorem ChatWindow.opensBreak_of_ne (c : Char) (cs : Text) (h : ¬ c = '<') :
    ChatWindow.opensBreak (c :: cs) = false := by
  unfold ChatWindow.opensBreak
  split
  · rename_i c2 b r rest heq
    injection heq with h1 _
    subst h1
    simp [h]
  · rfl

/-- Behind characters other than `<` the search for an open `<br` starts
afresh. -/
theorem ChatWindow.leavesBreak_append (u v : Text) (h : '<' ∉ u) :
    ChatWindow.leavesBreak (u ++ v) = ChatWindow.leavesBreak v := by
  induction u with
  | nil => rfl
  | cons c cs ih =>
    have hc : ¬ c = '<' := fun e => h (e ▸ List.mem_cons_self _ _)
    rw [List.cons_append, ChatWindow.leavesBreak_cons, ChatWindow.opensBreak_of_ne c _ hc,
      Bool.false_or]
    exact ih (fun hm => h (List.mem_cons_of_mem _ hm))

theorem not_lt_of_whiteSpace (l : Text) (h : ∀ c ∈ l, isWhiteSpace c = true) : '<' ∉ l := by
  intro hm
  exact absurd (h _ hm) (by decide)

/-- A match of the line-break pattern: `<br`, then characters other than `<`,
then the rest. -/
theorem ChatWindow.matchBr_decomp (l out rest : Text)
    (h : ChatWindow.matchBr l = some (out, rest)) :
    ∃ b r mid, l = '<' :: b :: r :: (mid ++ rest) ∧ '<' ∉ mid ∧ ¬ b = '<' ∧
      ¬ r = '<' := by
  unfold ChatWindow.matchBr at h
  split at h
  · rename_i c b r tail
    split at h
    · rename_i hc
      have hb : ¬ b = '<' := by
        rcases hc.2.1 with e | e <;> rw [e] <;> decide
      have hr : ¬ r = '<' := by
        rcases hc.2.2 with e | e <;> rw [e] <;> decide
      have htail : tail = tail.takeWhile isWhiteSpace ++ tail.dropWhile isWhiteSpace :=
        (List.takeWhile_append_dropWhile _ _).symm
      have hws : '<' ∉ tail.takeWhile isWhiteSpace :=
        not_lt_of_whiteSpace _ (fun c hm => List.mem_takeWhile_imp hm)
      split at h
      · rename_i d t heq
        split at h
        · rename_i hd
          split at h
          · rename_i e u
            split at h
            · rename_i he
              injection h with h
              injection h with _ h2
              have hu : u = u.takeWhile isWhiteSpace ++ rest := by
                rw [← h2, List.takeWhile_append_dropWhile]
              have hws2 : '<' ∉ u.takeWhile isWhiteSpace :=
                not_lt_of_whiteSpace _ (fun c hm => List.mem_takeWhile_imp hm)
              refine ⟨b, r, tail.takeWhile isWhiteSpace ++ '/' :: '>' :: u.takeWhile isWhiteSpace,
                ?_, ?_, hb, hr⟩
              · rw [hc.1]
                conv_lhs => rw [htail, heq, hd, he, hu]
                simp
              · intro hm
                rcases List.mem_append.mp hm with hm | hm
                · exact hws hm
                · rcases List.mem_cons.mp hm with hm | hm
                  · exact absurd hm (by decide)
                  · rcases List.mem_cons.mp hm with hm | hm
                    · exact absurd hm (by decide)
                    · exact hws2 hm
            · cases h
          · cases h
        · split at h
          · rename_i hg
            injection h with h
            injection h with _ h2
            have ht : t = t.takeWhile isWhiteSpace ++ rest := by
              rw [← h2, List.takeWhile_append_dropWhile]
            have hws2 : '<' ∉ t.takeWhile isWhiteSpace :=
              not_lt_of_whiteSpace _ (fun c hm => List.mem_takeWhile_imp hm)
            refine ⟨b, r, tail.takeWhile isWhiteSpace ++ '>' :: t.takeWhile isWhiteSpace,
              ?_, ?_, hb, hr⟩
            · rw [hc.1]
              conv_lhs => rw [htail, heq, hg, ht]
              simp
            · intro hm
              rcases List.mem_append.mp hm with hm | hm
              · exact hws hm
              · rcases List.mem_cons.mp hm with hm | hm
                · exact absurd hm (by decide)
                · exact hws2 hm
          · cases h
      · cases h
    · cases h
  · cases h

/-- A line-break marker hides no open `<br`: the search goes on behind it. -/
theorem ChatWindow.leavesBreak_of_match (l out rest : Text)
    (h : ChatWindow.matchBr l = some (out, rest)) :
    ChatWindow.leavesBreak l = ChatWindow.leavesBreak rest := by
  obtain ⟨b, r, mid, hl, hmid, hb, hr⟩ := ChatWindow.matchBr_decomp l out rest h
  have h1 : ChatWindow.opensBreak l = false := by
    unfold ChatWindow.opensBreak
    split
    · rw [h]
      simp
    · rfl
  rw [hl] at h1 ⊢
  rw [ChatWindow.leavesBreak_cons, h1, Bool.false_or, ChatWindow.leavesBreak_cons,
    ChatWindow.opensBreak_of_ne b _ hb, Bool.false_or, ChatWindow.leavesBreak_cons,
    ChatWindow.opensBreak_of_ne r _ hr, Bool.false_or, ChatWindow.leavesBreak_append mid rest hmid]

theorem ChatWindow.Scan.closedBy_nil (s : ChatWindow.Scan) : s.closedBy [] = false := by
  cases s <;> rfl

/-- A match of the line-break pattern behind the scan: the `<br` read so far is
closed by the text exactly when it is closed by what follows the match. -/
theorem ChatWindow.Scan.closedBy_of_match (s : ChatWindow.Scan) (l out rest : Text)
    (h : ChatWindow.matchBr l = some (out, rest)) :
    s.closedBy l = s.space.closedBy rest := by
  obtain ⟨b, r, mid, hl, _, _, _⟩ := ChatWindow.matchBr_decomp l out rest h
  cases s with
  | idle => rfl
  | lt =>
    rw [hl]
    simp [ChatWindow.Scan.closedBy, ChatWindow.Scan.space]
  | b =>
    rw [hl]
    simp [ChatWindow.Scan.closedBy, ChatWindow.Scan.space]
  | slash =>
    rw [hl]
    simp [ChatWindow.Scan.closedBy, ChatWindow.Scan.space, ChatWindow.closes]
  | gap even =>
    have h2 := ChatWindow.closes_run_lt even (b :: r :: (mid ++ rest))
    rw [← hl, h] at h2
    exact h2

/-- After the first replacement the scan closes a `<br` exactly when the text
held an open `<br` that is closed behind a run of white space, markers and an
even number of pipes. -/
theorem ChatWindow.noClose_replaceAll_br (l : Text) :
    ∀ s, ChatWindow.noClose s (replaceAll ChatWindow.matchBr l)
      = (!s.closedBy l && !ChatWindow.leavesBreak l) := by
  refine replaceAll_induction ChatWindow.matchBr ChatWindow.matchBr_shrinks
    (fun l r => ∀ s, ChatWindow.noClose s r = (!s.closedBy l && !ChatWindow.leavesBreak l))
    ?_ ?_ ?_ l
  · intro s
    rw [ChatWindow.Scan.closedBy_nil]
    rfl
  · intro l out rest hm ih s
    obtain ⟨hout, _, _⟩ := ChatWindow.matchBr_some l out rest hm
    subst hout
    show ChatWindow.noClose s (' ' :: ' ' :: '\n' :: replaceAll ChatWindow.matchBr rest) = _
    rw [ChatWindow.noClose_whiteSpace _ _ _ (by decide),
      ChatWindow.noClose_whiteSpace _ _ _ (by decide),
      ChatWindow.noClose_whiteSpace _ _ _ (by decide), ChatWindow.Scan.space_space,
      ChatWindow.Scan.space_space, ih, ChatWindow.leavesBreak_of_match l _ rest hm,
      ChatWindow.Scan.closedBy_of_match s l _ rest hm]
  · intro c cs hm ih s
    rw [ChatWindow.leavesBreak_cons]
    simp only [ChatWindow.noClose]
    by_cases hlt : c = '<'
    · subst hlt
      have hnext : s.next '<' = some .lt := by simp [ChatWindow.Scan.next]
      rw [hnext]
      simp only
      rw [ih]
      have hclosed : s.closedBy ('<' :: cs) = false := by
        cases s with
        | idle => rfl
        | lt =>
          cases cs with
          | nil => rfl
          | cons r rest => simp [ChatWindow.Scan.closedBy]
        | b => simp [ChatWindow.Scan.closedBy]
        | slash => simp [ChatWindow.Scan.closedBy, ChatWindow.closes]
        | gap even =>
          have h2 := ChatWindow.closes_run_lt even cs
          rw [hm] at h2
          exact h2
      have hopen : ChatWindow.opensBreak ('<' :: cs) = ChatWindow.Scan.lt.closedBy cs := by
        cases cs with
        | nil => rfl
        | cons b cs =>
          cases cs with
          | nil => rfl
          | cons r rest =>
            simp only [ChatWindow.opensBreak, hm, ChatWindow.Scan.closedBy]
            simp
      rw [hclosed, hopen]
      simp
    · rw [ChatWindow.opensBreak_of_ne c cs hlt, Bool.false_or]
      by_cases hw : isWhiteSpace c = true
      · have hnext : s.next c = some s.space := by simp [ChatWindow.Scan.next, hlt, hw]
        rw [hnext]
        simp only
        rw [ih]
        have hc : s.closedBy (c :: cs) = s.space.closedBy cs := by
          have hb : ¬ (c = 'b' ∨ c = 'B') := by
            rintro (e | e) <;> rw [e] at hw <;> exact absurd hw (by decide)
          have hr : ¬ (c = 'r' ∨ c = 'R') := by
            rintro (e | e) <;> rw [e] at hw <;> exact absurd hw (by decide)
          have hg : ¬ c = '>' := by
            intro e
            rw [e] at hw
            exact absurd hw (by decide)
          cases s with
          | idle => rfl
          | lt =>
            cases cs with
            | nil => rfl
            | cons r rest => simp [ChatWindow.Scan.closedBy, ChatWindow.Scan.space, hb]
          | b => simp [ChatWindow.Scan.closedBy, ChatWindow.Scan.space, hr]
          | slash =>
            simp [ChatWindow.Scan.closedBy, ChatWindow.Scan.space, ChatWindow.closes, hg]
          | gap even =>
            simp [ChatWindow.Scan.closedBy, ChatWindow.Scan.space, ChatWindow.closes, hlt, hw]
        rw [hc]
      · by_cases hp : c = '|'
        · subst hp
          have hnext : s.next '|' = some s.pipe := by
            simp [ChatWindow.Scan.next, isWhiteSpace]
          rw [hnext]
          simp only
          rw [ih]
          have hc : s.closedBy ('|' :: cs) = s.pipe.closedBy cs := by
            cases s with
            | idle => rfl
            | lt =>
              cases cs with
              | nil => rfl
              | cons r rest => simp [ChatWindow.Scan.closedBy, ChatWindow.Scan.pipe]
            | b => simp [ChatWindow.Scan.closedBy, ChatWindow.Scan.pipe]
            | slash => simp [ChatWindow.Scan.closedBy, ChatWindow.Scan.pipe, ChatWindow.closes]
            | gap even =>
              simp [ChatWindow.Scan.closedBy, ChatWindow.Scan.pipe, ChatWindow.closes, isWhiteSpace]
          rw [hc]
        · have hwf : isWhiteSpace c = false := by simpa using hw
          cases s with
          | idle =>
            have hnext : ChatWindow.Scan.idle.next c = some .idle := by
              simp [ChatWindow.Scan.next, hlt, hwf, hp]
            rw [hnext]
            simp only
            rw [ih]
            rfl
          | lt =>
            by_cases hb : c = 'b' ∨ c = 'B'
            · have hnext : ChatWindow.Scan.lt.next c = some .b := by
                simp [ChatWindow.Scan.next, hlt, hwf, hp, hb]
              rw [hnext]
              simp only
              rw [ih]
              cases cs with
              | nil => rfl
              | cons r rest => simp [ChatWindow.Scan.closedBy, hb]
            · have hnext : ChatWindow.Scan.lt.next c = some .idle := by
                simp [ChatWindow.Scan.next, hlt, hwf, hp, hb]
              rw [hnext]
              simp only
              rw [ih]
              cases cs with
              | nil => rfl
              | cons r rest => simp [ChatWindow.Scan.closedBy, hb]
          | b =>
            by_cases hr : c = 'r' ∨ c = 'R'
            · have hnext : ChatWindow.Scan.b.next c = some (.gap true) := by
                simp [ChatWindow.Scan.next, hlt, hwf, hp, hr]
              rw [hnext]
              simp only
              rw [ih]
              simp [ChatWindow.Scan.closedBy, hr]
            · have hnext : ChatWindow.Scan.b.next c = some .idle := by
                simp [ChatWindow.Scan.next, hlt, hwf, hp, hr]
              rw [hnext]
              simp only
              rw [ih]
              simp [ChatWindow.Scan.closedBy, hr]
          | slash =>
            by_cases hg : c = '>'
            · subst hg
              have hnext : ChatWindow.Scan.slash.next '>' = none := by
                simp [ChatWindow.Scan.next, isWhiteSpace]
              rw [hnext]
              simp [ChatWindow.Scan.closedBy, ChatWindow.closes]
            · have hnext : ChatWindow.Scan.slash.next c = some .idle := by
                simp [ChatWindow.Scan.next, hlt, hwf, hp, hg]
              rw [hnext]
              simp only
              rw [ih]
              simp [ChatWindow.Scan.closedBy, ChatWindow.closes, hg]
          | gap even =>
            by_cases hg : c = '>'
            · subst hg
              cases even with
              | true =>
                have hnext : (ChatWindow.Scan.gap true).next '>' = none := by
                  simp [ChatWindow.Scan.next, isWhiteSpace]
                rw [hnext]
                simp [ChatWindow.Scan.closedBy, ChatWindow.closes, isWhiteSpace]
              | false =>
                have hnext : (ChatWindow.Scan.gap false).next '>' = some .idle := by
                  simp [ChatWindow.Scan.next, isWhiteSpace]
                rw [hnext]
                simp only
                rw [ih]
                simp [ChatWindow.Scan.closedBy, ChatWindow.closes, isWhiteSpace]
            · by_cases hs : c = '/'
              · subst hs
                cases even with
                | true =>
                  have hnext : (ChatWindow.Scan.gap true).next '/' = some .slash := by
                    simp [ChatWindow.Scan.next, isWhiteSpace]
                  rw [hnext]
                  simp only
                  rw [ih]
                  simp [ChatWindow.Scan.closedBy, ChatWindow.closes, isWhiteSpace]
                | false =>
                  have hnext : (ChatWindow.Scan.gap false).next '/' = some .idle := by
                    simp [ChatWindow.Scan.next, isWhiteSpace]
                  rw [hnext]
                  simp only
                  rw [ih]
                  simp [ChatWindow.Scan.closedBy, ChatWindow.closes, isWhiteSpace]
              · have hnext : (ChatWindow.Scan.gap even).next c = some .idle := by
                  simp [ChatWindow.Scan.next, hlt, hwf, hp, hg, hs]
                rw [hnext]
                simp only
                rw [ih]
                simp [ChatWindow.Scan.closedBy, ChatWindow.closes, hlt, hwf, hp, hg, hs]

theorem ChatWindow.noClose_append_false (pre l : Text)
    (h : ∀ s, ChatWindow.noClose s l = false) :
    ∀ s, ChatWindow.noClose s (pre ++ l) = false := by
  induction pre with
  | nil => exact h
  | cons c cs ih =>
    intro s
    simp only [List.cons_append, ChatWindow.noClose]
    cases s.next c with
    | none => rfl
    | some t => exact ih t

theorem ChatWindow.noClose_gap_whiteSpace (w l : Text) (even : Bool)
    (h : ∀ c ∈ w, isWhiteSpace c = true) :
    ChatWindow.noClose (.gap even) (w ++ l) = ChatWindow.noClose (.gap even) l := by
  induction w with
  | nil => rfl
  | cons c cs ih =>
    rw [List.cons_append, ChatWindow.noClose_whiteSpace _ c _ (h c (List.mem_cons_self _ _))]
    exact ih (fun d hd => h d (List.mem_cons_of_mem _ hd))

/-- The scan closes the `<br` of every line-break marker. -/
theorem ChatWindow.noClose_of_hasBreakMarker (y : Text) (h : ChatWindow.HasBreakMarker y) :
    ChatWindow.noClose .idle y = false := by
  obtain ⟨pre, b, r, w, slash, post, hy, hb, hr, hw, hs⟩ := h
  rw [hy]
  apply ChatWindow.noClose_append_false
  intro s
  have hbw : isWhiteSpace b = false := by
    rcases hb with e | e <;> rw [e] <;> decide
  have hrw : isWhiteSpace r = false := by
    rcases hr with e | e <;> rw [e] <;> decide
  have hbl : ¬ b = '<' := by
    rcases hb with e | e <;> rw [e] <;> decide
  have hrl : ¬ r = '<' := by
    rcases hr with e | e <;> rw [e] <;> decide
  have hbp : ¬ b = '|' := by
    rcases hb with e | e <;> rw [e] <;> decide
  have hrp : ¬ r = '|' := by
    rcases hr with e | e <;> rw [e] <;> decide
  have h1 : ChatWindow.noClose s ('<' :: b :: r :: (w ++ slash ++ '>' :: post))
      = ChatWindow.noClose (.gap true) (w ++ slash ++ '>' :: post) := by
    simp [ChatWindow.noClose, ChatWindow.Scan.next, hbw, hrw, hbl, hrl, hbp, hrp, hb, hr]
  rw [h1, List.append_assoc, ChatWindow.noClose_gap_whiteSpace w _ true hw]
  rcases hs with hs | hs <;> subst hs <;>
    simp [ChatWindow.noClose, ChatWindow.Scan.next, isWhiteSpace]

/-- Where the pipes are kept apart, a `<br` the scan closes is a line-break
marker: the run behind it holds no pipe. -/
theorem ChatWindow.hasBreakMarker_of_noClose (l : Text) :
    ∀ (s : ChatWindow.Scan) (pre : Text) (afterPipe : Bool), s.Read pre →
      (s = .gap false → afterPipe = true) →
      ChatWindow.pipesApart afterPipe l = true → ChatWindow.noClose s l = false →
      ChatWindow.HasBreakMarker (pre ++ l) := by
  induction l with
  | nil =>
    intro s pre afterPipe _ _ _ h
    simp [ChatWindow.noClose] at h
  | cons c cs ih =>
    intro s pre afterPipe hread hflag hpipes h
    have hsplit : pre ++ c :: cs = (pre ++ [c]) ++ cs := by simp
    rw [hsplit]
    by_cases hlt : c = '<'
    · subst hlt
      have hnext : s.next '<' = some .lt := by simp [ChatWindow.Scan.next]
      rw [ChatWindow.noClose, hnext] at h
      rw [ChatWindow.pipesApart_other _ _ _ (by decide) (by decide)] at hpipes
      exact ih .lt _ false ⟨pre, rfl⟩ (fun e => by cases e) hpipes h
    · by_cases hw : isWhiteSpace c = true
      · rw [ChatWindow.noClose_whiteSpace _ c _ hw] at h
        rw [ChatWindow.pipesApart_whiteSpace _ c _ hw] at hpipes
        refine ih s.space _ afterPipe ?_ ?_ hpipes h
        · cases s with
          | idle => trivial
          | lt => trivial
          | b => trivial
          | slash => trivial
          | gap even =>
            cases even with
            | false => trivial
            | true =>
              obtain ⟨p, c1, d1, w, h1, h2, h3, h4⟩ := hread
              refine ⟨p, c1, d1, w ++ [c], h1, h2, ?_, ?_⟩
              · intro e he
                rcases List.mem_append.mp he with he | he
                · exact h3 e he
                · rw [List.mem_singleton.mp he]
                  exact hw
              · rw [h4]
                simp
        · intro e
          cases s with
          | gap even =>
            cases even with
            | false => exact hflag rfl
            | true => cases e
          | idle => cases e
          | lt => cases e
          | b => cases e
          | slash => cases e
      · have hwf : isWhiteSpace c = false := by simpa using hw
        by_cases hp : c = '|'
        · subst hp
          rw [ChatWindow.noClose_pipe] at h
          rw [ChatWindow.pipesApart_pipe] at hpipes
          simp only [Bool.and_eq_true, Bool.not_eq_true'] at hpipes
          refine ih s.pipe _ true ?_ (fun _ => rfl) hpipes.2 h
          cases s with
          | idle => trivial
          | lt => trivial
          | b => trivial
          | slash => trivial
          | gap even =>
            cases even with
            | true => trivial
            | false =>
              have := hflag rfl
              rw [this] at hpipes
              exact absurd hpipes.1 (by decide)
        · rw [ChatWindow.pipesApart_other _ c _ hwf hp] at hpipes
          cases s with
          | idle =>
            have hnext : ChatWindow.Scan.idle.next c = some .idle := by
              simp [ChatWindow.Scan.next, hlt, hwf, hp]
            rw [ChatWindow.noClose, hnext] at h
            exact ih .idle _ false trivial (fun e => by cases e) hpipes h
          | lt =>
            obtain ⟨p, h1⟩ := hread
            by_cases hb : c = 'b' ∨ c = 'B'
            · have hnext : ChatWindow.Scan.lt.next c = some .b := by
                simp [ChatWindow.Scan.next, hlt, hwf, hp, hb]
              rw [ChatWindow.noClose, hnext] at h
              refine ih .b _ false ⟨p, c, hb, ?_⟩ (fun e => by cases e) hpipes h
              rw [h1]
              simp
            · have hnext : ChatWindow.Scan.lt.next c = some .idle := by
                simp [ChatWindow.Scan.next, hlt, hwf, hp, hb]
              rw [ChatWindow.noClose, hnext] at h
              exact ih .idle _ false trivial (fun e => by cases e) hpipes h
          | b =>
            obtain ⟨p, c1, h1, h2⟩ := hread
            by_cases hr : c = 'r' ∨ c = 'R'
            · have hnext : ChatWindow.Scan.b.next c = some (.gap true) := by
                simp [ChatWindow.Scan.next, hlt, hwf, hp, hr]
              rw [ChatWindow.noClose, hnext] at h
              refine ih (.gap true) _ false ⟨p, c1, c, [], h1, hr, ?_, ?_⟩
                (fun e => by cases e) hpipes h
              · intro e he
                cases he
              · rw [h2]
                simp
            · have hnext : ChatWindow.Scan.b.next c = some .idle := by
                simp [ChatWindow.Scan.next, hlt, hwf, hp, hr]
              rw [ChatWindow.noClose, hnext] at h
              exact ih .idle _ false trivial (fun e => by cases e) hpipes h
          | slash =>
            obtain ⟨p, c1, d1, w, h1, h2, h3, h4⟩ := hread
            by_cases hg : c = '>'
            · subst hg
              exact ⟨p, c1, d1, w, ['/'], cs, by rw [h4]; simp, h1, h2, h3, Or.inr rfl⟩
            · have hnext : ChatWindow.Scan.slash.next c = some .idle := by
                simp [ChatWindow.Scan.next, hlt, hwf, hp, hg]
              rw [ChatWindow.noClose, hnext] at h
              exact ih .idle _ false trivial (fun e => by cases e) hpipes h
          | gap even =>
            cases even with
            | true =>
              obtain ⟨p, c1, d1, w, h1, h2, h3, h4⟩ := hread
              by_cases hg : c = '>'
              · subst hg
                exact ⟨p, c1, d1, w, [], cs, by rw [h4]; simp, h1, h2, h3, Or.inl rfl⟩
              · by_cases hs : c = '/'
                · subst hs
                  have hnext : (ChatWindow.Scan.gap true).next '/' = some .slash := by
                    simp [ChatWindow.Scan.next, isWhiteSpace]
                  rw [ChatWindow.noClose, hnext] at h
                  refine ih .slash _ false ⟨p, c1, d1, w, h1, h2, h3, ?_⟩
                    (fun e => by cases e) hpipes h
                  rw [h4]
                  simp
                · have hnext : (ChatWindow.Scan.gap true).next c = some .idle := by
                    simp [ChatWindow.Scan.next, hlt, hwf, hp, hg, hs]
                  rw [ChatWindow.noClose, hnext] at h
                  exact ih .idle _ false trivial (fun e => by cases e) hpipes h
            | false =>
              have hnext : (ChatWindow.Scan.gap false).next c = some .idle := by
                by_cases hg : c = '>'
                · subst hg
                  simp [ChatWindow.Scan.next, isWhiteSpace]
                · by_cases hs : c = '/'
                  · subst hs
                    simp [ChatWindow.Scan.next, isWhiteSpace]
                  · simp [ChatWindow.Scan.next, hlt, hwf, hp, hg, hs]
              rw [ChatWindow.noClose, hnext] at h
              exact ih .idle _ false trivial (fun e => by cases e) hpipes h

/-- The scan of the normal form closes a `<br` exactly when the input leaves
one to be closed. -/
theorem ChatWindow.noClose_normalizeSteps (x : Text) :
    ChatWindow.noClose .idle (ChatWindow.normalizeSteps x) = !ChatWindow.leavesBreak x := by
  unfold ChatWindow.normalizeSteps
  rw [ChatWindow.noClose_trim, ChatWindow.noClose_replaceAll_newlines,
    ChatWindow.noClose_replaceAll_ruleHeading, ChatWindow.noClose_replaceAll_bullet,
    ChatWindow.noClose_replaceAll_pipePair, ChatWindow.noClose_replaceAll_doublePipe,
    ChatWindow.noClose_replaceAll_br]
  rfl

/-- The normal form holds a line-break marker exactly when the input leaves a
`<br` to be closed. -/
theorem ChatWindow.hasBreakMarker_normalize_iff (x : Text) :
    ChatWindow.HasBreakMarker (ChatWindow.normalize x) ↔ ChatWindow.leavesBreak x = true := by
  by_cases hx : x = []
  · subst hx
    constructor
    · intro h
      have := ChatWindow.noClose_of_hasBreakMarker _ h
      exact absurd this (by decide)
    · intro h
      exact absurd h (by decide)
  · rw [ChatWindow.normalize_eq_steps x hx]
    have hscan := ChatWindow.noClose_normalizeSteps x
    constructor
    · intro h
      rw [ChatWindow.noClose_of_hasBreakMarker _ h] at hscan
      cases hl : ChatWindow.leavesBreak x with
      | true => rfl
      | false => rw [hl] at hscan; cases hscan
    · intro h
      rw [h] at hscan
      have hread : ChatWindow.Scan.idle.Read [] := trivial
      have hm := ChatWindow.hasBreakMarker_of_noClose (ChatWindow.normalizeSteps x) .idle []
        false hread (fun e => by cases e) (ChatWindow.normalizeSteps_facts x).1 hscan
      rw [List.nil_append] at hm
      exact hm

/-- C27, amended: the output of `normalizeBotMarkdown` holds a line-break marker
exactly when the input holds a `<br` (either letter case) that starts no marker
and is followed by a run of white space, complete line-break markers and an
even number of pipes, and then by `>` or `/>`; the replacements turn such a run
into white space, and the single pass does not come back to the `<br`.  For
every other input no marker is left.  Every match of the pattern is replaced by
two spaces and a newline. -/
theorem ChatWindow.normalizeBotMarkdown_no_break_marker (x : Text) :
    ChatWindow.normalizeBotMarkdown (.string x) = .string (ChatWindow.normalize x) ∧
      (ChatWindow.leavesBreak x = false →
        ¬ ChatWindow.HasBreakMarker (ChatWindow.normalize x)) ∧
      (ChatWindow.leavesBreak x = true →
        ChatWindow.HasBreakMarker (ChatWindow.normalize x)) ∧
      (∀ l out rest, ChatWindow.matchBr l = some (out, rest) → out = "  \n".toList) := by
  refine ⟨ChatWindow.normalizeBotMarkdown_string x, ?_, ?_, ?_⟩
  · intro h hm
    rw [(ChatWindow.hasBreakMarker_normalize_iff x).mp hm] at h
    cases h
  · exact (ChatWindow.hasBreakMarker_normalize_iff x).mpr
  · intro l out rest h
    exact (ChatWindow.matchBr_some l out rest h).1

theorem ChatWindow.normalizeBotMarkdown_no_break_marker_witness :
    ¬ ChatWindow.HasBreakMarker (ChatWindow.normalize "1 < 2<br>ok".toList) ∧
      ¬ ChatWindow.HasBreakMarker (ChatWindow.normalize "<b>hi</b><br/>there".toList) ∧
      ¬ ChatWindow.HasBreakMarker
        (ChatWindow.normalize "one<br>two<BR />\n three<bR/> <brown> <br|>".toList) ∧
      ChatWindow.HasBreakMarker (ChatWindow.normalize "<br | <br/> | />".toList) :=
  ⟨(ChatWindow.normalizeBotMarkdown_no_break_marker "1 < 2<br>ok".toList).2.1 (by decide),
    (ChatWindow.normalizeBotMarkdown_no_break_marker "<b>hi</b><br/>there".toList).2.1
      (by decide),
    (ChatWindow.normalizeBotMarkdown_no_break_marker
      "one<br>two<BR />\n three<bR/> <brown> <br|>".toList).2.1 (by decide),
    (ChatWindow.normalizeBotMarkdown_no_break_marker "<br | <br/> | />".toList).2.2.1
      (by decide)⟩

/-! ## One attempt at a time -/

theorem MessageInput.runTurns_none (p : MessageInput.Props) (o : MessageInput.Outcomes)
    (n : Nat) (st : MessageInput.State) (effects : List MessageInput.Effect) :
    MessageInput.runTurns p o n (st, effects, none) = (st, effects) := by
  cases n <;> rfl

theorem MessageInput.runTurns_some (p : MessageInput.Props) (o : MessageInput.Outcomes)
    (n : Nat) (st : MessageInput.State) (effects : List MessageInput.Effect)
    (a : MessageInput.Await) :
    MessageInput.runTurns p o (n + 1) (st, effects, some a)
      = MessageInput.runTurns p o n
          ((MessageInput.resume p o st a).1, effects ++ (MessageInput.resume p o st a).2.1,
            (MessageInput.resume p o st a).2.2) := rfl

/-- The turns from the call of `sendMessageAction` to the end of the handler
make the calls of `requestReply` and leave its state, with `isLoading` reset. -/
theorem MessageInput.runTurns_action (p : MessageInput.Props) (o : MessageInput.Outcomes)
    (st : MessageInput.State) (chatIdUuid messageContent : Text)
    (before : List MessageInput.Effect) (n : Nat) :
    MessageInput.runTurns p o (n + 4)
        (st, before ++ [.sendMessageAction chatIdUuid messageContent],
          some (.sendMessageAction chatIdUuid messageContent))
      = ({ (MessageInput.requestReply p o chatIdUuid messageContent st).1 with
            isLoading := false },
          before ++ (MessageInput.requestReply p o chatIdUuid messageContent st).2) := by
  cases hact : o.sendMessageAction with
  | error err =>
    simp [MessageInput.runTurns_none, MessageInput.runTurns, MessageInput.resume,
      MessageInput.requestReply, hact, MessageInput.finish]
  | ok result =>
    cases hr : result.sendMessage with
    | none =>
      cases herrs : result.errors <;>
        simp [MessageInput.runTurns_none, MessageInput.runTurns, MessageInput.resume,
          MessageInput.requestReply, hact, hr, herrs, MessageInput.finish]
    | some reply =>
      cases hok : reply.success with
      | false =>
        simp [MessageInput.runTurns_none, MessageInput.runTurns, MessageInput.resume,
          MessageInput.requestReply, hact, hr, hok, MessageInput.finish]
      | true =>
        cases hsave : o.saveBotResponse with
        | error e1 =>
          cases hfb : o.saveBotResponseFallback <;>
            simp [MessageInput.runTurns_none, MessageInput.runTurns, MessageInput.resume,
              MessageInput.requestReply, hact, hr, hok, MessageInput.saveReply,
              MessageInput.saveFallback, hsave, hfb, MessageInput.finish,
              MessageInput.callFallback]
        | ok saved =>
          cases hid2 : MessageInput.truthy saved.id with
          | false =>
            simp [MessageInput.runTurns_none, MessageInput.runTurns, MessageInput.resume,
              MessageInput.requestReply, hact, hr, hok, MessageInput.saveReply, hsave, hid2,
              MessageInput.finish]
          | true =>
            cases hrf : o.refetchMessages with
            | ok u2 =>
              cases hcb : p.onMessageSent <;>
                simp [MessageInput.runTurns_none, MessageInput.runTurns, MessageInput.resume,
                  MessageInput.requestReply, hact, hr, hok, MessageInput.saveReply, hsave,
                  hid2, hrf, hcb, MessageInput.finish]
            | error e2 =>
              cases hfb : o.saveBotResponseFallback <;>
                simp [MessageInput.runTurns_none, MessageInput.runTurns, MessageInput.resume,
                  MessageInput.requestReply, hact, hr, hok, MessageInput.saveReply,
                  MessageInput.saveFallback, hsave, hid2, hrf, hfb, MessageInput.finish,
                  MessageInput.callFallback]

/-- The handler taken turn by turn is the handler taken as a whole: when no
other event comes between its turns and every awaited call settles as `o`
tells, at most six turns follow the first one, and the state they leave and the
calls they make are those of `handleSubmit`. -/
theorem MessageInput.runTurns_start (p : MessageInput.Props) (o : MessageInput.Outcomes)
    (st : MessageInput.State) :
    MessageInput.runTurns p o 6 (MessageInput.start p st) = MessageInput.handleSubmit p o st := by
  by_cases hg : trim st.message = [] ∨ st.isLoading = true
  · simp [MessageInput.start, MessageInput.handleSubmit, hg, MessageInput.runTurns]
  · simp only [MessageInput.start, MessageInput.handleSubmit, hg, if_false]
    cases hid : MessageInput.validateChatId p.chatId with
    | error err =>
      simp [MessageInput.attempt, hid, MessageInput.finish, MessageInput.runTurns,
        MessageInput.runTurns_none]
    | ok chatIdUuid =>
      cases hsend : o.sendMessage with
      | error err =>
        simp [MessageInput.attempt, hid, hsend, MessageInput.finish, MessageInput.runTurns,
          MessageInput.runTurns_none, MessageInput.resume]
      | ok u =>
        by_cases ht : p.isFirstMessage = true ∧ p.chatTitle = "New Chat".toList
        · have h5 := MessageInput.runTurns_action p o
            ⟨[], true, [], []⟩ chatIdUuid (trim st.message)
            [.preventDefault, .sendMessage chatIdUuid (trim st.message),
              .updateChatTitle chatIdUuid (MessageInput.deriveTitle (trim st.message))] 0
          have e1 : MessageInput.resume p o ⟨[], true, [], []⟩
              (.sendMessage chatIdUuid (trim st.message))
              = (⟨[], true, [], []⟩,
                  [.updateChatTitle chatIdUuid (MessageInput.deriveTitle (trim st.message))],
                  some (.updateChatTitle chatIdUuid (trim st.message))) := by
            simp only [MessageInput.resume, hsend]
            rw [if_pos ht]
          have e2 : MessageInput.resume p o ⟨[], true, [], []⟩
              (.updateChatTitle chatIdUuid (trim st.message))
              = MessageInput.callAction chatIdUuid (trim st.message) ⟨[], true, [], []⟩ := by
            cases htitle : o.updateChatTitle <;> simp [MessageInput.resume, htitle]
          have e3 : MessageInput.updateTitle p o chatIdUuid (trim st.message)
              = [.updateChatTitle chatIdUuid (MessageInput.deriveTitle (trim st.message))] := by
            unfold MessageInput.updateTitle
            rw [if_pos ht]
            cases htitle : o.updateChatTitle <;> rfl
          simp only [MessageInput.attempt, hid, hsend, e3]
          rw [MessageInput.runTurns_some, e1, MessageInput.runTurns_some, e2]
          simp only [MessageInput.callAction]
          exact h5
        · have h5 := MessageInput.runTurns_action p o
            ⟨[], true, [], []⟩ chatIdUuid (trim st.message)
            [.preventDefault, .sendMessage chatIdUuid (trim st.message)] 1
          have e1 : MessageInput.resume p o ⟨[], true, [], []⟩
              (.sendMessage chatIdUuid (trim st.message))
              = MessageInput.callAction chatIdUuid (trim st.message) ⟨[], true, [], []⟩ := by
            simp only [MessageInput.resume, hsend]
            rw [if_neg ht]
          have e3 : MessageInput.updateTitle p o chatIdUuid (trim st.message) = [] := by
            unfold MessageInput.updateTitle
            rw [if_neg ht]
          simp only [MessageInput.attempt, hid, hsend, e3]
          rw [MessageInput.runTurns_some, e1]
          simp only [MessageInput.callAction]
          exact h5

/-- While `isLoading` is true the first turn returns at line 70. -/
theorem MessageInput.start_loading (p : MessageInput.Props) (st : MessageInput.State)
    (h : st.isLoading = true) :
    MessageInput.start p st = (st, [.preventDefault], none) := by
  simp [MessageInput.start, h]

/-- The first turn either returns and leaves `isLoading` as it was, or is
suspended at an `await` and has set `isLoading`. -/
theorem MessageInput.start_idle (p : MessageInput.Props) (st : MessageInput.State) :
    ((MessageInput.start p st).2.2 = none ∧
        (MessageInput.start p st).1.isLoading = st.isLoading) ∨
      (∃ a, (MessageInput.start p st).2.2 = some a ∧
        (MessageInput.start p st).1.isLoading = true) := by
  by_cases hg : trim st.message = [] ∨ st.isLoading = true
  · left
    simp [MessageInput.start, hg]
  · have hl : st.isLoading = false := by
      cases h : st.isLoading with
      | false => rfl
      | true => exact absurd (Or.inr h) hg
    simp only [MessageInput.start, hg, if_false]
    cases hid : MessageInput.validateChatId p.chatId with
    | error err =>
      left
      simp [MessageInput.finish, hl]
    | ok chatIdUuid =>
      right
      exact ⟨_, rfl, rfl⟩

/-- A later turn either ends the call and resets `isLoading` (the `finally`
block), or is suspended again and leaves `isLoading` as it is. -/
theorem MessageInput.resume_loading (p : MessageInput.Props) (o : MessageInput.Outcomes)
    (st : MessageInput.State) (a : MessageInput.Await) :
    ((MessageInput.resume p o st a).2.2 = none ∧
        (MessageInput.resume p o st a).1.isLoading = false) ∨
      (∃ b, (MessageInput.resume p o st a).2.2 = some b ∧
        (MessageInput.resume p o st a).1.isLoading = st.isLoading) := by
  cases a with
  | sendMessage chatIdUuid messageContent =>
    cases hsend : o.sendMessage with
    | error err =>
      left
      simp [MessageInput.resume, hsend, MessageInput.finish]
    | ok u =>
      right
      simp only [MessageInput.resume, hsend]
      split
      · exact ⟨_, rfl, rfl⟩
      · exact ⟨_, rfl, rfl⟩
  | updateChatTitle chatIdUuid messageContent =>
    right
    cases ht : o.updateChatTitle <;>
      (refine ⟨.sendMessageAction chatIdUuid messageContent, ?_, ?_⟩ <;>
        simp [MessageInput.resume, ht, MessageInput.callAction])
  | sendMessageAction chatIdUuid messageContent =>
    cases hact : o.sendMessageAction with
    | error err =>
      left
      simp [MessageInput.resume, hact, MessageInput.finish]
    | ok result =>
      cases hr : result.sendMessage with
      | none =>
        cases herrs : result.errors <;>
          (left; simp [MessageInput.resume, hact, hr, herrs, MessageInput.finish])
      | some reply =>
        cases hok : reply.success with
        | false =>
          left
          simp [MessageInput.resume, hact, hr, hok, MessageInput.finish]
        | true =>
          right
          simp only [MessageInput.resume, hact, hr, hok]
          exact ⟨_, rfl, rfl⟩
  | saveBotResponse chatIdUuid responseContent =>
    cases hsave : o.saveBotResponse with
    | error err =>
      right
      refine ⟨.saveBotResponseFallback, ?_, ?_⟩ <;>
        simp [MessageInput.resume, hsave, MessageInput.callFallback]
    | ok saved =>
      cases hid : MessageInput.truthy saved.id with
      | false =>
        left
        simp [MessageInput.resume, hsave, hid, MessageInput.finish]
      | true =>
        right
        simp only [MessageInput.resume, hsave, hid]
        exact ⟨_, rfl, rfl⟩
  | refetchMessages chatIdUuid responseContent =>
    cases hrf : o.refetchMessages with
    | error err =>
      right
      refine ⟨.saveBotResponseFallback, ?_, ?_⟩ <;>
        simp [MessageInput.resume, hrf, MessageInput.callFallback]
    | ok u =>
      left
      simp [MessageInput.resume, hrf, MessageInput.finish]
  | saveBotResponseFallback =>
    cases hfb : o.saveBotResponseFallback <;>
      (left; simp [MessageInput.resume, hfb, MessageInput.finish])

/-- Every event keeps the form with at most one call in flight, `isLoading`
telling whether there is one. -/
theorem MessageInput.oneAttempt_step (f : MessageInput.Mounted) (e : MessageInput.FormEvent)
    (h : f.OneAttempt) : (f.step e).1.OneAttempt := by
  cases e with
  | change value => exact h
  | render props => exact h
  | fireTimer r =>
    simp only [MessageInput.Mounted.step]
    split
    · exact h
    · exact h
  | submit =>
    rcases h with ⟨h1, h2⟩ | ⟨a, h1, h2⟩
    · rcases MessageInput.start_idle f.props f.state with ⟨h3, h4⟩ | ⟨b, h3, h4⟩
      · left
        simp [MessageInput.Mounted.step, h1, h3, h4, h2]
      · right
        exact ⟨⟨f.props, b⟩, by simp [MessageInput.Mounted.step, h1, h3],
          by simp [MessageInput.Mounted.step, h4]⟩
    · right
      refine ⟨a, ?_, ?_⟩
      · simp [MessageInput.Mounted.step, MessageInput.start_loading f.props f.state h2, h1]
      · simp [MessageInput.Mounted.step, MessageInput.start_loading f.props f.state h2, h2]
  | settle i o =>
    rcases h with ⟨h1, h2⟩ | ⟨a, h1, h2⟩
    · left
      simp [MessageInput.Mounted.step, h1, h2]
    · cases i with
      | succ i =>
        right
        exact ⟨a, by simp [MessageInput.Mounted.step, h1],
          by simp [MessageInput.Mounted.step, h1, h2]⟩
      | zero =>
        rcases MessageInput.resume_loading a.props o f.state a.awaiting with
          ⟨h3, h4⟩ | ⟨b, h3, h4⟩
        · left
          simp [MessageInput.Mounted.step, h1, h3, h4]
        · right
          exact ⟨⟨a.props, b⟩, by simp [MessageInput.Mounted.step, h1, h3],
            by simp [MessageInput.Mounted.step, h1, h4, h2]⟩

theorem MessageInput.oneAttempt_run (events : List MessageInput.FormEvent) :
    ∀ f : MessageInput.Mounted, f.OneAttempt → (f.run events).OneAttempt := by
  induction events with
  | nil => intro f h; exact h
  | cons e rest ih =>
    intro f h
    exact ih _ (MessageInput.oneAttempt_step f e h)

/-- C6 fails as stated: `isLoading` belongs to one mounted form.  A call is in
flight for the example conversation when `ChatWindow` stops rendering the form
(another conversation is loading) and later renders it again; the new form
starts with `isLoading` false, so the next submission calls `sendMessage` and
two calls of the handler are in flight for the same conversation. -/
theorem ChatWindow.two_attempts_after_remount :
    (ChatWindow.Window.run ⟨none, []⟩ ChatWindow.backAndForth).1.inFlight.map (·.awaiting)
        = [.sendMessage MessageInput.exampleChatId "again".toList,
           .sendMessage MessageInput.exampleChatId "hello".toList] ∧
      (ChatWindow.Window.run ⟨none, []⟩ ChatWindow.backAndForth).2
        = [.preventDefault, .sendMessage MessageInput.exampleChatId "hello".toList,
           .preventDefault, .sendMessage MessageInput.exampleChatId "again".toList] ∧
      ((ChatWindow.Window.run ⟨none, []⟩ ChatWindow.backAndForth).1.form.map
        (·.state.isLoading)) = some true := by
  decide

/-- While `isLoading` is true the handler returns at line 70: it only calls
`preventDefault`, whatever the text, the props and the outcomes. -/
theorem MessageInput.handleSubmit_guard (p : MessageInput.Props)
    (o : MessageInput.Outcomes) (st : MessageInput.State) (h : st.isLoading = true) :
    MessageInput.handleSubmit p o st = (st, [MessageInput.Effect.preventDefault]) := by
  simp [MessageInput.handleSubmit, h]

/-- C6, amended: in every state a mounted form reaches, at most one call of its
handler is in flight, and one is in flight exactly while `isLoading` is true;
while it is, a submission of any text makes no call but `preventDefault` and
leaves the form, its state cells included, as it is.  For any state whose
`isLoading` is true the handler returns at once, without a remote call and
without a state change.  The flag belongs to the mounted form: when
`ChatWindow` stops rendering the form, the form is unmounted and its calls in
flight go on, and when `ChatWindow` renders the form again, the new form starts
with `isLoading` false and no call in flight, whatever is in flight for the
earlier forms. -/
theorem MessageInput.handleSubmit_while_loading (p : MessageInput.Props)
    (events : List MessageInput.FormEvent) :
    ((MessageInput.mount p).run events).inFlight.length ≤ 1 ∧
      (((MessageInput.mount p).run events).inFlight ≠ [] ↔
        ((MessageInput.mount p).run events).state.isLoading = true) ∧
      (((MessageInput.mount p).run events).state.isLoading = true →
        ∀ value : Text,
          ((((MessageInput.mount p).run events).step (.change value)).1.step .submit)
            = ((((MessageInput.mount p).run events).step (.change value)).1,
                [MessageInput.Effect.preventDefault])) ∧
      (∀ (q : MessageInput.Props) (o : MessageInput.Outcomes) (st : MessageInput.State),
        st.isLoading = true →
          MessageInput.handleSubmit q o st = (st, [MessageInput.Effect.preventDefault]) ∧
            MessageInput.start q st = (st, [MessageInput.Effect.preventDefault], none) ∧
            ∀ e ∈ (MessageInput.handleSubmit q o st).2, e.isRemoteCall = false) ∧
      (∀ (w : ChatWindow.Window) (f : MessageInput.Mounted) (chatIdString : Option Text)
          (loading error : Bool) (q : MessageInput.Props),
        w.form = some f → ChatWindow.rendersForm chatIdString loading error = false →
          (w.step (.render chatIdString loading error q)).1
            = { form := none, unmounted := w.unmounted ++ [f] }) ∧
      (∀ (w : ChatWindow.Window) (chatIdString : Option Text) (loading error : Bool)
          (q : MessageInput.Props),
        w.form = none → ChatWindow.rendersForm chatIdString loading error = true →
          (w.step (.render chatIdString loading error q)).1
              = { form := some (MessageInput.mount q), unmounted := w.unmounted } ∧
            (MessageInput.mount q).state.isLoading = false ∧
            (MessageInput.mount q).inFlight = []) := by
  have hinv : ((MessageInput.mount p).run events).OneAttempt :=
    MessageInput.oneAttempt_run events _ (Or.inl ⟨rfl, rfl⟩)
  refine ⟨?_, ?_, ?_, ?_, ?_, ?_⟩
  rotate_left 4
  · intro w f chatIdString loading error q hf hr
    simp [ChatWindow.Window.step, hr, hf]
  · intro w chatIdString loading error q hf hr
    refine ⟨?_, rfl, rfl⟩
    simp [ChatWindow.Window.step, hr, hf]
  · rcases hinv with ⟨h1, _⟩ | ⟨a, h1, _⟩ <;> rw [h1] <;> simp
  · rcases hinv with ⟨h1, h2⟩ | ⟨a, h1, h2⟩
    · rw [h1, h2]
      simp
    · rw [h1, h2]
      simp
  · intro hl value
    have hs : MessageInput.start ((MessageInput.mount p).run events).props
        { ((MessageInput.mount p).run events).state with message := value }
        = ({ ((MessageInput.mount p).run events).state with message := value },
            [MessageInput.Effect.preventDefault], none) :=
      MessageInput.start_loading _ _ hl
    simp [MessageInput.Mounted.step, hs, MessageInput.newTimers, MessageInput.Effect.isTimer]
  · intro q o st hl
    have h1 := MessageInput.handleSubmit_guard q o st hl
    refine ⟨h1, MessageInput.start_loading q st hl, ?_⟩
    rw [h1]
    intro e he
    simp at he
    subst he
    rfl

theorem MessageInput.handleSubmit_while_loading_witness :
    ((MessageInput.mount MessageInput.sampleProps).run
        [.change "hello".toList, .submit]).state.isLoading = true ∧
      ((((MessageInput.mount MessageInput.sampleProps).run
          [.change "hello".toList, .submit]).step (.change "again".toList)).1.step .submit).2
        = [MessageInput.Effect.preventDefault] :=
  ⟨by decide,
    by rw [(MessageInput.handleSubmit_while_loading MessageInput.sampleProps
      [.change "hello".toList, .submit]).2.2.1 (by decide) "again".toList]⟩
